import Mathlib

/-!
# World-state-view command layer and block simulator

A verification development for the ledger node slice made of

* `irohad/ametsuchi/impl/postgres_wsv_command.cpp`: every operation of
  `PostgresWsvCommand` assembles one SQL statement by string concatenation
  and hands it to the store cursor;
* the block simulator, whose behaviour is exercised by
  `test/module/irohad/simulator/simulator_test.cpp`.

The first part embeds the statement assembly character by character.  The
second part gives the tables of the store and the meaning of the statement
of `setAccountKV`, the third part the simulator pipeline.  The fourth part
reads the text of a statement as the store does, tokens first and then the
statement they write, and runs it on the tables: the theorems on the effect
of an operation are about the text that the operation assembles.
-/

namespace Iroha

/-! ## Part 1: statement assembly -/

/-- A public key, `pubkey_t`: an opaque sequence of bytes. -/
abbrev pubkey_t := List Nat

/-- The quoting functions of the store cursor (`transaction_.quote`), which
the command layer calls but does not define.  `quote` is the overload for
strings, `quoteNat` the one for unsigned integers, `quoteRaw` the one for
`pqxx::binarystring`. -/
structure Quoter where
  quote : String → String
  quoteNat : Nat → String
  quoteRaw : pubkey_t → String

/-- The value `model::Account`. -/
structure Account where
  account_id : String
  domain_id : String
  quorum : Nat
  transaction_count : Nat
  json_data : String
deriving DecidableEq, Repr

/-- The value `model::Asset`. -/
structure Asset where
  asset_id : String
  domain_id : String
  precision : Nat
deriving DecidableEq, Repr

/-- The value `model::AccountAsset`; `balance` holds `balance.to_string()`. -/
structure AccountAsset where
  account_id : String
  asset_id : String
  balance : String
deriving DecidableEq, Repr

/-- The value `model::Peer`. -/
structure Peer where
  pubkey : pubkey_t
  address : String
deriving DecidableEq, Repr

/-- The value `model::Domain`. -/
structure Domain where
  domain_id : String
  default_role : String
deriving DecidableEq, Repr

/-- Modelled from the spec: the constant `default_tx_counter`, declared in the
header of the command layer; the transaction counter written by
`insertAccount` and `updateAccount` is the fixed default 0. -/
def default_tx_counter : Nat := 0

/-- Statement of `PostgresWsvCommand::insertRole`. -/
def insertRole (Q : Quoter) (role_name : String) : String :=
  "INSERT INTO role(role_id) VALUES (" ++ Q.quote role_name ++ ");"

/-- Statement of `PostgresWsvCommand::insertAccountRole`. -/
def insertAccountRole (Q : Quoter) (account_id role_name : String) : String :=
  "INSERT INTO account_has_roles(account_id, role_id) VALUES ("
    ++ Q.quote account_id ++ ", " ++ Q.quote role_name ++ ");"

/-- Statement of `PostgresWsvCommand::deleteAccountRole`. -/
def deleteAccountRole (Q : Quoter) (account_id role_name : String) : String :=
  "DELETE FROM account_has_roles WHERE account_id="
    ++ Q.quote account_id ++ "AND role_id=" ++ Q.quote role_name ++ ";"

/-- The lambda `entry` of `insertRolePermissions`. -/
def entry (Q : Quoter) (role_id permission : String) : String :=
  "(" ++ Q.quote role_id ++ ", " ++ Q.quote permission ++ ")"

/-- The lambda `generate_perm_string` of `insertRolePermissions`:
`std::accumulate` from the second element on, starting from the transformed
first element.  `permissions` is the iteration sequence of the `std::set`;
on the empty set the code dereferences `begin()` of an empty container, which
has no defined result. -/
def generate_perm_string (permissions : List String)
    (transform_func : String → String) : Option String :=
  match permissions with
  | [] => none
  | first :: rest =>
    some (rest.foldl (fun res perm => res ++ ", " ++ transform_func perm)
      (transform_func first))

/-- Statement of `PostgresWsvCommand::insertRolePermissions`. -/
def insertRolePermissions (Q : Quoter) (role_id : String)
    (permissions : List String) : Option String :=
  (generate_perm_string permissions (entry Q role_id)).map fun s =>
    "INSERT INTO role_has_permissions(role_id, permission_id) VALUES "
      ++ s ++ ";"

/-- Statement of `PostgresWsvCommand::insertAccountGrantablePermission`. -/
def insertAccountGrantablePermission (Q : Quoter)
    (permittee_account_id account_id permission_id : String) : String :=
  "INSERT INTO account_has_grantable_permissions(permittee_account_id, account_id, permission_id) VALUES ("
    ++ Q.quote permittee_account_id ++ ", " ++ Q.quote account_id ++ ", "
    ++ Q.quote permission_id ++ ");"

/-- Statement of `PostgresWsvCommand::deleteAccountGrantablePermission`. -/
def deleteAccountGrantablePermission (Q : Quoter)
    (permittee_account_id account_id permission_id : String) : String :=
  "DELETE FROM public.account_has_grantable_permissions WHERE permittee_account_id="
    ++ Q.quote permittee_account_id
    ++ " AND account_id=" ++ Q.quote account_id
    ++ " AND permission_id=" ++ Q.quote permission_id ++ " ;"

/-- Statement of `PostgresWsvCommand::insertAccount`. -/
def insertAccount (Q : Quoter) (account : Account) : String :=
  "INSERT INTO account(account_id, domain_id, quorum, transaction_count, data) VALUES ("
    ++ Q.quote account.account_id ++ ", "
    ++ Q.quote account.domain_id ++ ", "
    ++ Q.quoteNat account.quorum ++ ", "
    ++ Q.quoteNat default_tx_counter ++ ", "
    ++ Q.quote account.json_data ++ ");"

/-- Statement of `PostgresWsvCommand::insertAsset`. -/
def insertAsset (Q : Quoter) (asset : Asset) : String :=
  let precision := asset.precision
  "INSERT INTO asset(asset_id, domain_id, \"precision\", data) VALUES ("
    ++ Q.quote asset.asset_id ++ ", "
    ++ Q.quote asset.domain_id ++ ", "
    ++ Q.quoteNat precision ++ ", " ++ "NULL" ++ ");"

/-- Statement of `PostgresWsvCommand::upsertAccountAsset`. -/
def upsertAccountAsset (Q : Quoter) (asset : AccountAsset) : String :=
  "INSERT INTO account_has_asset(account_id, asset_id, amount) VALUES ("
    ++ Q.quote asset.account_id ++ ", "
    ++ Q.quote asset.asset_id ++ ", "
    ++ Q.quote asset.balance
    ++ ") ON CONFLICT (account_id, asset_id) DO UPDATE SET amount = EXCLUDED.amount;"

/-- Statement of `PostgresWsvCommand::insertSignatory`. -/
def insertSignatory (Q : Quoter) (signatory : pubkey_t) : String :=
  "INSERT INTO signatory(public_key) VALUES ("
    ++ Q.quoteRaw signatory ++ ") ON CONFLICT DO NOTHING;"

/-- Statement of `PostgresWsvCommand::insertAccountSignatory`. -/
def insertAccountSignatory (Q : Quoter) (account_id : String)
    (signatory : pubkey_t) : String :=
  "INSERT INTO account_has_signatory(account_id, public_key) VALUES ("
    ++ Q.quote account_id ++ ", " ++ Q.quoteRaw signatory ++ ");"

/-- Statement of `PostgresWsvCommand::deleteAccountSignatory`. -/
def deleteAccountSignatory (Q : Quoter) (account_id : String)
    (signatory : pubkey_t) : String :=
  "DELETE FROM account_has_signatory WHERE account_id = "
    ++ Q.quote account_id ++ " AND public_key = "
    ++ Q.quoteRaw signatory ++ ";"

/-- Statement of `PostgresWsvCommand::deleteSignatory`. -/
def deleteSignatory (Q : Quoter) (signatory : pubkey_t) : String :=
  let public_key := signatory
  "DELETE FROM signatory WHERE public_key = "
    ++ Q.quoteRaw public_key
    ++ " AND NOT EXISTS (SELECT 1 FROM account_has_signatory WHERE public_key = "
    ++ Q.quoteRaw public_key
    ++ ") AND NOT EXISTS (SELECT 1 FROM peer WHERE public_key = "
    ++ Q.quoteRaw public_key ++ ");"

/-- Statement of `PostgresWsvCommand::insertPeer`. -/
def insertPeer (Q : Quoter) (peer : Peer) : String :=
  "INSERT INTO peer(public_key, address) VALUES ("
    ++ Q.quoteRaw peer.pubkey ++ ", " ++ Q.quote peer.address ++ ");"

/-- Statement of `PostgresWsvCommand::deletePeer`. -/
def deletePeer (Q : Quoter) (peer : Peer) : String :=
  "DELETE FROM peer WHERE public_key = "
    ++ Q.quoteRaw peer.pubkey ++ " AND address = "
    ++ Q.quote peer.address ++ ";"

/-- Statement of `PostgresWsvCommand::insertDomain`. -/
def insertDomain (Q : Quoter) (domain : Domain) : String :=
  "INSERT INTO domain(domain_id, default_role) VALUES ("
    ++ Q.quote domain.domain_id ++ ", " ++ Q.quote domain.default_role ++ ");"

/-- Statement of `PostgresWsvCommand::updateAccount`. -/
def updateAccount (Q : Quoter) (account : Account) : String :=
  "UPDATE account\n   SET quorum=" ++ Q.quoteNat account.quorum
    ++ ", transaction_count=" ++ Q.quoteNat default_tx_counter
    ++ "\n WHERE account_id=" ++ Q.quote account.account_id ++ ";"

/-- First path argument of `setAccountKV`: the text `{creator}`. -/
def kvCreatorPath (creator_account_id : String) : String :=
  "\x7b" ++ creator_account_id ++ "\x7d"

/-- Second path argument of `setAccountKV`: the text `{creator, key}`. -/
def kvPath (creator_account_id key : String) : String :=
  "\x7b" ++ creator_account_id ++ ", " ++ key ++ "\x7d"

/-- Value argument of `setAccountKV`: `val` between two double quotes. -/
def kvValue (val : String) : String :=
  "\"" ++ val ++ "\""

/-- Statement of `PostgresWsvCommand::setAccountKV`. -/
def setAccountKV (Q : Quoter)
    (account_id creator_account_id key val : String) : String :=
  "UPDATE account SET data = jsonb_set(CASE WHEN data ?"
    ++ Q.quote creator_account_id
    ++ " THEN data ELSE jsonb_set(data, "
    ++ Q.quote (kvCreatorPath creator_account_id) ++ ","
    ++ Q.quote "\x7b\x7d" ++ ") END,"
    ++ Q.quote (kvPath creator_account_id key)
    ++ "," ++ Q.quote (kvValue val)
    ++ ") WHERE account_id=" ++ Q.quote account_id ++ ";"

/-- A concrete quoter for evaluating statements: a string literal between
single quotes with every single quote doubled, a number between single
quotes, a byte string as a list of decimal byte values. -/
def litQuoter : Quoter where
  quote s := "'" ++ String.mk (s.data.flatMap fun c => if c = '\'' then [c, c] else [c]) ++ "'"
  quoteNat n := "'" ++ toString n ++ "'"
  quoteRaw b := "'" ++ toString b ++ "'::bytea"

/-! ### Statements as sequences of fragments -/

/-- One fragment of a statement: constant SQL text, or one output of a
quoting function of the cursor. -/
inductive Frag where
  | sql (text : String)
  | str (s : String)
  | num (n : Nat)
  | raw (b : pubkey_t)
deriving DecidableEq, Repr

/-- The text of a fragment. -/
def Frag.render (Q : Quoter) : Frag → String
  | .sql text => text
  | .str s => Q.quote s
  | .num n => Q.quoteNat n
  | .raw b => Q.quoteRaw b

/-- The text of a sequence of fragments: their concatenation in order. -/
def render (Q : Quoter) (fs : List Frag) : String :=
  fs.foldl (fun acc f => acc ++ f.render Q) ""

/-- A token of a statement when every output of a quoting function counts as
one literal: constant text keeps its characters, a literal keeps only its
kind. -/
inductive Tok where
  | sql (text : String)
  | strLit
  | numLit
  | rawLit
deriving DecidableEq, Repr

/-- The token of a fragment. -/
def Frag.tok : Frag → Tok
  | .sql text => .sql text
  | .str _ => .strLit
  | .num _ => .numLit
  | .raw _ => .rawLit

/-- The operations of the command layer. -/
inductive Op where
  | insertRole | insertAccountRole | deleteAccountRole | insertRolePermissions
  | insertAccountGrantablePermission | deleteAccountGrantablePermission
  | insertAccount | insertAsset | upsertAccountAsset | insertSignatory
  | insertAccountSignatory | deleteAccountSignatory | deleteSignatory
  | insertPeer | deletePeer | insertDomain | updateAccount | setAccountKV
deriving DecidableEq, Repr

/-- A call of an operation of the command layer with its arguments. -/
inductive Command where
  | insertRole (role_name : String)
  | insertAccountRole (account_id role_name : String)
  | deleteAccountRole (account_id role_name : String)
  | insertRolePermissions (role_id : String) (permissions : List String)
  | insertAccountGrantablePermission (permittee_account_id account_id permission_id : String)
  | deleteAccountGrantablePermission (permittee_account_id account_id permission_id : String)
  | insertAccount (account : Account)
  | insertAsset (asset : Asset)
  | upsertAccountAsset (asset : AccountAsset)
  | insertSignatory (signatory : pubkey_t)
  | insertAccountSignatory (account_id : String) (signatory : pubkey_t)
  | deleteAccountSignatory (account_id : String) (signatory : pubkey_t)
  | deleteSignatory (signatory : pubkey_t)
  | insertPeer (peer : Peer)
  | deletePeer (peer : Peer)
  | insertDomain (domain : Domain)
  | updateAccount (account : Account)
  | setAccountKV (account_id creator_account_id key val : String)
deriving DecidableEq, Repr

/-- The operation a call belongs to. -/
def Command.op : Command → Op
  | .insertRole .. => .insertRole
  | .insertAccountRole .. => .insertAccountRole
  | .deleteAccountRole .. => .deleteAccountRole
  | .insertRolePermissions .. => .insertRolePermissions
  | .insertAccountGrantablePermission .. => .insertAccountGrantablePermission
  | .deleteAccountGrantablePermission .. => .deleteAccountGrantablePermission
  | .insertAccount .. => .insertAccount
  | .insertAsset .. => .insertAsset
  | .upsertAccountAsset .. => .upsertAccountAsset
  | .insertSignatory .. => .insertSignatory
  | .insertAccountSignatory .. => .insertAccountSignatory
  | .deleteAccountSignatory .. => .deleteAccountSignatory
  | .deleteSignatory .. => .deleteSignatory
  | .insertPeer .. => .insertPeer
  | .deletePeer .. => .deletePeer
  | .insertDomain .. => .insertDomain
  | .updateAccount .. => .updateAccount
  | .setAccountKV .. => .setAccountKV

/-- The number of permissions of a call of `insertRolePermissions`, 0 for
every other call. -/
def Command.permCount : Command → Nat
  | .insertRolePermissions _ permissions => permissions.length
  | _ => 0

/-- The statement a call hands to the cursor; `none` where the code has no
defined result (`insertRolePermissions` on the empty set). -/
def Command.statement (Q : Quoter) : Command → Option String
  | .insertRole r => some (Iroha.insertRole Q r)
  | .insertAccountRole a r => some (Iroha.insertAccountRole Q a r)
  | .deleteAccountRole a r => some (Iroha.deleteAccountRole Q a r)
  | .insertRolePermissions r ps => Iroha.insertRolePermissions Q r ps
  | .insertAccountGrantablePermission p a i =>
      some (Iroha.insertAccountGrantablePermission Q p a i)
  | .deleteAccountGrantablePermission p a i =>
      some (Iroha.deleteAccountGrantablePermission Q p a i)
  | .insertAccount a => some (Iroha.insertAccount Q a)
  | .insertAsset a => some (Iroha.insertAsset Q a)
  | .upsertAccountAsset a => some (Iroha.upsertAccountAsset Q a)
  | .insertSignatory k => some (Iroha.insertSignatory Q k)
  | .insertAccountSignatory a k => some (Iroha.insertAccountSignatory Q a k)
  | .deleteAccountSignatory a k => some (Iroha.deleteAccountSignatory Q a k)
  | .deleteSignatory k => some (Iroha.deleteSignatory Q k)
  | .insertPeer p => some (Iroha.insertPeer Q p)
  | .deletePeer p => some (Iroha.deletePeer Q p)
  | .insertDomain d => some (Iroha.insertDomain Q d)
  | .updateAccount a => some (Iroha.updateAccount Q a)
  | .setAccountKV a c k v => some (Iroha.setAccountKV Q a c k v)

/-- The fragments of one tuple of the VALUES list of `insertRolePermissions`. -/
def tupleFrags (role_id permission : String) : List Frag :=
  [.sql "(", .str role_id, .sql ", ", .str permission, .sql ")"]

/-- The fragments of the tuples after the first one, each behind a
separator. -/
def moreTupleFrags (role_id : String) : List String → List Frag
  | [] => []
  | p :: ps => .sql ", " :: (tupleFrags role_id p ++ moreTupleFrags role_id ps)

/-- The statement of a call described as a sequence of fragments: the
constant texts of the operation, and each user-supplied value as one quoted
literal. -/
def Command.fragments : Command → Option (List Frag)
  | .insertRole r =>
      some [.sql "INSERT INTO role(role_id) VALUES (", .str r, .sql ");"]
  | .insertAccountRole a r =>
      some [.sql "INSERT INTO account_has_roles(account_id, role_id) VALUES (",
        .str a, .sql ", ", .str r, .sql ");"]
  | .deleteAccountRole a r =>
      some [.sql "DELETE FROM account_has_roles WHERE account_id=", .str a,
        .sql "AND role_id=", .str r, .sql ";"]
  | .insertRolePermissions _ [] => none
  | .insertRolePermissions r (p :: ps) =>
      some (.sql "INSERT INTO role_has_permissions(role_id, permission_id) VALUES "
        :: (tupleFrags r p ++ (moreTupleFrags r ps ++ [.sql ";"])))
  | .insertAccountGrantablePermission p a i =>
      some [.sql "INSERT INTO account_has_grantable_permissions(permittee_account_id, account_id, permission_id) VALUES (",
        .str p, .sql ", ", .str a, .sql ", ", .str i, .sql ");"]
  | .deleteAccountGrantablePermission p a i =>
      some [.sql "DELETE FROM public.account_has_grantable_permissions WHERE permittee_account_id=",
        .str p, .sql " AND account_id=", .str a, .sql " AND permission_id=",
        .str i, .sql " ;"]
  | .insertAccount a =>
      some [.sql "INSERT INTO account(account_id, domain_id, quorum, transaction_count, data) VALUES (",
        .str a.account_id, .sql ", ", .str a.domain_id, .sql ", ",
        .num a.quorum, .sql ", ", .num 0, .sql ", ", .str a.json_data,
        .sql ");"]
  | .insertAsset a =>
      some [.sql "INSERT INTO asset(asset_id, domain_id, \"precision\", data) VALUES (",
        .str a.asset_id, .sql ", ", .str a.domain_id, .sql ", ",
        .num a.precision, .sql ", ", .sql "NULL", .sql ");"]
  | .upsertAccountAsset a =>
      some [.sql "INSERT INTO account_has_asset(account_id, asset_id, amount) VALUES (",
        .str a.account_id, .sql ", ", .str a.asset_id, .sql ", ",
        .str a.balance,
        .sql ") ON CONFLICT (account_id, asset_id) DO UPDATE SET amount = EXCLUDED.amount;"]
  | .insertSignatory k =>
      some [.sql "INSERT INTO signatory(public_key) VALUES (", .raw k,
        .sql ") ON CONFLICT DO NOTHING;"]
  | .insertAccountSignatory a k =>
      some [.sql "INSERT INTO account_has_signatory(account_id, public_key) VALUES (",
        .str a, .sql ", ", .raw k, .sql ");"]
  | .deleteAccountSignatory a k =>
      some [.sql "DELETE FROM account_has_signatory WHERE account_id = ",
        .str a, .sql " AND public_key = ", .raw k, .sql ";"]
  | .deleteSignatory k =>
      some [.sql "DELETE FROM signatory WHERE public_key = ", .raw k,
        .sql " AND NOT EXISTS (SELECT 1 FROM account_has_signatory WHERE public_key = ",
        .raw k,
        .sql ") AND NOT EXISTS (SELECT 1 FROM peer WHERE public_key = ",
        .raw k, .sql ");"]
  | .insertPeer p =>
      some [.sql "INSERT INTO peer(public_key, address) VALUES (",
        .raw p.pubkey, .sql ", ", .str p.address, .sql ");"]
  | .deletePeer p =>
      some [.sql "DELETE FROM peer WHERE public_key = ", .raw p.pubkey,
        .sql " AND address = ", .str p.address, .sql ";"]
  | .insertDomain d =>
      some [.sql "INSERT INTO domain(domain_id, default_role) VALUES (",
        .str d.domain_id, .sql ", ", .str d.default_role, .sql ");"]
  | .updateAccount a =>
      some [.sql "UPDATE account\n   SET quorum=", .num a.quorum,
        .sql ", transaction_count=", .num 0, .sql "\n WHERE account_id=",
        .str a.account_id, .sql ";"]
  | .setAccountKV a c k v =>
      some [.sql "UPDATE account SET data = jsonb_set(CASE WHEN data ?",
        .str c, .sql " THEN data ELSE jsonb_set(data, ",
        .str ("\x7b" ++ c ++ "\x7d"), .sql ",", .str "\x7b\x7d", .sql ") END,",
        .str ("\x7b" ++ c ++ ", " ++ k ++ "\x7d"), .sql ",",
        .str ("\"" ++ v ++ "\""), .sql ") WHERE account_id=", .str a,
        .sql ";"]

/-! ## Part 2: the store

The statements are run by a relational store.  This part gives the meaning
of the statements the theorems are about: the input syntax of the two
argument types of `jsonb_set` (a text array for the path, a jsonb value for
the new value), `jsonb_set` itself, and the tables with the effect of each
statement on them. -/

/-- A JSON value of a jsonb column.  An object is the list of its members,
each name at most once.  Arrays are left out: no argument written by
`setAccountKV` denotes one. -/
inductive Json where
  | null
  | bool (b : Bool)
  | num (text : String)
  | str (s : String)
  | obj (members : List (String × Json))
deriving Repr

/-- The member of a member list with the given name. -/
def Json.find : List (String × Json) → String → Option Json
  | [], _ => none
  | (k, v) :: ms, name => if k = name then some v else Json.find ms name

/-- Member lookup `j[name]`; `none` when `j` is no object or has no such
member. -/
def Json.get (j : Json) (name : String) : Option Json :=
  match j with
  | .obj ms => Json.find ms name
  | _ => none

/-- Set the member `name` of a member list: replaced where it stands when
present, added at the end otherwise. -/
def Json.put : List (String × Json) → String → Json → List (String × Json)
  | [], name, v => [(name, v)]
  | (k, w) :: ms, name, v =>
      if k = name then (k, v) :: ms else (k, w) :: Json.put ms name v

/-- The operator `data ? name`: does the text exist as a top-level member
name (for a string value: is it that string). -/
def Json.exists (j : Json) (name : String) : Bool :=
  match j with
  | .obj ms => (Json.find ms name).isSome
  | .str s => s = name
  | _ => false

/-- Whether the value is a scalar at the root. -/
def Json.isScalar : Json → Bool
  | .obj _ => false
  | _ => true

/-- The path walk of `jsonb_set` with creation of a missing last member.  A
null path element is an error when the walk reaches it; at the last element
the member is set; before it the walk continues into the member when it
exists, and changes nothing otherwise; a scalar is copied as it is. -/
def setPath : Json → List (Option String) → Json → Except String Json
  | t, [], _ => .ok t
  | _, none :: _, _ => .error "path element is null"
  | .obj ms, [some k], v => .ok (.obj (Json.put ms k v))
  | .obj ms, some k :: next :: rest, v =>
      match Json.find ms k with
      | some child =>
          match setPath child (next :: rest) v with
          | .ok child' => .ok (.obj (Json.put ms k child'))
          | .error e => .error e
      | none => .ok (.obj ms)
  | t, some _ :: _, _ => .ok t

/-- The function `jsonb_set(target, path, new_value)`. -/
def jsonb_set (target : Json) (path : List (Option String)) (new_value : Json) :
    Except String Json :=
  if target.isScalar then .error "cannot set path in scalar"
  else if path.isEmpty then .ok target
  else setPath target path new_value

/-- White space of the array input syntax. -/
def arraySpace (c : Char) : Bool :=
  c = ' ' || c = '\t' || c = '\n' || c = '\r' || c = '\x0b' || c = '\x0c'

/-- The states of the reader of a one-dimensional text array literal. -/
inductive ArrState where
  | start
  | elemStart (first : Bool) (elems : List (Option String))
  | unquoted (elems : List (Option String)) (cur ws : List Char) (escaped : Bool)
  | unquotedEsc (elems : List (Option String)) (cur : List Char)
  | quoted (elems : List (Option String)) (cur : List Char)
  | quotedEsc (elems : List (Option String)) (cur : List Char)
  | afterQuoted (elems : List (Option String))
  | closed (elems : List (Option String))
deriving DecidableEq, Repr

/-- An unquoted element that ends: the word NULL in any case, written without
escapes, is the null element. -/
def arrFinish (cur : List Char) (escaped : Bool) : Option String :=
  if !escaped && cur.map Char.toLower = ['n', 'u', 'l', 'l'] then none
  else some (String.mk cur)

/-- One character of an array literal.  `none` is a malformed literal; an
opening brace where an element starts would open a sub-array and is refused
as well, the path of `jsonb_set` being one-dimensional. -/
def arrStep : ArrState → Char → Option ArrState
  | .start, c =>
      if arraySpace c then some .start
      else if c = '{' then some (.elemStart true [])
      else none
  | .elemStart first elems, c =>
      if arraySpace c then some (.elemStart first elems)
      else if c = '}' then (if first then some (.closed elems) else none)
      else if c = ',' then none
      else if c = '{' then none
      else if c = '"' then some (.quoted elems [])
      else if c = '\\' then some (.unquotedEsc elems [])
      else some (.unquoted elems [c] [] false)
  | .unquoted elems cur ws escaped, c =>
      if c = ',' then some (.elemStart false (elems ++ [arrFinish cur escaped]))
      else if c = '}' then some (.closed (elems ++ [arrFinish cur escaped]))
      else if c = '"' then none
      else if c = '{' then none
      else if c = '\\' then some (.unquotedEsc elems (cur ++ ws))
      else if arraySpace c then some (.unquoted elems cur (ws ++ [c]) escaped)
      else some (.unquoted elems (cur ++ ws ++ [c]) [] escaped)
  | .unquotedEsc elems cur, c => some (.unquoted elems (cur ++ [c]) [] true)
  | .quoted elems cur, c =>
      if c = '"' then some (.afterQuoted (elems ++ [some (String.mk cur)]))
      else if c = '\\' then some (.quotedEsc elems cur)
      else some (.quoted elems (cur ++ [c]))
  | .quotedEsc elems cur, c => some (.quoted elems (cur ++ [c]))
  | .afterQuoted elems, c =>
      if arraySpace c then some (.afterQuoted elems)
      else if c = ',' then some (.elemStart false elems)
      else if c = '}' then some (.closed elems)
      else none
  | .closed elems, c => if arraySpace c then some (.closed elems) else none

/-- Run the reader over the characters of a literal. -/
def arrRun : ArrState → List Char → Option ArrState
  | st, [] => some st
  | st, c :: cs =>
      match arrStep st c with
      | some st' => arrRun st' cs
      | none => none

/-- Input of a text array literal: the elements it denotes (`none` for a null
element), or `none` when the store refuses the literal as a path. -/
def arrayIn (text : String) : Option (List (Option String)) :=
  match arrRun .start text.data with
  | some (.closed elems) => some elems
  | _ => none

/-- The states of the reader of a JSON string literal, entered after the
opening double quote.  `hi` holds the high half of a surrogate pair that
waits for its low half. -/
inductive JStrState where
  | body (acc : List Char) (hi : Option Nat)
  | esc (acc : List Char) (hi : Option Nat)
  | uni (acc : List Char) (hi : Option Nat) (digits : List Nat)
  | closed (acc : List Char)
deriving DecidableEq, Repr

/-- The value of a hexadecimal digit. -/
def hexVal (c : Char) : Option Nat :=
  if '0' ≤ c ∧ c ≤ '9' then some (c.toNat - '0'.toNat)
  else if 'a' ≤ c ∧ c ≤ 'f' then some (c.toNat - 'a'.toNat + 10)
  else if 'A' ≤ c ∧ c ≤ 'F' then some (c.toNat - 'A'.toNat + 10)
  else none

/-- A complete escape `\uXXXX` with value `n`. -/
def jstrUnicode (acc : List Char) (hi : Option Nat) (n : Nat) : Option JStrState :=
  if 0xd800 ≤ n ∧ n ≤ 0xdbff then
    match hi with
    | some _ => none
    | none => some (.body acc (some ((n % 0x400) * 0x400)))
  else if 0xdc00 ≤ n ∧ n ≤ 0xdfff then
    match hi with
    | some h => some (.body (acc ++ [Char.ofNat (0x10000 + h + n % 0x400)]) none)
    | none => none
  else
    match hi with
    | some _ => none
    | none => if n = 0 then none else some (.body (acc ++ [Char.ofNat n]) none)

/-- One character of a JSON string literal and of what follows it. -/
def jstrStep : JStrState → Char → Option JStrState
  | .body acc hi, c =>
      if c = '\\' then some (.esc acc hi)
      else if hi.isSome then none
      else if c = '"' then some (.closed acc)
      else if c.toNat < 32 then none
      else some (.body (acc ++ [c]) none)
  | .esc acc hi, c =>
      if c = 'u' then some (.uni acc hi [])
      else if hi.isSome then none
      else if c = '"' ∨ c = '\\' ∨ c = '/' then some (.body (acc ++ [c]) none)
      else if c = 'b' then some (.body (acc ++ ['\x08']) none)
      else if c = 'f' then some (.body (acc ++ ['\x0c']) none)
      else if c = 'n' then some (.body (acc ++ ['\n']) none)
      else if c = 'r' then some (.body (acc ++ ['\r']) none)
      else if c = 't' then some (.body (acc ++ ['\t']) none)
      else none
  | .uni acc hi digits, c =>
      match hexVal c with
      | none => none
      | some d =>
          if digits.length = 3 then
            jstrUnicode acc hi ((digits ++ [d]).foldl (fun n x => 16 * n + x) 0)
          else some (.uni acc hi (digits ++ [d]))
  | .closed acc, c =>
      if c = ' ' ∨ c = '\t' ∨ c = '\n' ∨ c = '\r' then some (.closed acc) else none

/-- Run the reader over the characters after the opening double quote. -/
def jstrRun : JStrState → List Char → Option JStrState
  | st, [] => some st
  | st, c :: cs =>
      match jstrStep st c with
      | some st' => jstrRun st' cs
      | none => none

/-- Input of a jsonb value from a text that starts with a double quote: such
a text is valid JSON exactly when it is one string literal followed by white
space only, and then it denotes that string.  `none` when the text is not
valid JSON.  Texts with another first character are outside the domain of
this reader; every value argument of `setAccountKV` starts with a double
quote. -/
def jsonbInQuoted (text : String) : Option Json :=
  match text.data with
  | '"' :: rest =>
      match jstrRun (.body [] none) rest with
      | some (.closed acc) => some (.str (String.mk acc))
      | _ => none
  | _ => none

/-! ### Tables and the effect of `setAccountKV`

The tables of the store, and the effect of the statement of `setAccountKV`
through the three literals that the code builds for `jsonb_set`.  A statement
that the store refuses changes nothing; the operation then returns the text
of its `message_gen`. -/

/-- A row of the table `account`. -/
structure AccountRow where
  account_id : String
  domain_id : String
  quorum : Nat
  transaction_count : Nat
  data : Json
deriving Repr

/-- A row of the table `asset`; `data` is always written as NULL. -/
structure AssetRow where
  asset_id : String
  domain_id : String
  precision : Nat
  data : Option Json
deriving Repr

/-- The tables of the store, each the list of its rows. -/
structure Store where
  role : List String
  account_has_roles : List (String × String)
  role_has_permissions : List (String × String)
  account_has_grantable_permissions : List (String × String × String)
  account : List AccountRow
  asset : List AssetRow
  account_has_asset : List (String × String × String)
  signatory : List pubkey_t
  account_has_signatory : List (String × pubkey_t)
  peer : List Peer
  domain : List Domain
deriving Repr

/-- The store with no rows. -/
def Store.empty : Store :=
  ⟨[], [], [], [], [], [], [], [], [], [], []⟩

/-- Two hexadecimal digits of a byte. -/
def hexByte (b : Nat) : List Char :=
  [(Nat.toDigits 16 (b / 16 % 16)).headD '0', (Nat.toDigits 16 (b % 16)).headD '0']

/-- The method `to_hexstring` of a key. -/
def to_hexstring (k : pubkey_t) : String :=
  String.mk (k.flatMap hexByte)

/-- Some row of `account_has_signatory` has this public key. -/
def Store.accountRefers (s : Store) (k : pubkey_t) : Bool :=
  s.account_has_signatory.any fun r => r.2 = k

/-- Some row of `peer` has this public key. -/
def Store.peerRefers (s : Store) (k : pubkey_t) : Bool :=
  s.peer.any fun p => p.pubkey = k

/-- The new value of `data` in the statement of `setAccountKV`:
`jsonb_set(CASE WHEN data ? creator THEN data ELSE jsonb_set(data, p1, {}) END, p2, v)`. -/
def kvData (data : Json) (creator_account_id : String)
    (p1 p2 : List (Option String)) (v : Json) : Except String Json :=
  match (if data.exists creator_account_id then .ok data
         else jsonb_set data p1 (.obj [])) with
  | .ok base => jsonb_set base p2 v
  | .error e => .error e

/-- The rows of `account` after the UPDATE of `setAccountKV`: the rows with
this account id get the new `data`; an error on one row fails the statement. -/
def kvRows (account_id creator_account_id : String)
    (p1 p2 : List (Option String)) (v : Json) :
    List AccountRow → Except String (List AccountRow)
  | [] => .ok []
  | row :: rows =>
      if row.account_id = account_id then
        match kvData row.data creator_account_id p1 p2 v with
        | .ok d =>
            match kvRows account_id creator_account_id p1 p2 v rows with
            | .ok rows' => .ok ({ row with data := d } :: rows')
            | .error e => .error e
        | .error e => .error e
      else
        match kvRows account_id creator_account_id p1 p2 v rows with
        | .ok rows' => .ok (row :: rows')
        | .error e => .error e

/-- The text of `message_gen` of `setAccountKV`. -/
def kvMessage (account_id creator_account_id key val : String) : String :=
  "failed to set account key-value, account id: '" ++ account_id
    ++ "', creator account id: '" ++ creator_account_id
    ++ "',\n key: '" ++ key ++ "', value: '" ++ val ++ "'"

/-- Effect of the statement of `setAccountKV`.  The three literals built from
the arguments are read by the store as a text array, a text array and a
jsonb value; a literal it cannot read fails the statement. -/
def Store.setAccountKV (s : Store)
    (account_id creator_account_id key val : String) : Except String Store :=
  match arrayIn (kvCreatorPath creator_account_id),
        arrayIn (kvPath creator_account_id key),
        jsonbInQuoted (kvValue val) with
  | some p1, some p2, some v =>
      match kvRows account_id creator_account_id p1 p2 v s.account with
      | .ok rows => .ok { s with account := rows }
      | .error _ => .error (kvMessage account_id creator_account_id key val)
  | _, _, _ => .error (kvMessage account_id creator_account_id key val)

/-- The store after an operation: the new store on success, the old one when
the statement was refused. -/
def Store.after (s : Store) (r : Except String Store) : Store :=
  match r with
  | .ok s' => s'
  | .error _ => s

/-- The `data` of the first row of `account` with this account id. -/
def Store.dataOf (s : Store) (account_id : String) : Option Json :=
  (s.account.find? fun row => row.account_id = account_id).map (·.data)

/-- The six operations on signatories and their referrers. -/
inductive SigOp where
  | insertSignatory (signatory : pubkey_t)
  | insertAccountSignatory (account_id : String) (signatory : pubkey_t)
  | deleteAccountSignatory (account_id : String) (signatory : pubkey_t)
  | insertPeer (peer : Peer)
  | deletePeer (peer : Peer)
  | deleteSignatory (signatory : pubkey_t)
deriving DecidableEq, Repr

/-! ## Part 3: the simulator

The implementation of the simulator is not among the sources; only its test
is.  The pipeline is modelled from its description, with the collaborators
as parameters, and yields the sequence of the calls it makes and of the
events it publishes. -/

/-- A transaction, opaque to the simulator. -/
abbrev Transaction := String

/-- A hash of a block. -/
abbrev Hash := String

/-- A record of a rejected transaction. -/
abbrev TxError := String

/-- A handle on a temporary world-state view. -/
abbrev TemporaryWsv := Nat

/-- Modelled from the spec: a proposal, with its height and its ordered
transaction list. -/
structure Proposal where
  height : Nat
  transactions : List Transaction
deriving DecidableEq, Repr

/-- Modelled from the spec: a block, with the three fields the simulator
sets and the signatures attached to it. -/
structure Block where
  height : Nat
  prev_hash : Hash
  transactions : List Transaction
  signatures : List String
deriving DecidableEq, Repr

/-- Modelled from the spec: the collaborators of the simulator.
`createBlockQuery` tells whether the factory has a block query to give,
`getTopBlock` is the read of the top block, which can fail,
`createTemporaryWsv` the temporary view the factory issues, `validate` the
stateful validator, `hash` the hash of a block, `sign` the signature the
signer attaches. -/
structure Collaborators where
  createBlockQuery : Bool
  getTopBlock : Except String Block
  createTemporaryWsv : TemporaryWsv
  validate : Proposal → TemporaryWsv → Proposal × List TxError
  hash : Block → Hash
  sign : Block → String

/-- What the simulator does that can be observed: a call of a collaborator,
or an event on one of its two output streams. -/
inductive Event where
  | createBlockQuery
  | getTopBlock
  | createTemporaryWsv
  | validate (proposal : Proposal)
  | sign (block : Block)
  | onVerifiedProposal (verified : Proposal) (errors : List TxError)
  | on_block (block : Block)
deriving DecidableEq, Repr

/-- Events on an output stream. -/
def Event.isOutput : Event → Bool
  | .onVerifiedProposal .. => true
  | .on_block .. => true
  | _ => false

/-- The events of a trace on the two output streams, in order. -/
def outputs (trace : List Event) : List Event :=
  trace.filter Event.isOutput

/-- Modelled from the spec: steps 3 to 8 of the algorithm on an incoming
proposal, run once the parent height matched: acquire a temporary view,
validate, publish the verified proposal, build the block with the height of
the proposal, the hash of the top block and the transactions of the verified
proposal, have it signed, publish it. -/
def simulate (C : Collaborators) (proposal : Proposal) (top : Block) : List Event :=
  let wsv := C.createTemporaryWsv
  let verified := C.validate proposal wsv
  let block : Block :=
    { height := proposal.height
      prev_hash := C.hash top
      transactions := verified.1.transactions
      signatures := [] }
  let signed : Block := { block with signatures := block.signatures ++ [C.sign block] }
  [.createTemporaryWsv, .validate proposal,
    .onVerifiedProposal verified.1 verified.2, .sign block, .on_block signed]

/-- Modelled from the spec: the algorithm on an incoming proposal of height
H.  Step 1: without a block query the proposal is dropped.  Step 2: the
proposal is dropped when the read of the top block T fails or when
`T.height ≠ H − 1`.  Otherwise steps 3 to 8 follow. -/
def processProposal (C : Collaborators) (proposal : Proposal) : List Event :=
  if C.createBlockQuery then
    match C.getTopBlock with
    | .error _ => [.createBlockQuery, .getTopBlock]
    | .ok top =>
        if (top.height : Int) ≠ (proposal.height : Int) - 1 then
          [.createBlockQuery, .getTopBlock]
        else
          [.createBlockQuery, .getTopBlock] ++ simulate C proposal top
  else [.createBlockQuery]

/-! ### Observations and sample inputs -/

/-- The blocks published on `on_block`, in order. -/
def publishedBlocks (trace : List Event) : List Block :=
  trace.filterMap fun e =>
    match e with
    | .on_block b => some b
    | _ => none

/-- The block of the tests: no transactions, previous hash of 32 zeros. -/
def makeBlock (height : Nat) : Block :=
  { height := height
    prev_hash := String.mk (List.replicate 32 '0')
    transactions := []
    signatures := [] }

/-- Collaborators of the scenario without parent: the read of the top block
fails. -/
def noParent : Collaborators :=
  { createBlockQuery := true
    getTopBlock := .error "no block"
    createTemporaryWsv := 0
    validate := fun p _ => (p, [])
    hash := fun b => "hash" ++ toString b.height
    sign := fun _ => "signature" }

/-- Collaborators of the scenario of partial validation: the top block has
height 2, the validator keeps one transaction in a proposal of height 2 and
reports two errors. -/
def keepsOneOfThree : Collaborators :=
  { createBlockQuery := true
    getTopBlock := .ok (makeBlock 2)
    createTemporaryWsv := 0
    validate := fun p _ => (⟨2, p.transactions.take 1⟩, ["SomeError", "SomeError"])
    hash := fun b => "hash" ++ toString b.height
    sign := fun _ => "signature" }

/-- A character without a meaning of its own in an array literal: no brace,
comma, double quote, backslash or white space. -/
def plainPathChar (c : Char) : Bool :=
  !(c = '{' || c = '}' || c = ',' || c = '"' || c = '\\' || arraySpace c)

/-- A text that an array literal takes as one element when written as it is:
not empty, made of plain characters, and not the word NULL. -/
def plainPathElem (s : String) : Bool :=
  !s.data.isEmpty && s.data.all plainPathChar
    && !(s.data.map Char.toLower = ['n', 'u', 'l', 'l'])

/-- A character that stands for itself inside a JSON string literal: no
double quote, no backslash, no control character. -/
def plainJsonChar (c : Char) : Bool :=
  !(c = '"' || c = '\\') && decide (32 ≤ c.toNat)

/-- A text that a JSON string literal holds as it is. -/
def plainValue (s : String) : Bool :=
  s.data.all plainJsonChar

/-- The store with the single account `account_id`, whose data is the empty
JSON object. -/
def newAccount (account_id domain_id : String) (quorum : Nat) : Store :=
  { Store.empty with account := [⟨account_id, domain_id, quorum, 0, .obj []⟩] }

/-- The store with the single account `a@d`, whose data is the empty JSON
object. -/
def freshAccount : Store :=
  newAccount "a@d" "d" 1

/-- The store after a sequence of calls of `setAccountKV`, each given as
(account_id, creator_account_id, key, val). -/
def Store.setAll (s : Store) : List (String × String × String × String) → Store
  | [] => s
  | (a, c, k, v) :: rest => (s.after (s.setAccountKV a c k v)).setAll rest

/-! ### Rows and primary keys -/

/-- The store's reader of a jsonb literal: the value a text denotes, or
`none` for a text that is not valid JSON. -/
abbrev JsonbIn := String → Option Json

/-- A row of `account_has_asset` is the row of this account and this asset. -/
def samePair (account_id asset_id : String) (row : String × String × String) : Bool :=
  row.1 = account_id && row.2.1 = asset_id

/-- A row of one of the tables. -/
inductive Row where
  | role (role_id : String)
  | accountRole (account_id role_id : String)
  | rolePermission (role_id permission_id : String)
  | grantable (permittee_account_id account_id permission_id : String)
  | account (row : AccountRow)
  | asset (row : AssetRow)
  | accountAsset (account_id asset_id amount : String)
  | signatory (public_key : pubkey_t)
  | accountSignatory (account_id : String) (public_key : pubkey_t)
  | peer (peer : Peer)
  | domain (domain : Domain)
deriving Repr

/-- Lookup by primary key: the first row of the table of `key` that has the
primary key of `key`.  The primary key is the identifier of a role, account,
asset or domain, the public key of a signatory or peer, the pair of account
and asset, and the whole row of the other relations. -/
def Store.lookup (s : Store) (key : Row) : Option Row :=
  match key with
  | .role r => (s.role.find? fun x => x = r).map .role
  | .accountRole a r =>
      (s.account_has_roles.find? fun x => x = (a, r)).map fun x => .accountRole x.1 x.2
  | .rolePermission r p =>
      (s.role_has_permissions.find? fun x => x = (r, p)).map fun x => .rolePermission x.1 x.2
  | .grantable p a i =>
      (s.account_has_grantable_permissions.find? fun x => x = (p, a, i)).map
        fun x => .grantable x.1 x.2.1 x.2.2
  | .account row => (s.account.find? fun x => x.account_id = row.account_id).map .account
  | .asset row => (s.asset.find? fun x => x.asset_id = row.asset_id).map .asset
  | .accountAsset a i _ =>
      (s.account_has_asset.find? (samePair a i)).map fun x => .accountAsset x.1 x.2.1 x.2.2
  | .signatory k => (s.signatory.find? fun x => x = k).map .signatory
  | .accountSignatory a k =>
      (s.account_has_signatory.find? fun x => x = (a, k)).map
        fun x => .accountSignatory x.1 x.2
  | .peer p => (s.peer.find? fun x => x.pubkey = p.pubkey).map .peer
  | .domain d => (s.domain.find? fun x => x.domain_id = d.domain_id).map .domain

/-- A reader of jsonb literals for evaluating examples: it reads the text of
the empty object and the texts that start with a double quote. -/
def jsonbInSample : JsonbIn :=
  fun text => if text = "\x7b\x7d" then some (.obj []) else jsonbInQuoted text

/-- The store with the single balance 1.00 of the asset `coin#d` on the
account `a@d`. -/
def oneBalance : Store :=
  { Store.empty with account_has_asset := [("a@d", "coin#d", "1.00")] }

/-- An account value whose transaction count is 5 and whose data is the
empty object. -/
def countedAccount : Account :=
  ⟨"a@d", "d", 1, 5, "\x7b\x7d"⟩

/-! ## Part 4: reading and running the statements

The cursor gets the text of a statement and nothing else.  This part gives
the side of the store for the statements that the command layer writes: the
quoting of the cursor, the tokens of a text, the statement that the tokens
write, and its effect on the tables.  The checks that the declarations of the
tables impose and the reading of jsonb literals are parameters (`Dialect`);
the types of the columns and the primary keys follow the data model. -/

/-- The quoting of the store cursor (`transaction_.quote`), made concrete: a
string between single quotes with every single quote doubled, a number as
its decimal digits between single quotes, a byte string as the escape `\x`
and two hexadecimal digits a byte between single quotes, followed by the cast
to bytea. -/
def pgQuoter : Quoter where
  quote s :=
    String.mk ('\'' :: ((s.data.flatMap fun c => if c = '\'' then [c, c] else [c]) ++ ['\'']))
  quoteNat n := String.mk ('\'' :: ((Nat.toDigits 10 n) ++ ['\'']))
  quoteRaw b :=
    String.mk ('\'' :: ('\\' :: 'x' :: (b.flatMap hexByte ++ ['\'', ':', ':', 'b', 'y', 't', 'e', 'a'])))

/-- A token of a statement: a keyword or name, a punctuation character, a
string literal with its text, or a string literal with the type that a cast
behind it names. -/
inductive Token where
  | word (w : String)
  | sym (c : Char)
  | lit (text : String)
  | cast (text ty : String)
deriving DecidableEq, Repr

/-- The states of the reader of tokens: between tokens, inside a word,
inside a string literal, behind a single quote inside a string literal (the
end of the literal, or the first half of a doubled quote), inside a name in
double quotes. -/
inductive LexState where
  | normal
  | word (acc : List Char)
  | str (acc : List Char)
  | strQ (acc : List Char)
  | ident (acc : List Char)
deriving DecidableEq, Repr

/-- The characters of a keyword or name. -/
def wordChar (c : Char) : Bool :=
  c.isAlphanum || c = '_'

/-- One character between tokens: the tokens it completes and the next
state. -/
def normalStep (c : Char) : List Token × LexState :=
  if c = '\'' then ([], .str [])
  else if c = '"' then ([], .ident [])
  else if c.isWhitespace then ([], .normal)
  else if wordChar c then ([], .word [c])
  else ([.sym c], .normal)

/-- One character of a statement. -/
def lexStep : LexState → Char → List Token × LexState
  | .normal, c => normalStep c
  | .word acc, c =>
      if wordChar c then ([], .word (acc ++ [c]))
      else (.word (String.mk acc) :: (normalStep c).1, (normalStep c).2)
  | .str acc, c => if c = '\'' then ([], .strQ acc) else ([], .str (acc ++ [c]))
  | .strQ acc, c =>
      if c = '\'' then ([], .str (acc ++ ['\'']))
      else (.lit (String.mk acc) :: (normalStep c).1, (normalStep c).2)
  | .ident acc, c =>
      if c = '"' then ([.word (String.mk acc)], .normal) else ([], .ident (acc ++ [c]))

/-- Run the reader over characters: the tokens completed and the state
reached. -/
def lexRun : LexState → List Char → List Token × LexState
  | st, [] => ([], st)
  | st, c :: cs => ((lexStep st c).1 ++ (lexRun (lexStep st c).2 cs).1, (lexRun (lexStep st c).2 cs).2)

/-- The tokens that the end of the text completes; `none` inside a string
literal or a quoted name. -/
def lexEnd : LexState → Option (List Token)
  | .normal => some []
  | .word acc => some [.word (String.mk acc)]
  | .strQ acc => some [.lit (String.mk acc)]
  | .str _ => none
  | .ident _ => none

/-- The tokens of a text. -/
def lex (text : String) : Option (List Token) :=
  (lexEnd (lexRun .normal text.data).2).map fun last => (lexRun .normal text.data).1 ++ last

/-- The state in which a literal can start, with the token the opening quote
completes. -/
def openLiteral : LexState → Option (List Token)
  | .normal => some []
  | .word acc => some [.word (String.mk acc)]
  | _ => none

/-- The tokens of a sequence of fragments as `pgQuoter` writes them, read
fragment by fragment. -/
def lexFrags : LexState → List Frag → Option (List Token × LexState)
  | st, [] => some ([], st)
  | st, .sql text :: fs =>
      (lexFrags (lexRun st text.data).2 fs).map fun r => ((lexRun st text.data).1 ++ r.1, r.2)
  | st, .str s :: fs =>
      match openLiteral st with
      | none => none
      | some t0 => (lexFrags (.strQ s.data) fs).map fun r => (t0 ++ r.1, r.2)
  | st, .num n :: fs =>
      match openLiteral st with
      | none => none
      | some t0 => (lexFrags (.strQ (Nat.toDigits 10 n)) fs).map fun r => (t0 ++ r.1, r.2)
  | st, .raw b :: fs =>
      match openLiteral st with
      | none => none
      | some t0 =>
          (lexFrags (.word ['b', 'y', 't', 'e', 'a']) fs).map fun r =>
            (t0 ++ (.lit (String.mk ('\\' :: 'x' :: b.flatMap hexByte)) :: .sym ':' :: .sym ':' :: r.1),
              r.2)

/-! ### Input of numbers and keys -/

/-- The number that decimal digits denote, continued from the number read so
far; `none` when a character is no digit. -/
def decimalAcc : Nat → List Char → Option Nat
  | n, [] => some n
  | n, c :: cs => if c.isDigit then decimalAcc (10 * n + (c.toNat - 48)) cs else none

/-- The number that a text of decimal digits denotes. -/
def decimalIn (text : String) : Option Nat :=
  if text.data.isEmpty then none else decimalAcc 0 text.data

/-- The bytes that pairs of hexadecimal digits denote. -/
def hexPairs : List Char → Option (List Nat)
  | [] => some []
  | [_] => none
  | hi :: lo :: rest =>
      match hexVal hi, hexVal lo, hexPairs rest with
      | some a, some b, some bs => some ((16 * a + b) :: bs)
      | _, _, _ => none

/-- Input of a bytea value in the hexadecimal format: the escape `\x`, then
two hexadecimal digits a byte. -/
def byteaIn (text : String) : Option pubkey_t :=
  match text.data with
  | '\\' :: 'x' :: rest => hexPairs rest
  | _ => none

/-- A byte string whose elements are bytes. -/
def validKey (k : pubkey_t) : Prop :=
  ∀ b ∈ k, b < 256

/-- Whether a byte string is one of bytes can be computed. -/
instance validKeyDecidable (k : pubkey_t) : Decidable (validKey k) :=
  inferInstanceAs (Decidable (∀ b ∈ k, b < 256))

/-! ### The three kinds of statement -/

/-- A value written in a statement: a string literal, with the type it is
cast to when a cast follows it, or the keyword NULL. -/
inductive Expr where
  | lit (text : String) (cast : Option String)
  | null
deriving DecidableEq, Repr

/-- A condition of a WHERE clause: a column equal to a value, or
`NOT EXISTS (SELECT 1 FROM table WHERE column = value)`. -/
inductive Cond where
  | eq (column : String) (value : Expr)
  | notExists (table column : String) (value : Expr)
deriving DecidableEq, Repr

/-- What an INSERT does on a conflict: fail, do nothing, or overwrite a
column of the row in conflict on the target columns with the new value
(`DO UPDATE SET column = EXCLUDED.column`). -/
inductive Conflict where
  | fail
  | nothing
  | update (target : List String) (column : String)
deriving DecidableEq, Repr

/-- A statement of the three kinds that the command layer writes. -/
inductive Stmt where
  | insert (table : String) (columns : List String) (tuples : List (List Expr))
      (conflict : Conflict)
  | delete (table : String) (conds : List Cond)
  | update (table : String) (sets : List (String × Expr)) (conds : List Cond)
deriving DecidableEq, Repr

/-- A string literal followed by `::` and a type name becomes one token. -/
def foldCasts : List Token → List Token
  | .lit text :: .sym ':' :: .sym ':' :: .word ty :: rest => .cast text ty :: foldCasts rest
  | t :: rest => t :: foldCasts rest
  | [] => []

/-- The value that a token writes. -/
def valueOf : Token → Option Expr
  | .lit text => some (.lit text none)
  | .cast text ty => some (.lit text (some ty))
  | .word "NULL" => some .null
  | _ => none

/-- Names separated by commas up to a closing bracket, and the tokens behind
the bracket. -/
def parseNames : List Token → Option (List String × List Token)
  | .word c :: .sym ',' :: rest => (parseNames rest).map fun r => (c :: r.1, r.2)
  | .word c :: .sym ')' :: rest => some ([c], rest)
  | _ => none

/-- Tuples of values separated by commas, read from behind the opening
bracket of the first tuple, and the tokens behind the last tuple; `cur`
holds the values read of the tuple at hand. -/
def parseTuples : List Expr → List Token → Option (List (List Expr) × List Token)
  | cur, v :: .sym ',' :: rest =>
      match valueOf v with
      | some e => parseTuples (cur ++ [e]) rest
      | none => none
  | cur, v :: .sym ')' :: .sym ',' :: .sym '(' :: rest =>
      match valueOf v with
      | some e => (parseTuples [] rest).map fun r => ((cur ++ [e]) :: r.1, r.2)
      | none => none
  | cur, v :: .sym ')' :: rest =>
      match valueOf v with
      | some e => some ([cur ++ [e]], rest)
      | none => none
  | _, _ => none

/-- The conditions of a WHERE clause, joined by AND, up to the semicolon that
ends the statement. -/
def parseConds : List Token → Option (List Cond)
  | .word c :: .sym '=' :: v :: .word "AND" :: rest =>
      match valueOf v, parseConds rest with
      | some e, some cs => some (.eq c e :: cs)
      | _, _ => none
  | [.word c, .sym '=', v, .sym ';'] =>
      match valueOf v with
      | some e => some [.eq c e]
      | none => none
  | .word "NOT" :: .word "EXISTS" :: .sym '(' :: .word "SELECT" :: .word "1" :: .word "FROM"
      :: .word t :: .word "WHERE" :: .word c :: .sym '=' :: v :: .sym ')' :: .word "AND"
      :: rest =>
      match valueOf v, parseConds rest with
      | some e, some cs => some (.notExists t c e :: cs)
      | _, _ => none
  | [.word "NOT", .word "EXISTS", .sym '(', .word "SELECT", .word "1", .word "FROM", .word t,
      .word "WHERE", .word c, .sym '=', v, .sym ')', .sym ';'] =>
      match valueOf v with
      | some e => some [.notExists t c e]
      | none => none
  | _ => none

/-- The assignments of an UPDATE, separated by commas, up to the keyword
WHERE, and the tokens behind it. -/
def parseSets : List Token → Option (List (String × Expr) × List Token)
  | .word c :: .sym '=' :: v :: .sym ',' :: rest =>
      match valueOf v, parseSets rest with
      | some e, some r => some ((c, e) :: r.1, r.2)
      | _, _ => none
  | .word c :: .sym '=' :: v :: .word "WHERE" :: rest =>
      match valueOf v with
      | some e => some ([(c, e)], rest)
      | none => none
  | _ => none

/-- The end of an INSERT behind its tuples: the semicolon, or an ON CONFLICT
clause and the semicolon. -/
def parseConflict : List Token → Option Conflict
  | [.sym ';'] => some .fail
  | [.word "ON", .word "CONFLICT", .word "DO", .word "NOTHING", .sym ';'] => some .nothing
  | .word "ON" :: .word "CONFLICT" :: .sym '(' :: rest =>
      match parseNames rest with
      | some (target, [.word "DO", .word "UPDATE", .word "SET", .word c, .sym '=',
          .word "EXCLUDED", .sym '.', .word c', .sym ';']) =>
          if c = c' then some (.update target c) else none
      | _ => none
  | _ => none

/-- The name of a table, with or without the schema `public` before it, and
the tokens behind it. -/
def parseTable : List Token → Option (String × List Token)
  | .word "public" :: .sym '.' :: .word t :: rest => some (t, rest)
  | .word t :: rest => some (t, rest)
  | _ => none

/-- The statement that a sequence of tokens writes. -/
def parseStmt : List Token → Option Stmt
  | .word "INSERT" :: .word "INTO" :: rest =>
      match parseTable rest with
      | some (t, .sym '(' :: r1) =>
          match parseNames r1 with
          | some (cols, .word "VALUES" :: .sym '(' :: r2) =>
              match parseTuples [] r2 with
              | some (tuples, r3) =>
                  match parseConflict r3 with
                  | some conflict => some (.insert t cols tuples conflict)
                  | none => none
              | none => none
          | _ => none
      | _ => none
  | .word "DELETE" :: .word "FROM" :: rest =>
      match parseTable rest with
      | some (t, .word "WHERE" :: r1) =>
          match parseConds r1 with
          | some conds => some (.delete t conds)
          | none => none
      | _ => none
  | .word "UPDATE" :: rest =>
      match parseTable rest with
      | some (t, .word "SET" :: r1) =>
          match parseSets r1 with
          | some (sets, r2) =>
              match parseConds r2 with
              | some conds => some (.update t sets conds)
              | none => none
          | none => none
      | _ => none
  | _ => none

/-- The statement that a text writes. -/
def readStmt (text : String) : Option Stmt :=
  match lex text with
  | some toks => parseStmt (foldCasts toks)
  | none => none

/-! ### Running a statement -/

/-- A value of a column. -/
inductive Cell where
  | text (s : String)
  | num (n : Nat)
  | bytes (b : pubkey_t)
  | json (j : Json)
  | null
deriving Repr

/-- The type of a column. -/
inductive ColType where
  | text
  | num
  | bytes
  | json
deriving DecidableEq, Repr

/-- Modelled from the spec: the columns of the tables, whose declarations are
not among the sources, with the type of the values they hold.  An amount is
kept as the text of its decimal. -/
def columnType : String → String → Option ColType
  | "role", "role_id" => some .text
  | "account_has_roles", "account_id" => some .text
  | "account_has_roles", "role_id" => some .text
  | "role_has_permissions", "role_id" => some .text
  | "role_has_permissions", "permission_id" => some .text
  | "account_has_grantable_permissions", "permittee_account_id" => some .text
  | "account_has_grantable_permissions", "account_id" => some .text
  | "account_has_grantable_permissions", "permission_id" => some .text
  | "account", "account_id" => some .text
  | "account", "domain_id" => some .text
  | "account", "quorum" => some .num
  | "account", "transaction_count" => some .num
  | "account", "data" => some .json
  | "asset", "asset_id" => some .text
  | "asset", "domain_id" => some .text
  | "asset", "precision" => some .num
  | "asset", "data" => some .json
  | "account_has_asset", "account_id" => some .text
  | "account_has_asset", "asset_id" => some .text
  | "account_has_asset", "amount" => some .text
  | "signatory", "public_key" => some .bytes
  | "account_has_signatory", "account_id" => some .text
  | "account_has_signatory", "public_key" => some .bytes
  | "peer", "public_key" => some .bytes
  | "peer", "address" => some .text
  | "domain", "domain_id" => some .text
  | "domain", "default_role" => some .text
  | _, _ => none

/-- The value of a column that a written value denotes: the store reads a
literal by the type of the column; `none` when it cannot. -/
def Expr.cell (J : JsonbIn) : ColType → Expr → Option Cell
  | _, .null => some .null
  | .text, .lit text none => some (.text text)
  | .num, .lit text none => (decimalIn text).map .num
  | .bytes, .lit text none => (byteaIn text).map .bytes
  | .bytes, .lit text (some "bytea") => (byteaIn text).map .bytes
  | .json, .lit text none => (J text).map .json
  | _, _ => none

/-- Whether two values of a column are equal; values of JSON columns and
nulls are never compared equal. -/
def Cell.same : Cell → Cell → Bool
  | .text a, .text b => a = b
  | .num a, .num b => a = b
  | .bytes a, .bytes b => a = b
  | _, _ => false

/-- The table of a row. -/
def Row.table : Row → String
  | .role .. => "role"
  | .accountRole .. => "account_has_roles"
  | .rolePermission .. => "role_has_permissions"
  | .grantable .. => "account_has_grantable_permissions"
  | .account .. => "account"
  | .asset .. => "asset"
  | .accountAsset .. => "account_has_asset"
  | .signatory .. => "signatory"
  | .accountSignatory .. => "account_has_signatory"
  | .peer .. => "peer"
  | .domain .. => "domain"

/-- The value of a column of a row. -/
def Row.cell : Row → String → Option Cell
  | .role r, "role_id" => some (.text r)
  | .accountRole a _, "account_id" => some (.text a)
  | .accountRole _ r, "role_id" => some (.text r)
  | .rolePermission r _, "role_id" => some (.text r)
  | .rolePermission _ p, "permission_id" => some (.text p)
  | .grantable p _ _, "permittee_account_id" => some (.text p)
  | .grantable _ a _, "account_id" => some (.text a)
  | .grantable _ _ i, "permission_id" => some (.text i)
  | .account row, "account_id" => some (.text row.account_id)
  | .account row, "domain_id" => some (.text row.domain_id)
  | .account row, "quorum" => some (.num row.quorum)
  | .account row, "transaction_count" => some (.num row.transaction_count)
  | .account row, "data" => some (.json row.data)
  | .asset row, "asset_id" => some (.text row.asset_id)
  | .asset row, "domain_id" => some (.text row.domain_id)
  | .asset row, "precision" => some (.num row.precision)
  | .asset row, "data" =>
      match row.data with
      | some j => some (.json j)
      | none => some .null
  | .accountAsset a _ _, "account_id" => some (.text a)
  | .accountAsset _ i _, "asset_id" => some (.text i)
  | .accountAsset _ _ m, "amount" => some (.text m)
  | .signatory k, "public_key" => some (.bytes k)
  | .accountSignatory a _, "account_id" => some (.text a)
  | .accountSignatory _ k, "public_key" => some (.bytes k)
  | .peer p, "public_key" => some (.bytes p.pubkey)
  | .peer p, "address" => some (.text p.address)
  | .domain d, "domain_id" => some (.text d.domain_id)
  | .domain d, "default_role" => some (.text d.default_role)
  | _, _ => none

/-- A row with the value of a column replaced; the row as it is when the
column or the value is not of the row. -/
def Row.set : Row → String → Cell → Row
  | .role _, "role_id", .text v => .role v
  | .accountRole _ r, "account_id", .text v => .accountRole v r
  | .accountRole a _, "role_id", .text v => .accountRole a v
  | .rolePermission _ p, "role_id", .text v => .rolePermission v p
  | .rolePermission r _, "permission_id", .text v => .rolePermission r v
  | .grantable _ a i, "permittee_account_id", .text v => .grantable v a i
  | .grantable p _ i, "account_id", .text v => .grantable p v i
  | .grantable p a _, "permission_id", .text v => .grantable p a v
  | .account row, "account_id", .text v => .account { row with account_id := v }
  | .account row, "domain_id", .text v => .account { row with domain_id := v }
  | .account row, "quorum", .num v => .account { row with quorum := v }
  | .account row, "transaction_count", .num v => .account { row with transaction_count := v }
  | .account row, "data", .json v => .account { row with data := v }
  | .asset row, "asset_id", .text v => .asset { row with asset_id := v }
  | .asset row, "domain_id", .text v => .asset { row with domain_id := v }
  | .asset row, "precision", .num v => .asset { row with precision := v }
  | .asset row, "data", .json v => .asset { row with data := some v }
  | .asset row, "data", .null => .asset { row with data := none }
  | .accountAsset _ i m, "account_id", .text v => .accountAsset v i m
  | .accountAsset a _ m, "asset_id", .text v => .accountAsset a v m
  | .accountAsset a i _, "amount", .text v => .accountAsset a i v
  | .signatory _, "public_key", .bytes v => .signatory v
  | .accountSignatory _ k, "account_id", .text v => .accountSignatory v k
  | .accountSignatory a _, "public_key", .bytes v => .accountSignatory a v
  | .peer p, "public_key", .bytes v => .peer { p with pubkey := v }
  | .peer p, "address", .text v => .peer { p with address := v }
  | .domain d, "domain_id", .text v => .domain { d with domain_id := v }
  | .domain d, "default_role", .text v => .domain { d with default_role := v }
  | row, _, _ => row

/-- The rows of a table; `none` for a name that is no table. -/
def Store.rows (s : Store) : String → Option (List Row)
  | "role" => some (s.role.map .role)
  | "account_has_roles" => some (s.account_has_roles.map fun r => .accountRole r.1 r.2)
  | "role_has_permissions" =>
      some (s.role_has_permissions.map fun r => .rolePermission r.1 r.2)
  | "account_has_grantable_permissions" =>
      some (s.account_has_grantable_permissions.map fun r => .grantable r.1 r.2.1 r.2.2)
  | "account" => some (s.account.map .account)
  | "asset" => some (s.asset.map .asset)
  | "account_has_asset" =>
      some (s.account_has_asset.map fun r => .accountAsset r.1 r.2.1 r.2.2)
  | "signatory" => some (s.signatory.map .signatory)
  | "account_has_signatory" =>
      some (s.account_has_signatory.map fun r => .accountSignatory r.1 r.2)
  | "peer" => some (s.peer.map .peer)
  | "domain" => some (s.domain.map .domain)
  | _ => none

/-- The store with the rows of a table that pass a test. -/
def Store.filterRows (s : Store) (keep : Row → Bool) : String → Option Store
  | "role" => some { s with role := s.role.filter (fun r => keep (.role r)) }
  | "account_has_roles" => some { s with account_has_roles :=
      (s.account_has_roles.filter (fun r => keep (.accountRole r.1 r.2))) }
  | "role_has_permissions" => some { s with role_has_permissions :=
      (s.role_has_permissions.filter (fun r => keep (.rolePermission r.1 r.2))) }
  | "account_has_grantable_permissions" => some { s with account_has_grantable_permissions :=
      (s.account_has_grantable_permissions.filter (fun r => keep (.grantable r.1 r.2.1 r.2.2))) }
  | "account" => some { s with account := s.account.filter (fun r => keep (.account r)) }
  | "asset" => some { s with asset := s.asset.filter (fun r => keep (.asset r)) }
  | "account_has_asset" => some { s with account_has_asset :=
      (s.account_has_asset.filter (fun r => keep (.accountAsset r.1 r.2.1 r.2.2))) }
  | "signatory" => some { s with signatory := s.signatory.filter (fun r => keep (.signatory r)) }
  | "account_has_signatory" => some { s with account_has_signatory :=
      (s.account_has_signatory.filter (fun r => keep (.accountSignatory r.1 r.2))) }
  | "peer" => some { s with peer := s.peer.filter (fun r => keep (.peer r)) }
  | "domain" => some { s with domain := s.domain.filter (fun r => keep (.domain r)) }
  | _ => none

/-- The typed row inside a row of the table `role`, or `old`. -/
def Row.asRole (old : String) : Row → String
  | .role v => v
  | _ => old

/-- The typed row inside a row of the table `account_has_roles`, or `old`. -/
def Row.asAccountRole (old : String × String) : Row → String × String
  | .accountRole a b => (a, b)
  | _ => old

/-- The typed row inside a row of the table `role_has_permissions`, or
`old`. -/
def Row.asRolePermission (old : String × String) : Row → String × String
  | .rolePermission a b => (a, b)
  | _ => old

/-- The typed row inside a row of the table
`account_has_grantable_permissions`, or `old`. -/
def Row.asGrantable (old : String × String × String) : Row → String × String × String
  | .grantable a b c => (a, b, c)
  | _ => old

/-- The typed row inside a row of the table `account`, or `old`. -/
def Row.asAccount (old : AccountRow) : Row → AccountRow
  | .account v => v
  | _ => old

/-- The typed row inside a row of the table `asset`, or `old`. -/
def Row.asAsset (old : AssetRow) : Row → AssetRow
  | .asset v => v
  | _ => old

/-- The typed row inside a row of the table `account_has_asset`, or `old`. -/
def Row.asAccountAsset (old : String × String × String) : Row → String × String × String
  | .accountAsset a b c => (a, b, c)
  | _ => old

/-- The typed row inside a row of the table `signatory`, or `old`. -/
def Row.asSignatory (old : pubkey_t) : Row → pubkey_t
  | .signatory v => v
  | _ => old

/-- The typed row inside a row of the table `account_has_signatory`, or
`old`. -/
def Row.asAccountSignatory (old : String × pubkey_t) : Row → String × pubkey_t
  | .accountSignatory a b => (a, b)
  | _ => old

/-- The typed row inside a row of the table `peer`, or `old`. -/
def Row.asPeer (old : Peer) : Row → Peer
  | .peer v => v
  | _ => old

/-- The typed row inside a row of the table `domain`, or `old`. -/
def Row.asDomain (old : Domain) : Row → Domain
  | .domain v => v
  | _ => old

/-- The store with every row of a table replaced by its image; a row whose
image is of another table stays as it is. -/
def Store.mapRows (s : Store) (f : Row → Row) : String → Option Store
  | "role" => some { s with role := s.role.map (fun r => (f (.role r)).asRole r) }
  | "account_has_roles" => some { s with account_has_roles :=
      (s.account_has_roles.map (fun r => (f (.accountRole r.1 r.2)).asAccountRole r)) }
  | "role_has_permissions" => some { s with role_has_permissions :=
      (s.role_has_permissions.map (fun r => (f (.rolePermission r.1 r.2)).asRolePermission r)) }
  | "account_has_grantable_permissions" => some { s with account_has_grantable_permissions :=
      (s.account_has_grantable_permissions.map fun r =>
        (f (.grantable r.1 r.2.1 r.2.2)).asGrantable r) }
  | "account" => some { s with account := s.account.map (fun r => (f (.account r)).asAccount r) }
  | "asset" => some { s with asset := s.asset.map (fun r => (f (.asset r)).asAsset r) }
  | "account_has_asset" => some { s with account_has_asset :=
      (s.account_has_asset.map (fun r => (f (.accountAsset r.1 r.2.1 r.2.2)).asAccountAsset r)) }
  | "signatory" => some { s with signatory :=
      (s.signatory.map (fun r => (f (.signatory r)).asSignatory r)) }
  | "account_has_signatory" => some { s with account_has_signatory :=
      (s.account_has_signatory.map fun r =>
        (f (.accountSignatory r.1 r.2)).asAccountSignatory r) }
  | "peer" => some { s with peer := s.peer.map (fun r => (f (.peer r)).asPeer r) }
  | "domain" => some { s with domain := s.domain.map (fun r => (f (.domain r)).asDomain r) }
  | _ => none

/-- The store with a row added at the end of its table. -/
def Store.add (s : Store) : Row → Store
  | .role r => { s with role := s.role ++ [r] }
  | .accountRole a r => { s with account_has_roles := s.account_has_roles ++ [(a, r)] }
  | .rolePermission r p =>
      { s with role_has_permissions := s.role_has_permissions ++ [(r, p)] }
  | .grantable p a i => { s with account_has_grantable_permissions :=
      s.account_has_grantable_permissions ++ [(p, a, i)] }
  | .account row => { s with account := s.account ++ [row] }
  | .asset row => { s with asset := s.asset ++ [row] }
  | .accountAsset a i m => { s with account_has_asset := s.account_has_asset ++ [(a, i, m)] }
  | .signatory k => { s with signatory := s.signatory ++ [k] }
  | .accountSignatory a k =>
      { s with account_has_signatory := s.account_has_signatory ++ [(a, k)] }
  | .peer p => { s with peer := s.peer ++ [p] }
  | .domain d => { s with domain := s.domain ++ [d] }

/-- What the store decides and the sources do not show: how it reads a jsonb
literal, and whether the declarations of the tables make it refuse new rows
(a violation of a unique, foreign-key or check constraint). -/
structure Dialect where
  jsonbIn : JsonbIn
  refuses : Store → List Row → Bool

/-- The values of columns read by the types of the columns; `none` when a
column is not of the table or a value cannot be read by the type of its
column. -/
def readCells (J : JsonbIn) (table : String) :
    List (String × Expr) → Option (List (String × Cell))
  | [] => some []
  | (column, value) :: rest =>
      match columnType table column, readCells J table rest with
      | some ty, some cells =>
          match value.cell J ty with
          | some cell => some ((column, cell) :: cells)
          | none => none
      | _, _ => none

/-- The row of a table with the given values of its columns; `none` when a
column of the table has no value, and for a null outside the column `data`
of `asset`. -/
def rowOf : String → List (String × Cell) → Option Row
  | "role", cells =>
      match cells.lookup "role_id" with
      | some (.text r) => some (.role r)
      | _ => none
  | "account_has_roles", cells =>
      match cells.lookup "account_id", cells.lookup "role_id" with
      | some (.text a), some (.text r) => some (.accountRole a r)
      | _, _ => none
  | "role_has_permissions", cells =>
      match cells.lookup "role_id", cells.lookup "permission_id" with
      | some (.text r), some (.text p) => some (.rolePermission r p)
      | _, _ => none
  | "account_has_grantable_permissions", cells =>
      match cells.lookup "permittee_account_id", cells.lookup "account_id",
        cells.lookup "permission_id" with
      | some (.text p), some (.text a), some (.text i) => some (.grantable p a i)
      | _, _, _ => none
  | "account", cells =>
      match cells.lookup "account_id", cells.lookup "domain_id", cells.lookup "quorum",
        cells.lookup "transaction_count", cells.lookup "data" with
      | some (.text a), some (.text d), some (.num q), some (.num t), some (.json j) =>
          some (.account ⟨a, d, q, t, j⟩)
      | _, _, _, _, _ => none
  | "asset", cells =>
      match cells.lookup "asset_id", cells.lookup "domain_id", cells.lookup "precision",
        cells.lookup "data" with
      | some (.text a), some (.text d), some (.num p), some (.json j) =>
          some (.asset ⟨a, d, p, some j⟩)
      | some (.text a), some (.text d), some (.num p), some .null =>
          some (.asset ⟨a, d, p, none⟩)
      | _, _, _, _ => none
  | "account_has_asset", cells =>
      match cells.lookup "account_id", cells.lookup "asset_id", cells.lookup "amount" with
      | some (.text a), some (.text i), some (.text m) => some (.accountAsset a i m)
      | _, _, _ => none
  | "signatory", cells =>
      match cells.lookup "public_key" with
      | some (.bytes k) => some (.signatory k)
      | _ => none
  | "account_has_signatory", cells =>
      match cells.lookup "account_id", cells.lookup "public_key" with
      | some (.text a), some (.bytes k) => some (.accountSignatory a k)
      | _, _ => none
  | "peer", cells =>
      match cells.lookup "public_key", cells.lookup "address" with
      | some (.bytes k), some (.text a) => some (.peer ⟨k, a⟩)
      | _, _ => none
  | "domain", cells =>
      match cells.lookup "domain_id", cells.lookup "default_role" with
      | some (.text d), some (.text r) => some (.domain ⟨d, r⟩)
      | _, _ => none
  | _, _ => none

/-- The row that a tuple of an INSERT writes into a table; `none` when the
tuple has another length than the column list, a value cannot be read by the
type of its column, or a column of the table is missing. -/
def mkRow (J : JsonbIn) (table : String) (columns : List String) (tuple : List Expr) :
    Option Row :=
  if columns.length ≠ tuple.length then none
  else
    match readCells J table (columns.zip tuple) with
    | some cells => rowOf table cells
    | none => none

/-- The rows that the tuples of an INSERT write. -/
def mkRows (J : JsonbIn) (table : String) (columns : List String) :
    List (List Expr) → Option (List Row)
  | [] => some []
  | tuple :: rest =>
      match mkRow J table columns tuple, mkRows J table columns rest with
      | some row, some rows => some (row :: rows)
      | _, _ => none

/-- Whether a row has a value in a column. -/
def Row.has (row : Row) (column : String) (cell : Cell) : Bool :=
  match row.cell column with
  | some x => x.same cell
  | none => false

/-- The test on the rows of a table that a condition writes; `none` when the
column or the table is unknown or the value cannot be read by the type of the
column. -/
def Cond.test (J : JsonbIn) (s : Store) (table : String) : Cond → Option (Row → Bool)
  | .eq column value =>
      match columnType table column with
      | some ty =>
          match value.cell J ty with
          | some cell => some fun row => row.has column cell
          | none => none
      | none => none
  | .notExists other column value =>
      match columnType other column, s.rows other with
      | some ty, some rows =>
          match value.cell J ty with
          | some cell => some fun _ => !(rows.any fun row => row.has column cell)
          | none => none
      | _, _ => none

/-- The test that the conditions of a WHERE clause write, joined by AND. -/
def testAll (J : JsonbIn) (s : Store) (table : String) : List Cond → Option (Row → Bool)
  | [] => some fun _ => true
  | c :: cs =>
      match c.test J s table, testAll J s table cs with
      | some p, some q => some fun row => p row && q row
      | _, _ => none

/-- A row after the assignments of an UPDATE. -/
def Row.assign (row : Row) (cells : List (String × Cell)) : Row :=
  cells.foldl (fun r a => r.set a.1 a.2) row

/-- Whether two rows have equal values in the columns of a conflict
target. -/
def sameOn (target : List String) (new old : Row) : Bool :=
  target.all fun column =>
    match new.cell column with
    | some cell => old.has column cell
    | none => false

/-- One row of an INSERT with `ON CONFLICT (target) DO UPDATE SET column =
EXCLUDED.column`: where rows equal to it on the target columns exist, their
column takes the value of the new row; otherwise the row is added unless the
store refuses it. -/
def Store.upsert (s : Store) (D : Dialect) (target : List String) (column : String)
    (row : Row) : Except String Store :=
  match s.rows row.table, row.cell column with
  | some rows, some cell =>
      if rows.any (sameOn target row) then
        match s.mapRows (fun old => if sameOn target row old then old.set column cell else old)
          row.table with
        | some s' => .ok s'
        | none => .error "no such table"
      else if D.refuses s [row] then .error "constraint violation"
      else .ok (s.add row)
  | _, _ => .error "no such column"

/-- The rows of an INSERT with a conflict target, one after the other. -/
def Store.upsertAll (s : Store) (D : Dialect) (target : List String) (column : String) :
    List Row → Except String Store
  | [] => .ok s
  | row :: rows =>
      match s.upsert D target column row with
      | .ok s' => s'.upsertAll D target column rows
      | .error e => .error e

/-- The effect of a statement on the store.  A strict INSERT adds its rows
unless the store refuses them.  With `ON CONFLICT DO NOTHING` the rows whose
primary key is present are left out and the others are added: the one
statement with this clause writes into `signatory`, whose one column is its
key.  A DELETE keeps the rows that fail the conditions, an UPDATE assigns in
the rows that pass them; the two are modelled as never refused. -/
def Store.perform (s : Store) (D : Dialect) : Stmt → Except String Store
  | .insert table columns tuples conflict =>
      match mkRows D.jsonbIn table columns tuples with
      | none => .error "invalid input"
      | some rows =>
          match conflict with
          | .fail =>
              if D.refuses s rows then .error "constraint violation"
              else .ok (rows.foldl Store.add s)
          | .nothing =>
              .ok ((rows.filter fun row => (s.lookup row).isNone).foldl Store.add s)
          | .update target column => s.upsertAll D target column rows
  | .delete table conds =>
      match testAll D.jsonbIn s table conds with
      | none => .error "invalid input"
      | some p =>
          match s.filterRows (fun row => !p row) table with
          | some s' => .ok s'
          | none => .error "no such table"
  | .update table sets conds =>
      match testAll D.jsonbIn s table conds, readCells D.jsonbIn table sets with
      | some p, some cells =>
          match s.mapRows (fun row => if p row then row.assign cells else row) table with
          | some s' => .ok s'
          | none => .error "no such table"
      | _, _ => .error "invalid input"

/-- What the cursor does with the text of a statement: the store reads it
and performs it; a text that it cannot read is an error.  The operation of
the command layer turns an error into the text of its `message_gen`, which
the theorems do not look at. -/
def Store.execute (s : Store) (D : Dialect) (text : String) : Except String Store :=
  match readStmt text with
  | some stmt => s.perform D stmt
  | none => .error "unreadable statement"

/-- The dialect for evaluating examples: it reads the jsonb literals of
`jsonbInSample` and refuses a new row whose primary key is present. -/
def sampleDialect : Dialect where
  jsonbIn := jsonbInSample
  refuses s rows := rows.any fun row => (s.lookup row).isSome

/-! ### Literals, tokens of tuples and the six operations -/

/-- The text between the quotes of the literal that `pgQuoter` writes for a
key. -/
def hexLit (k : pubkey_t) : String :=
  String.mk ('\\' :: 'x' :: k.flatMap hexByte)

/-- The text between the quotes of the literal that `pgQuoter` writes for a
number. -/
def decLit (n : Nat) : String :=
  String.mk (Nat.toDigits 10 n)

/-- The bytes of a key as the store reads them from its literal. -/
def keyBytes (k : pubkey_t) : pubkey_t :=
  k.map fun b => b % 256

/-- The tokens of the tuples after the first one of the statement of
`insertRolePermissions`. -/
def moreTupleTokens (role_id : String) (permissions : List String) : List Token :=
  permissions.flatMap fun p =>
    [.sym ',', .sym '(', .lit role_id, .sym ',', .lit p, .sym ')']

/-- The statement that the command layer writes for one of the six
operations on signatories and their referrers. -/
def SigOp.statement (Q : Quoter) : SigOp → String
  | .insertSignatory k => Iroha.insertSignatory Q k
  | .insertAccountSignatory a k => Iroha.insertAccountSignatory Q a k
  | .deleteAccountSignatory a k => Iroha.deleteAccountSignatory Q a k
  | .insertPeer p => Iroha.insertPeer Q p
  | .deletePeer p => Iroha.deletePeer Q p
  | .deleteSignatory k => Iroha.deleteSignatory Q k

/-- One of the six operations on a store: the store runs the statement that
the command layer writes for it. -/
def Store.run (s : Store) (D : Dialect) (op : SigOp) : Except String Store :=
  s.execute D (op.statement pgQuoter)

/-- The store after a sequence of the six operations. -/
def Store.runAll (s : Store) (D : Dialect) : List SigOp → Store
  | [] => s
  | op :: ops => (s.after (s.run D op)).runAll D ops

/-- The states reachable from the empty store through the six operations. -/
def Reachable (D : Dialect) (s : Store) : Prop :=
  ∃ ops : List SigOp, Store.empty.runAll D ops = s

/-- Modelled from the spec: the tables have no duplicate primary keys, so the
store refuses new rows one of which has a primary key that is present.  The
store may refuse more (foreign keys, other checks). -/
def keepsKeysUnique (D : Dialect) : Prop :=
  ∀ (s : Store) (rows : List Row) (row : Row), row ∈ rows →
    (s.lookup row).isSome = true → D.refuses s rows = true

/-- The store in which the peer at 10.0.0.1 refers to the key `[75]` of a
signatory. -/
def peerWithKey : Store :=
  { Store.empty with signatory := [[75]], peer := [⟨[75], "10.0.0.1"⟩] }

/-! ## Theorems -/

/-! ### Statement assembly -/


/-- Rendering distributes over the concatenation of fragment lists. -/
theorem render_append (Q : Quoter) (xs ys : List Frag) :
    render Q (xs ++ ys) = render Q xs ++ render Q ys := by
  unfold render
  rw [List.foldl_append]
  generalize List.foldl (fun acc f => acc ++ Frag.render Q f) "" xs = a
  induction ys generalizing a with
  | nil => simp
  | cons y ys ih =>
    simp only [List.foldl_cons]
    rw [ih (a ++ Frag.render Q y), ih ("" ++ Frag.render Q y)]
    simp [String.append_assoc]

/-- Rendering of a list with a first fragment. -/
theorem render_cons (Q : Quoter) (x : Frag) (xs : List Frag) :
    render Q (x :: xs) = x.render Q ++ render Q xs := by
  have := render_append Q [x] xs
  simpa [render] using this

/-- Rendering of no fragment. -/
theorem render_nil (Q : Quoter) : render Q [] = "" := rfl

/-- The fragments of a tuple render to the text of `entry`. -/
theorem render_tupleFrags (Q : Quoter) (r p : String) :
    render Q (tupleFrags r p) = entry Q r p := by
  simp [tupleFrags, render, entry, Frag.render]

/-- The fragments of the later tuples render to what `std::accumulate` adds. -/
theorem render_moreTupleFrags (Q : Quoter) (r : String) (ps : List String) (acc : String) :
    acc ++ render Q (moreTupleFrags r ps)
      = ps.foldl (fun res perm => res ++ ", " ++ entry Q r perm) acc := by
  induction ps generalizing acc with
  | nil => simp [moreTupleFrags, render_nil]
  | cons p ps ih =>
    simp only [moreTupleFrags, List.foldl_cons]
    rw [← ih, render_cons, render_append, render_tupleFrags]
    simp [Frag.render, String.append_assoc]

/-- Joining with a separator is the left fold of `generate_perm_string`. -/
theorem intercalate_go_eq_foldl (sep : String) (f : String → String) (ps : List String) (acc : String) :
    String.intercalate.go acc sep (ps.map f)
      = ps.foldl (fun res perm => res ++ sep ++ f perm) acc := by
  induction ps generalizing acc with
  | nil => simp [String.intercalate.go]
  | cons p ps ih => simp [String.intercalate.go, ih]

/-- Every statement is the rendering of the fragments of its call. -/
theorem statement_eq_render (Q : Quoter) (c : Command) :
    c.statement Q = c.fragments.map (render Q) := by
  cases c with
  | insertRolePermissions r ps =>
    cases ps with
    | nil => rfl
    | cons p ps =>
      simp only [Command.statement, Command.fragments, Iroha.insertRolePermissions,
        generate_perm_string, Option.map_some']
      rw [render_cons, render_append, render_append, render_tupleFrags, ← String.append_assoc, ← String.append_assoc,
        ← render_moreTupleFrags]
      simp [Frag.render, render, String.append_assoc]
  | _ => simp [Command.statement, Command.fragments, render, Frag.render,
      Iroha.insertRole, Iroha.insertAccountRole, Iroha.deleteAccountRole,
      Iroha.insertAccountGrantablePermission, Iroha.deleteAccountGrantablePermission,
      Iroha.insertAccount, Iroha.insertAsset, Iroha.upsertAccountAsset,
      Iroha.insertSignatory, Iroha.insertAccountSignatory, Iroha.deleteAccountSignatory,
      Iroha.deleteSignatory, Iroha.insertPeer, Iroha.deletePeer, Iroha.insertDomain,
      Iroha.updateAccount, Iroha.setAccountKV, kvCreatorPath, kvPath, kvValue,
      default_tx_counter, String.append_assoc]


/-- Tuples of two calls with equally many permissions have the same tokens. -/
theorem tok_moreTupleFrags (r₁ r₂ : String) (ps₁ ps₂ : List String)
    (h : ps₁.length = ps₂.length) :
    (moreTupleFrags r₁ ps₁).map Frag.tok = (moreTupleFrags r₂ ps₂).map Frag.tok := by
  induction ps₁ generalizing ps₂ with
  | nil =>
    cases ps₂ with
    | nil => rfl
    | cons _ _ => simp at h
  | cons p ps ih =>
    cases ps₂ with
    | nil => simp at h
    | cons q qs =>
      have h' : ps.length = qs.length := by simpa using h
      simp [moreTupleFrags, tupleFrags, Frag.tok, ih qs h']

/-- Two calls of one operation with equally many permissions have the same
tokens. -/
theorem tok_fragments (c₁ c₂ : Command) (hop : c₁.op = c₂.op)
    (hn : c₁.permCount = c₂.permCount) :
    c₁.fragments.map (List.map Frag.tok) = c₂.fragments.map (List.map Frag.tok) := by
  cases c₁ <;> cases c₂ <;> simp [Command.op] at hop <;>
    try (simp [Command.fragments, Frag.tok]; done)
  rename_i r₁ ps₁ r₂ ps₂
  cases ps₁ with
  | nil =>
    cases ps₂ with
    | nil => rfl
    | cons _ _ => simp [Command.permCount] at hn
  | cons p ps =>
    cases ps₂ with
    | nil => simp [Command.permCount] at hn
    | cons q qs =>
      have h' : ps.length = qs.length := by simpa [Command.permCount] using hn
      simp [Command.fragments, tupleFrags, Frag.tok, tok_moreTupleFrags r₁ r₂ ps qs h']

/-- Claim C5: for a non-empty set of permissions, iterated as the sequence
`permissions`, `insertRolePermissions` returns one statement (the
construction stays inside the set) whose VALUES list is the tuples
`(quote(role_id), quote(p))`, one for each element `p` in order and no
other, joined by ", " with no separator before the first or after the last;
there are as many tuples as elements. -/
theorem insertRolePermissions_values (Q : Quoter) (role_id : String)
    (permissions : List String) (h : permissions ≠ []) :
    insertRolePermissions Q role_id permissions =
      some ("INSERT INTO role_has_permissions(role_id, permission_id) VALUES "
        ++ ", ".intercalate
            (permissions.map fun p => "(" ++ Q.quote role_id ++ ", " ++ Q.quote p ++ ")")
        ++ ";")
    ∧ (permissions.map fun p =>
        "(" ++ Q.quote role_id ++ ", " ++ Q.quote p ++ ")").length = permissions.length := by
  refine ⟨?_, by simp⟩
  cases permissions with
  | nil => exact absurd rfl h
  | cons p ps =>
    simp only [insertRolePermissions, generate_perm_string, Option.map_some', List.map_cons,
      String.intercalate]
    rw [intercalate_go_eq_foldl]
    rfl

/-- The statement for the role `user` and two permissions. -/
theorem insertRolePermissions_values_witness :
    ["can_read", "can_write"] ≠ [] ∧
    insertRolePermissions litQuoter "user" ["can_read", "can_write"] =
      some "INSERT INTO role_has_permissions(role_id, permission_id) VALUES ('user', 'can_read'), ('user', 'can_write');" :=
  ⟨by decide, (insertRolePermissions_values litQuoter "user" ["can_read", "can_write"]
    (by decide)).1.trans (by decide)⟩

/-- Claim C9: for every operation of the command layer and all inputs, the
statement is the concatenation of a sequence of fragments, each a constant
SQL text or one output of a quoting function; and two calls of the same
operation (for `insertRolePermissions`: with the same number of permissions)
have the same sequence of tokens once each quoting output counts as one
literal, so the constant texts do not depend on the inputs and every
character that comes from an input lies inside a quoting output. -/
theorem statement_structure_fixed (Q : Quoter) :
    (∀ c : Command, c.statement Q = c.fragments.map (render Q)) ∧
    (∀ c₁ c₂ : Command, c₁.op = c₂.op → c₁.permCount = c₂.permCount →
      c₁.fragments.map (List.map Frag.tok) = c₂.fragments.map (List.map Frag.tok)) :=
  ⟨statement_eq_render Q, tok_fragments⟩

/-- Claim C10: two accounts that differ only in `transaction_count` give the
same statement of `insertAccount` and the same statement of `updateAccount`;
both statements write the quoted fixed default 0 as transaction count, and
`insertAccount` writes the quoted caller-supplied `json_data` as data. -/
theorem account_statements_ignore_transaction_count (Q : Quoter) (a : Account) (n : Nat) :
    insertAccount Q { a with transaction_count := n } = insertAccount Q a
    ∧ updateAccount Q { a with transaction_count := n } = updateAccount Q a
    ∧ insertAccount Q a =
        "INSERT INTO account(account_id, domain_id, quorum, transaction_count, data) VALUES ("
          ++ Q.quote a.account_id ++ ", " ++ Q.quote a.domain_id ++ ", "
          ++ Q.quoteNat a.quorum ++ ", " ++ Q.quoteNat 0 ++ ", "
          ++ Q.quote a.json_data ++ ");"
    ∧ updateAccount Q a =
        "UPDATE account\n   SET quorum=" ++ Q.quoteNat a.quorum
          ++ ", transaction_count=" ++ Q.quoteNat 0
          ++ "\n WHERE account_id=" ++ Q.quote a.account_id ++ ";" :=
  ⟨rfl, rfl, rfl, rfl⟩

/-! ### The store -/


/-- The test `accountRefers` finds a row with the key exactly when there is one. -/
theorem accountRefers_iff (s : Store) (k : pubkey_t) :
    s.accountRefers k = true ↔ ∃ r ∈ s.account_has_signatory, r.2 = k := by
  simp [Store.accountRefers]

/-- The test `peerRefers` finds a row with the key exactly when there is one. -/
theorem peerRefers_iff (s : Store) (k : pubkey_t) :
    s.peerRefers k = true ↔ ∃ p ∈ s.peer, p.pubkey = k := by
  simp [Store.peerRefers]

/-- Plain characters of a JSON string literal are taken as they are. -/
theorem jstrRun_plain (cs rest acc : List Char) (h : ∀ c ∈ cs, plainJsonChar c = true) :
    jstrRun (.body acc none) (cs ++ rest) = jstrRun (.body (acc ++ cs) none) rest := by
  induction cs generalizing acc with
  | nil => simp
  | cons c cs ih =>
    have hc : plainJsonChar c = true := h c (by simp)
    simp only [plainJsonChar, Bool.and_eq_true, Bool.not_eq_true', Bool.or_eq_false_iff,
      decide_eq_false_iff_not, decide_eq_true_eq] at hc
    obtain ⟨⟨h1, h2⟩, h3⟩ := hc
    have hstep : jstrStep (.body acc none) c = some (.body (acc ++ [c]) none) := by
      simp [jstrStep, h1, h2, Nat.not_lt.mpr h3]
    have ih' := ih (acc ++ [c]) (fun x hx => h x (by simp [hx]))
    rw [List.cons_append, jstrRun, hstep]
    simpa using ih'

/-- The value argument built from a plain text denotes that text as a JSON
string. -/
theorem kvValue_plain (val : String) (h : plainValue val = true) :
    jsonbInQuoted (kvValue val) = some (.str val) := by
  have hall : ∀ c ∈ val.data, plainJsonChar c = true := by
    simpa [plainValue] using h
  have hdata : (kvValue val).data = '"' :: (val.data ++ ['"']) := by
    simp [kvValue, String.data_append]
  unfold jsonbInQuoted
  rw [hdata]
  simp only
  rw [jstrRun_plain val.data ['"'] [] hall]
  simp [jstrRun, jstrStep]


/-- What a plain character of a path is not. -/
theorem plainPathChar_facts (c : Char) (h : plainPathChar c = true) :
    c ≠ '{' ∧ c ≠ '}' ∧ c ≠ ',' ∧ c ≠ '"' ∧ c ≠ '\\' ∧ arraySpace c = false := by
  have h' : ((((¬c = '{' ∧ ¬c = '}') ∧ ¬c = ',') ∧ ¬c = '"') ∧ ¬c = '\\')
      ∧ arraySpace c = false := by
    simpa [plainPathChar] using h
  obtain ⟨⟨⟨⟨⟨h1, h2⟩, h3⟩, h4⟩, h5⟩, h6⟩ := h'
  exact ⟨h1, h2, h3, h4, h5, h6⟩

/-- Plain characters inside an unquoted element are taken as they are. -/
theorem arrRun_plain (cs rest : List Char) (elems : List (Option String)) (cur : List Char)
    (h : ∀ c ∈ cs, plainPathChar c = true) :
    arrRun (.unquoted elems cur [] false) (cs ++ rest)
      = arrRun (.unquoted elems (cur ++ cs) [] false) rest := by
  induction cs generalizing cur with
  | nil => simp
  | cons c cs ih =>
    obtain ⟨h1, h2, h3, h4, h5, h6⟩ := plainPathChar_facts c (h c (by simp))
    have hstep : arrStep (.unquoted elems cur [] false) c
        = some (.unquoted elems (cur ++ [c]) [] false) := by
      simp [arrStep, h1, h2, h3, h4, h5, h6]
    have ih' := ih (cur ++ [c]) (fun x hx => h x (by simp [hx]))
    rw [List.cons_append, arrRun, hstep]
    simpa using ih'

/-- A plain text where an element starts is read as an unquoted element. -/
theorem arrRun_elem (s : String) (rest : List Char) (first : Bool)
    (elems : List (Option String)) (h : plainPathElem s = true) :
    arrRun (.elemStart first elems) (s.data ++ rest)
      = arrRun (.unquoted elems s.data [] false) rest := by
  simp only [plainPathElem, Bool.and_eq_true, Bool.not_eq_true', List.all_eq_true] at h
  obtain ⟨⟨hne, hall⟩, _⟩ := h
  cases hs : s.data with
  | nil => simp [hs] at hne
  | cons c cs =>
    rw [hs] at hall
    obtain ⟨h1, h2, h3, h4, h5, h6⟩ := plainPathChar_facts c (hall c (by simp))
    have hstep : arrStep (.elemStart first elems) c = some (.unquoted elems [c] [] false) := by
      simp [arrStep, h1, h2, h3, h4, h5, h6]
    rw [List.cons_append, arrRun, hstep]
    exact arrRun_plain cs rest elems [c] (fun x hx => hall x (by simp [hx]))

/-- A plain text ends as the element of that text. -/
theorem arrFinish_plain (s : String) (h : plainPathElem s = true) :
    arrFinish s.data false = some s := by
  simp only [plainPathElem, Bool.and_eq_true, Bool.not_eq_true'] at h
  obtain ⟨_, hnull⟩ := h
  have : ¬ (s.data.map Char.toLower = ['n', 'u', 'l', 'l']) := by simpa using hnull
  simp [arrFinish, this]

/-- The path argument built from a plain creator and a plain key denotes the
two elements creator, key. -/
theorem kvPath_plain (creator_account_id key : String)
    (hc : plainPathElem creator_account_id = true) (hk : plainPathElem key = true) :
    arrayIn (kvPath creator_account_id key) = some [some creator_account_id, some key] := by
  have hdata : (kvPath creator_account_id key).data
      = '{' :: (creator_account_id.data ++ (',' :: ' ' :: (key.data ++ ['}']))) := by
    simp [kvPath, String.data_append]
  unfold arrayIn
  rw [hdata]
  have h0 : arrStep .start '{' = some (.elemStart true []) := by decide
  rw [arrRun, h0]
  simp only
  rw [arrRun_elem creator_account_id _ true [] hc]
  simp only [arrRun, arrStep, arrFinish_plain creator_account_id hc]
  have hsp : arraySpace ' ' = true := by decide
  simp only [hsp, if_true, List.nil_append]
  rw [arrRun_elem key _ false _ hk]
  simp [arrRun, arrStep, arrFinish_plain key hk]

/-- The creator path built from a plain creator denotes the one element
creator. -/
theorem kvCreatorPath_plain (creator_account_id : String)
    (hc : plainPathElem creator_account_id = true) :
    arrayIn (kvCreatorPath creator_account_id) = some [some creator_account_id] := by
  have hdata : (kvCreatorPath creator_account_id).data
      = '{' :: (creator_account_id.data ++ ['}']) := by
    simp [kvCreatorPath, String.data_append]
  unfold arrayIn
  rw [hdata]
  have h0 : arrStep .start '{' = some (.elemStart true []) := by decide
  rw [arrRun, h0]
  simp only
  rw [arrRun_elem creator_account_id _ true [] hc]
  simp [arrRun, arrStep, arrFinish_plain creator_account_id hc]


/-- A member that was set is found with the value set. -/
theorem find_put_same (ms : List (String × Json)) (n : String) (v : Json) :
    Json.find (Json.put ms n v) n = some v := by
  induction ms with
  | nil => simp [Json.put, Json.find]
  | cons m ms ih =>
    obtain ⟨k, w⟩ := m
    by_cases h : k = n
    · simp [Json.put, Json.find, h]
    · simp [Json.put, Json.find, h, ih]

/-- Setting a member leaves the members of other names as they are. -/
theorem find_put_other (ms : List (String × Json)) (n n' : String) (v : Json)
    (h : n' ≠ n) : Json.find (Json.put ms n v) n' = Json.find ms n' := by
  induction ms with
  | nil => simp [Json.put, Json.find, Ne.symm h]
  | cons m ms ih =>
    obtain ⟨k, w⟩ := m
    by_cases hk : k = n
    · subst hk
      simp [Json.put, Json.find, Ne.symm h]
    · by_cases hk' : k = n'
      · subst hk'
        simp [Json.put, Json.find, hk]
      · simp [Json.put, Json.find, hk, hk', ih]

/-- The new data for plain arguments on data of the two-level shape: the
member of the creator is an object that holds the value under the key and
keeps its other members, and the members of the other creators are as
before. -/
theorem kvData_plain (ms : List (String × Json)) (c k : String) (v : Json)
    (hshape : ∀ j, Json.find ms c = some j → ∃ inner, j = .obj inner) :
    ∃ d inner, kvData (.obj ms) c [some c] [some c, some k] v = .ok (.obj d)
      ∧ Json.find d c = some (.obj inner)
      ∧ Json.find inner k = some v
      ∧ (∀ k', k' ≠ k → Json.find inner k' = (Json.find ms c).bind fun j => j.get k')
      ∧ (∀ c', c' ≠ c → Json.find d c' = Json.find ms c') := by
  cases hf : Json.find ms c with
  | none =>
    refine ⟨Json.put (Json.put ms c (.obj [])) c (.obj [(k, v)]), [(k, v)], ?_, ?_, ?_, ?_, ?_⟩
    · simp [kvData, Json.exists, hf, jsonb_set, Json.isScalar, setPath, find_put_same,
        Json.put]
    · exact find_put_same _ _ _
    · simp [Json.find]
    · intro k' hk'
      simp [Json.find, Ne.symm hk']
    · intro c' hc'
      rw [find_put_other _ _ _ _ hc', find_put_other _ _ _ _ hc']
  | some j =>
    obtain ⟨inner, rfl⟩ := hshape j hf
    refine ⟨Json.put ms c (.obj (Json.put inner k v)), Json.put inner k v, ?_, ?_, ?_, ?_, ?_⟩
    · simp [kvData, Json.exists, hf, jsonb_set, Json.isScalar, setPath]
    · exact find_put_same _ _ _
    · exact find_put_same _ _ _
    · intro k' hk'
      simp [find_put_other _ _ _ _ hk', Json.get]
    · intro c' hc'
      exact find_put_other _ _ _ _ hc'

/-- For plain arguments on an account with empty data the first call stores
the value under `data[creator][key]`, and a second call of the same creator
with another key leaves both keys. -/
theorem setAccountKV_plain (a d : String) (q : Nat) (c k v k2 v2 : String)
    (hc : plainPathElem c = true) (hk : plainPathElem k = true)
    (hv : plainValue v = true) (hk2 : plainPathElem k2 = true)
    (hv2 : plainValue v2 = true) (hne : k2 ≠ k) :
    ((newAccount a d q).setAll [(a, c, k, v)]).dataOf a
        = some (.obj [(c, .obj [(k, .str v)])])
    ∧ ((newAccount a d q).setAll [(a, c, k, v), (a, c, k2, v2)]).dataOf a
        = some (.obj [(c, .obj [(k, .str v), (k2, .str v2)])]) := by
  have h1 : (newAccount a d q).after ((newAccount a d q).setAccountKV a c k v)
      = { Store.empty with account := [⟨a, d, q, 0, .obj [(c, .obj [(k, .str v)])]⟩] } := by
    simp [Store.setAccountKV, kvCreatorPath_plain c hc, kvPath_plain c k hc hk,
      kvValue_plain v hv, newAccount, kvRows, kvData, Json.exists, Json.find, jsonb_set,
      Json.isScalar, setPath, Json.put, Store.after, Store.empty]
  constructor
  · simp [Store.setAll, h1, Store.dataOf]
  · simp only [Store.setAll, h1]
    simp [Store.setAccountKV, kvCreatorPath_plain c hc, kvPath_plain c k2 hc hk2,
      kvValue_plain v2 hv2, kvRows, kvData, Json.exists, Json.find, jsonb_set,
      Json.isScalar, setPath, Json.put, Store.after, Store.empty, Store.dataOf, Ne.symm hne]

/-- The scenario of three calls on an account with empty data: two keys of
the creator `admin`, one key of the creator `other`. -/
theorem setAccountKV_sequence :
    (freshAccount.setAll [("a@d", "admin", "k1", "v1"), ("a@d", "admin", "k2", "v2"),
      ("a@d", "other", "k1", "z")]).dataOf "a@d"
      = some (.obj [("admin", .obj [("k1", .str "v1"), ("k2", .str "v2")]),
          ("other", .obj [("k1", .str "z")])]) := rfl

/-- Claim C1 does not hold on the code.  With the value of one double quote
the statement is refused and `data[admin][k1]` stays absent; with the value
of two backslashes the stored string is one backslash; and the creator `a,b`
writes into the subtree of the creator `a`. -/
theorem setAccountKV_breaks_on_special_characters :
    freshAccount.setAccountKV "a@d" "admin" "k1" "\""
      = .error (kvMessage "a@d" "admin" "k1" "\"")
    ∧ (freshAccount.setAll [("a@d", "admin", "k1", "\"")]).dataOf "a@d" = some (.obj [])
    ∧ (freshAccount.setAll [("a@d", "admin", "k1", "\\\\")]).dataOf "a@d"
        = some (.obj [("admin", .obj [("k1", .str "\\")])])
    ∧ (freshAccount.setAll [("a@d", "a", "x", "1"), ("a@d", "a,b", "k", "v")]).dataOf "a@d"
        = some (.obj [("a", .obj [("x", .str "1"), ("b", .obj [("k", .str "v")])])]) :=
  ⟨rfl, rfl, rfl, rfl⟩

/-- Claim C2 does not hold on the code.  The value argument for the value of
one double quote is the text of three double quotes, which is not valid
JSON; the value argument for two backslashes denotes one backslash; the path
argument for the creator `a,b` and the key `k` denotes three elements; the
path argument for the creator `NULL` has a null element; the path argument
for a key with a closing brace is refused. -/
theorem setAccountKV_arguments_not_escaped :
    kvValue "\"" = "\"\"\""
    ∧ jsonbInQuoted (kvValue "\"") = none
    ∧ jsonbInQuoted (kvValue "\\\\") = some (.str "\\")
    ∧ arrayIn (kvPath "a,b" "k") = some [some "a", some "b", some "k"]
    ∧ arrayIn (kvPath "NULL" "k") = some [none, some "k"]
    ∧ arrayIn (kvPath "a" "k\x7d") = none :=
  ⟨by decide, rfl, rfl, by decide, by decide, by decide⟩

/-! ### The simulator -/

/-- Claim C6: when the read of the top block fails or the top block's height
is not H − 1, processing the proposal publishes nothing on
`onVerifiedProposal` and `on_block`, acquires no temporary view, and calls
neither the validator nor the signer. -/
theorem dropped_proposal_is_silent (C : Collaborators) (P : Proposal)
    (h : (∃ e, C.getTopBlock = .error e)
      ∨ (∃ T, C.getTopBlock = .ok T ∧ (T.height : Int) ≠ (P.height : Int) - 1)) :
    outputs (processProposal C P) = []
    ∧ Event.createTemporaryWsv ∉ processProposal C P
    ∧ (∀ p, Event.validate p ∉ processProposal C P)
    ∧ (∀ b, Event.sign b ∉ processProposal C P) := by
  have key : processProposal C P = [.createBlockQuery, .getTopBlock]
      ∨ processProposal C P = [.createBlockQuery] := by
    unfold processProposal
    by_cases hq : C.createBlockQuery = true
    · left
      rcases h with ⟨e, he⟩ | ⟨T, hT, hne⟩
      · simp [hq, he]
      · simp [hq, hT, hne]
    · right
      simp [hq]
  rcases key with key | key <;> rw [key] <;> simp [outputs, Event.isOutput]

/-- The scenario without parent: nothing is published and only the block
query is used. -/
theorem dropped_proposal_is_silent_witness :
    outputs (processProposal noParent ⟨2, ["tx", "tx"]⟩) = []
    ∧ Event.createTemporaryWsv ∉ processProposal noParent ⟨2, ["tx", "tx"]⟩
    ∧ (∀ p, Event.validate p ∉ processProposal noParent ⟨2, ["tx", "tx"]⟩)
    ∧ (∀ b, Event.sign b ∉ processProposal noParent ⟨2, ["tx", "tx"]⟩) :=
  dropped_proposal_is_silent noParent ⟨2, ["tx", "tx"]⟩ (Or.inl ⟨"no block", rfl⟩)

/-- The trace of an admitted proposal: the two block-query calls, then steps
3 to 8. -/
theorem processProposal_admitted (C : Collaborators) (P : Proposal) (T : Block)
    (hq : C.createBlockQuery = true) (hT : C.getTopBlock = .ok T)
    (hH : (T.height : Int) = (P.height : Int) - 1) :
    processProposal C P = [.createBlockQuery, .getTopBlock] ++ simulate C P T := by
  unfold processProposal
  simp [hq, hT, hH]

/-- Claim C7: for an admitted proposal P of height H with top block T, for
which the validator returns (P', errors), exactly one block is published on
`on_block`; its height is H, its previous hash the hash of T, and its
transactions those of P' in the same order. -/
theorem emitted_block_fields (C : Collaborators) (P P' : Proposal) (errors : List TxError)
    (top : Block)
    (hq : C.createBlockQuery = true) (hT : C.getTopBlock = .ok top)
    (hH : (top.height : Int) = (P.height : Int) - 1)
    (hv : C.validate P C.createTemporaryWsv = (P', errors)) :
    ∃ b, publishedBlocks (processProposal C P) = [b]
      ∧ b.height = P.height ∧ b.prev_hash = C.hash top
      ∧ b.transactions = P'.transactions := by
  rw [processProposal_admitted C P top hq hT hH]
  simp [publishedBlocks, simulate, hv]

/-- The scenario of partial validation: the block has the height of the
proposal and the one transaction that the validator kept. -/
theorem emitted_block_fields_witness :
    ∃ b, publishedBlocks (processProposal keepsOneOfThree ⟨3, ["tx1", "tx2", "tx3"]⟩) = [b]
      ∧ b.height = 3 ∧ b.prev_hash = keepsOneOfThree.hash (makeBlock 2)
      ∧ b.transactions = ["tx1"] :=
  emitted_block_fields keepsOneOfThree ⟨3, ["tx1", "tx2", "tx3"]⟩ ⟨2, ["tx1"]⟩
    ["SomeError", "SomeError"] (makeBlock 2) rfl rfl (by decide) rfl

/-- Claim C8: for an admitted proposal, the events on the output streams are
exactly one `onVerifiedProposal` event followed by one `on_block` event, and
the first carries the pair (P', errors) that the validator returned, whatever
P' is. -/
theorem admitted_proposal_outputs (C : Collaborators) (P P' : Proposal)
    (errors : List TxError) (top : Block)
    (hq : C.createBlockQuery = true) (hT : C.getTopBlock = .ok top)
    (hH : (top.height : Int) = (P.height : Int) - 1)
    (hv : C.validate P C.createTemporaryWsv = (P', errors)) :
    outputs (processProposal C P)
      = [.onVerifiedProposal P' errors,
          .on_block ⟨P.height, C.hash top, P'.transactions,
            [C.sign ⟨P.height, C.hash top, P'.transactions, []⟩]⟩] := by
  rw [processProposal_admitted C P top hq hT hH]
  simp [outputs, simulate, hv, Event.isOutput]

/-- The scenario of partial validation: one verified-proposal event with one
transaction and two errors, then one signed block. -/
theorem admitted_proposal_outputs_witness :
    outputs (processProposal keepsOneOfThree ⟨3, ["tx1", "tx2", "tx3"]⟩)
      = [.onVerifiedProposal ⟨2, ["tx1"]⟩ ["SomeError", "SomeError"],
          .on_block ⟨3, "hash2", ["tx1"], ["signature"]⟩] :=
  admitted_proposal_outputs keepsOneOfThree ⟨3, ["tx1", "tx2", "tx3"]⟩ ⟨2, ["tx1"]⟩
    ["SomeError", "SomeError"] (makeBlock 2) rfl rfl (by decide) rfl

/-! ### The remaining tables -/

/-- Claim C15 does not hold on the code.  The statement of
`deleteAccountRole` has the keyword AND right behind the quoted account id,
with no white space between them, so it is not the statement with the
space-separated predicate; for the account `a@d` and the role `user` it
reads `account_id='a@d'AND role_id='user'`. -/
theorem deleteAccountRole_lacks_space (Q : Quoter) (account_id role_name : String) :
    deleteAccountRole Q account_id role_name
      = "DELETE FROM account_has_roles WHERE account_id=" ++ Q.quote account_id
        ++ "AND role_id=" ++ Q.quote role_name ++ ";"
    ∧ deleteAccountRole Q account_id role_name
      ≠ "DELETE FROM account_has_roles WHERE account_id=" ++ Q.quote account_id
        ++ " AND role_id=" ++ Q.quote role_name ++ ";"
    ∧ deleteAccountRole litQuoter "a@d" "user"
      = "DELETE FROM account_has_roles WHERE account_id='a@d'AND role_id='user';" := by
  refine ⟨rfl, ?_, by decide⟩
  intro h
  have h' := congrArg String.data h
  simp only [deleteAccountRole, String.data_append, List.append_assoc,
    List.append_cancel_left_eq] at h'
  simp at h'

/-- In a list without duplicates the rows equal to a member are that member
once. -/
theorem filter_eq_singleton (l : List pubkey_t) (k : pubkey_t) (h : l.Nodup) (hk : k ∈ l) :
    l.filter (fun row => decide (row = k)) = [k] := by
  induction l with
  | nil => simp at hk
  | cons a l ih =>
    obtain ⟨ha, hl⟩ := List.nodup_cons.mp h
    by_cases hak : a = k
    · subst hak
      have : l.filter (fun row => decide (row = a)) = [] := by
        rw [List.filter_eq_nil_iff]
        intro x hx
        simp only [decide_eq_true_eq]
        intro hxa
        exact ha (hxa ▸ hx)
      simp [List.filter_cons, this]
    · have hk' : k ∈ l := by
        rcases List.mem_cons.mp hk with h1 | h1
        · exact absurd h1.symm hak
        · exact h1
      simp [List.filter_cons, hak, ih hl hk']

/-- The rows of the pair after the amounts of the pair were overwritten. -/
theorem filter_pair_overwritten (a i b : String) (l : List (String × String × String)) :
    (l.map fun row => if samePair a i row then (row.1, row.2.1, b) else row).filter
        (samePair a i)
      = (l.filter (samePair a i)).map fun _ => (a, i, b) := by
  induction l with
  | nil => rfl
  | cons x l ih =>
    by_cases hx : samePair a i x = true
    · have hx' : x.1 = a ∧ x.2.1 = i := by simpa [samePair] using hx
      have hnew : samePair a i (x.1, x.2.1, b) = true := by simp [samePair, hx']
      simp only [List.map_cons, hx, if_true, List.filter_cons, hnew, ih]
      simp [hx']
    · simp only [Bool.not_eq_true] at hx
      simp [List.filter_cons, hx, ih]

/-- The rows of the other pairs after the amounts of the pair were
overwritten. -/
theorem filter_others_overwritten (a i b : String) (l : List (String × String × String)) :
    (l.map fun row => if samePair a i row then (row.1, row.2.1, b) else row).filter
        (fun row => !samePair a i row)
      = l.filter fun row => !samePair a i row := by
  induction l with
  | nil => rfl
  | cons x l ih =>
    by_cases hx : samePair a i x = true
    · have hx' : x.1 = a ∧ x.2.1 = i := by simpa [samePair] using hx
      have hnew : samePair a i (x.1, x.2.1, b) = true := by simp [samePair, hx']
      simp [List.filter_cons, hx, hnew, ih]
    · simp only [Bool.not_eq_true] at hx
      simp [List.filter_cons, hx, ih]

/-- The first match in a list with a new last row, when no earlier row
matches. -/
theorem find_append_new {α : Type} (p : α → Bool) (l : List α) (x : α)
    (hold : l.find? p = none) (hx : p x = true) : (l ++ [x]).find? p = some x := by
  simp [List.find?_append, hold, hx]

/-- A row that is in a table is found by the lookup for the whole row. -/
theorem find_whole_row {α : Type} [DecidableEq α] (l : List α) (x : α) (hx : x ∈ l) :
    l.find? (fun y => decide (y = x)) = some x := by
  induction l with
  | nil => simp at hx
  | cons a l ih =>
    by_cases ha : a = x
    · simp [ha]
    · have : x ∈ l := by
        rcases List.mem_cons.mp hx with h | h
        · exact absurd h.symm ha
        · exact h
      simp [List.find?_cons, ha, ih this]

/-- No row is found by the lookup for a whole row after the rows equal to it
were removed. -/
theorem find_whole_row_removed {α : Type} [DecidableEq α] (l : List α) (x : α)
    (q : α → Bool) (hq : ∀ y, q y = true → y ≠ x) :
    (l.filter q).find? (fun y => decide (y = x)) = none := by
  rw [List.find?_eq_none]
  intro y hy
  have := hq y (List.mem_filter.mp hy).2
  simpa using this

/-- The first row of the pair after the amounts of the pair were overwritten. -/
theorem find_pair_overwritten (a i b : String) (l : List (String × String × String))
    (hany : l.any (samePair a i) = true) :
    (l.map fun row => if samePair a i row then (row.1, row.2.1, b) else row).find?
        (samePair a i) = some (a, i, b) := by
  induction l with
  | nil => simp at hany
  | cons x l ih =>
    by_cases hx : samePair a i x = true
    · have hx' : x.1 = a ∧ x.2.1 = i := by simpa [samePair] using hx
      have hnew : samePair a i (x.1, x.2.1, b) = true := by simp [samePair, hx']
      simp only [List.map_cons, hx, if_true, List.find?_cons, hnew]
      simp [hx']
    · simp only [Bool.not_eq_true] at hx
      have hl : l.any (samePair a i) = true := by
        simpa [List.any_cons, hx] using hany
      simp only [List.map_cons, hx, Bool.false_eq_true, if_false, List.find?_cons]
      exact ih hl

/-! ### Reading the statements -/

/-- The reader run over two texts, one behind the other. -/
theorem lexRun_append (st : LexState) (xs ys : List Char) :
    lexRun st (xs ++ ys)
      = ((lexRun st xs).1 ++ (lexRun (lexRun st xs).2 ys).1, (lexRun (lexRun st xs).2 ys).2) := by
  induction xs generalizing st with
  | nil => simp [lexRun]
  | cons c cs ih => simp [lexRun, ih, List.append_assoc]

/-- Inside a string literal, characters other than the single quote are taken
as they are. -/
theorem lexRun_str_plain (acc cs : List Char) (h : ∀ c ∈ cs, c ≠ '\'') :
    lexRun (.str acc) cs = ([], .str (acc ++ cs)) := by
  induction cs generalizing acc with
  | nil => simp [lexRun]
  | cons c cs ih =>
    have hc : c ≠ '\'' := h c (by simp)
    simp [lexRun, lexStep, hc, ih (acc ++ [c]) (fun x hx => h x (by simp [hx]))]

/-- Inside a string literal, a text with its single quotes doubled is read
back as the text. -/
theorem lexRun_str_escaped (acc cs : List Char) :
    lexRun (.str acc) (cs.flatMap fun c => if c = '\'' then [c, c] else [c])
      = ([], .str (acc ++ cs)) := by
  induction cs generalizing acc with
  | nil => simp [lexRun]
  | cons c cs ih =>
    rw [List.flatMap_cons, lexRun_append]
    by_cases hc : c = '\''
    · subst hc
      have h1 : lexRun (.str acc) ['\'', '\''] = ([], .str (acc ++ ['\''])) := by
        simp [lexRun, lexStep]
      simp only [if_true, h1, ih, List.nil_append, List.append_assoc, List.singleton_append]
    · have h1 : lexRun (.str acc) [c] = ([], .str (acc ++ [c])) := by
        simp [lexRun, lexStep, hc]
      simp only [hc, if_false, h1, ih, List.nil_append, List.append_assoc,
        List.singleton_append]

/-- The opening quote of a literal completes the word before it. -/
theorem lexStep_open (st : LexState) (t0 : List Token) (h : openLiteral st = some t0) :
    lexStep st '\'' = (t0, .str []) := by
  cases st with
  | normal =>
    simp only [openLiteral, Option.some.injEq] at h
    subst h
    rfl
  | word acc =>
    simp only [openLiteral, Option.some.injEq] at h
    subst h
    rfl
  | str acc => simp [openLiteral] at h
  | strQ acc => simp [openLiteral] at h
  | ident acc => simp [openLiteral] at h

/-- A hexadecimal digit of a byte is no single quote. -/
theorem hexByte_no_quote (b : Nat) : ∀ c ∈ hexByte b, c ≠ '\'' := by
  have key : ∀ d, d < 16 → (Nat.toDigits 16 d).headD '0' ≠ '\'' := by
    intro d hd
    interval_cases d <;> decide
  intro c hc
  simp only [hexByte, List.mem_cons, List.mem_singleton, List.not_mem_nil, or_false] at hc
  rcases hc with rfl | rfl
  · exact key _ (Nat.mod_lt _ (by decide))
  · exact key _ (Nat.mod_lt _ (by decide))

/-- The hexadecimal digits of a byte string hold no single quote. -/
theorem hex_no_quote (b : pubkey_t) : ∀ c ∈ b.flatMap hexByte, c ≠ '\'' := by
  intro c hc
  obtain ⟨x, _, hx⟩ := List.mem_flatMap.mp hc
  exact hexByte_no_quote x c hx

/-- Reading decimal digits over two texts, one behind the other. -/
theorem decimalAcc_append (a : Nat) (xs ys : List Char) :
    decimalAcc a (xs ++ ys) = (decimalAcc a xs).bind fun m => decimalAcc m ys := by
  induction xs generalizing a with
  | nil => simp [decimalAcc]
  | cons c cs ih =>
    by_cases hc : c.isDigit = true
    · simp [decimalAcc, hc, ih]
    · simp [decimalAcc, hc]

/-- The character of a decimal digit is a digit with the value of the digit. -/
theorem digitChar_decimal (m : Nat) (h : m < 10) :
    (Nat.digitChar m).isDigit = true ∧ (Nat.digitChar m).toNat - 48 = m := by
  interval_cases m <;> exact ⟨by decide, by decide⟩

/-- The digits that the printing of a number puts before the digits printed
so far: they are digits, and they denote the number. -/
theorem toDigitsCore_decimal (fuel : Nat) :
    ∀ (n : Nat) (ds : List Char), n < fuel →
      ∃ xs, Nat.toDigitsCore 10 fuel n ds = xs ++ ds ∧ xs ≠ []
        ∧ (∀ c ∈ xs, c.isDigit = true)
        ∧ ∀ a, decimalAcc a xs = some (a * 10 ^ xs.length + n) := by
  induction fuel with
  | zero => intro n ds h; exact absurd h (Nat.not_lt_zero n)
  | succ fuel ih =>
    intro n ds hn
    obtain ⟨hd1, hd2⟩ := digitChar_decimal (n % 10) (Nat.mod_lt _ (by decide))
    by_cases h0 : n / 10 = 0
    · refine ⟨[Nat.digitChar (n % 10)], ?_, by simp, ?_, ?_⟩
      · simp [Nat.toDigitsCore, h0]
      · intro c hc
        simp only [List.mem_singleton] at hc
        subst hc
        exact hd1
      · intro a
        have hlt : n < 10 := by
          rcases Nat.lt_or_ge n 10 with h | h
          · exact h
          · have := Nat.div_pos h (by decide : 0 < 10)
            omega
        have hmod : n % 10 = n := Nat.mod_eq_of_lt hlt
        simp only [decimalAcc, hd1, if_true, hd2, List.length_singleton, pow_one]
        rw [hmod]
        congr 1
        omega
    · have hlt : n / 10 < fuel := by
        have : n / 10 < n := Nat.div_lt_self (by omega) (by decide)
        omega
      obtain ⟨xs, hxs, hne, hdig, hval⟩ := ih (n / 10) (Nat.digitChar (n % 10) :: ds) hlt
      refine ⟨xs ++ [Nat.digitChar (n % 10)], ?_, by simp, ?_, ?_⟩
      · simp [Nat.toDigitsCore, h0, hxs]
      · intro c hc
        rcases List.mem_append.mp hc with h | h
        · exact hdig c h
        · simp only [List.mem_singleton] at h
          subst h
          exact hd1
      · intro a
        rw [decimalAcc_append, hval a]
        simp only [Option.some_bind, decimalAcc, hd1, if_true, hd2, List.length_append,
          List.length_singleton]
        congr 1
        have := Nat.div_add_mod n 10
        rw [pow_succ]
        nlinarith [this]

/-- The decimal digits of a number denote the number. -/
theorem decimalIn_toDigits (n : Nat) : decimalIn (String.mk (Nat.toDigits 10 n)) = some n := by
  obtain ⟨xs, hxs, hne, _, hval⟩ := toDigitsCore_decimal (n + 1) n [] (Nat.lt_succ_self n)
  have hd : Nat.toDigits 10 n = xs := by simpa [Nat.toDigits] using hxs
  simp [decimalIn, hd, hne, hval 0]

/-- The decimal digits of a number hold no single quote. -/
theorem toDigits_no_quote (n : Nat) : ∀ c ∈ Nat.toDigits 10 n, c ≠ '\'' := by
  obtain ⟨xs, hxs, _, hdig, _⟩ := toDigitsCore_decimal (n + 1) n [] (Nat.lt_succ_self n)
  have hd : Nat.toDigits 10 n = xs := by simpa [Nat.toDigits] using hxs
  intro c hc hq
  rw [hd] at hc
  have := hdig c hc
  rw [hq] at this
  exact absurd this (by decide)

/-- A hexadecimal digit is read back with its value. -/
theorem hexVal_digit (d : Nat) (h : d < 16) :
    hexVal ((Nat.toDigits 16 d).headD '0') = some d := by
  interval_cases d <;> decide

/-- The hexadecimal digits of a byte string denote its bytes modulo 256. -/
theorem hexPairs_hex (k : pubkey_t) :
    hexPairs (k.flatMap hexByte) = some (k.map fun b => b % 256) := by
  induction k with
  | nil => rfl
  | cons b k ih =>
    have h1 := hexVal_digit (b / 16 % 16) (Nat.mod_lt _ (by decide))
    have h2 := hexVal_digit (b % 16) (Nat.mod_lt _ (by decide))
    have harith : 16 * (b / 16 % 16) + b % 16 = b % 256 := by omega
    have e : (b :: k).flatMap hexByte
        = (Nat.toDigits 16 (b / 16 % 16)).headD '0' :: (Nat.toDigits 16 (b % 16)).headD '0'
            :: k.flatMap hexByte := by
      simp [List.flatMap_cons, hexByte]
    rw [e]
    simp only [hexPairs, h1, h2, ih, harith, List.map_cons]

/-- The literal that `pgQuoter` writes for a byte string denotes its bytes
modulo 256. -/
theorem byteaIn_hex (k : pubkey_t) :
    byteaIn (String.mk ('\\' :: 'x' :: k.flatMap hexByte)) = some (k.map fun b => b % 256) := by
  simp only [byteaIn]
  exact hexPairs_hex k

/-- A byte string of bytes is read back as it is. -/
theorem map_mod_valid (k : pubkey_t) (h : validKey k) : (k.map fun b => b % 256) = k := by
  induction k with
  | nil => rfl
  | cons b k ih =>
    have hb : b % 256 = b := Nat.mod_eq_of_lt (h b (by simp))
    have hk : validKey k := fun x hx => h x (by simp [hx])
    simp [hb, ih hk]

/-- The reader run over a text with a first character. -/
theorem lexRun_cons (st : LexState) (c : Char) (cs : List Char) :
    lexRun st (c :: cs)
      = ((lexStep st c).1 ++ (lexRun (lexStep st c).2 cs).1, (lexRun (lexStep st c).2 cs).2) :=
  rfl

/-- The text of a sequence of fragments, read by the reader of tokens, gives
the tokens read fragment by fragment. -/
theorem lexRun_render (fs : List Frag) :
    ∀ (st : LexState) (r : List Token × LexState), lexFrags st fs = some r →
      lexRun st (render pgQuoter fs).data = r := by
  induction fs with
  | nil =>
    intro st r h
    simp only [lexFrags, Option.some.injEq] at h
    subst h
    rfl
  | cons f fs ih =>
    intro st r h
    rw [render_cons, String.data_append, lexRun_append]
    cases f with
    | sql text =>
      simp only [lexFrags, Option.map_eq_some'] at h
      obtain ⟨r', hr', rfl⟩ := h
      simp only [Frag.render]
      rw [ih _ _ hr']
    | str s =>
      simp only [lexFrags] at h
      cases ho : openLiteral st with
      | none => simp [ho] at h
      | some t0 =>
        simp only [ho, Option.map_eq_some'] at h
        obtain ⟨r', hr', rfl⟩ := h
        have hlit : lexRun st (pgQuoter.quote s).data = (t0, .strQ s.data) := by
          simp only [pgQuoter, lexRun, lexStep_open st t0 ho]
          rw [lexRun_append, lexRun_str_escaped]
          simp [lexRun, lexStep]
        simp only [Frag.render, hlit]
        rw [ih _ _ hr']
    | num n =>
      simp only [lexFrags] at h
      cases ho : openLiteral st with
      | none => simp [ho] at h
      | some t0 =>
        simp only [ho, Option.map_eq_some'] at h
        obtain ⟨r', hr', rfl⟩ := h
        have hlit : lexRun st (pgQuoter.quoteNat n).data = (t0, .strQ (Nat.toDigits 10 n)) := by
          simp only [pgQuoter, lexRun, lexStep_open st t0 ho]
          rw [lexRun_append, lexRun_str_plain _ _ (toDigits_no_quote n)]
          simp [lexRun, lexStep]
        simp only [Frag.render, hlit]
        rw [ih _ _ hr']
    | raw b =>
      simp only [lexFrags] at h
      cases ho : openLiteral st with
      | none => simp [ho] at h
      | some t0 =>
        simp only [ho, Option.map_eq_some'] at h
        obtain ⟨r', hr', rfl⟩ := h
        have hlit : lexRun st (pgQuoter.quoteRaw b).data
            = (t0 ++ [.lit (String.mk ('\\' :: 'x' :: b.flatMap hexByte)), .sym ':', .sym ':'],
                .word ['b', 'y', 't', 'e', 'a']) := by
          have hdata : (pgQuoter.quoteRaw b).data
              = '\'' :: (('\\' :: 'x' :: b.flatMap hexByte)
                  ++ ['\'', ':', ':', 'b', 'y', 't', 'e', 'a']) := by
            simp [pgQuoter]
          rw [hdata, lexRun_cons, lexStep_open st t0 ho]
          have hplain : ∀ c ∈ '\\' :: 'x' :: b.flatMap hexByte, c ≠ '\'' := by
            intro c hc
            rcases List.mem_cons.mp hc with h1 | h1
            · subst h1; decide
            · rcases List.mem_cons.mp h1 with h2 | h2
              · subst h2; decide
              · exact hex_no_quote b c h2
          rw [lexRun_append, lexRun_str_plain _ _ hplain]
          simp [lexRun, lexStep, normalStep, wordChar]
        simp only [Frag.render, hlit]
        rw [ih _ _ hr']
        simp

/-- The tokens of the text of a sequence of fragments. -/
theorem lex_render (fs : List Frag) (toks last : List Token) (st : LexState)
    (h : lexFrags .normal fs = some (toks, st)) (hend : lexEnd st = some last) :
    lex (render pgQuoter fs) = some (toks ++ last) := by
  simp [lex, lexRun_render fs .normal _ h, hend]

/-- A text that is the rendering of the fragments of a call is read from the
tokens of the fragments. -/
theorem readStmt_fragments (c : Command) (text : String) (fs : List Frag)
    (toks last : List Token) (st : LexState)
    (htext : c.fragments.map (render pgQuoter) = some text) (hfs : c.fragments = some fs)
    (h : lexFrags .normal fs = some (toks, st)) (hend : lexEnd st = some last) :
    readStmt text = parseStmt (foldCasts (toks ++ last)) := by
  rw [hfs, Option.map_some', Option.some.injEq] at htext
  subst htext
  simp only [readStmt, lex_render fs toks last st h hend]

set_option maxRecDepth 8000 in
/-- The text of the statement of `insertRole` as the store reads it. -/
theorem readStmt_insertRole (r : String) (text : String)
    (ht : (Command.insertRole r).fragments.map (render pgQuoter) = some text) :
    readStmt text
      = some (.insert "role" ["role_id"] [[.lit r none]] .fail) := by
  rw [readStmt_fragments (.insertRole r) text _ _ _ _ ht rfl rfl rfl]
  rfl

set_option maxRecDepth 8000 in
/-- The text of the statement of `insertAccountRole` as the store reads it. -/
theorem readStmt_insertAccountRole (a r : String) (text : String)
    (ht : (Command.insertAccountRole a r).fragments.map (render pgQuoter) = some text) :
    readStmt text
      = some (.insert "account_has_roles" ["account_id", "role_id"]
          [[.lit a none, .lit r none]] .fail) := by
  rw [readStmt_fragments (.insertAccountRole a r) text _ _ _ _ ht rfl rfl rfl]
  rfl

set_option maxRecDepth 8000 in
/-- The text of the statement of `deleteAccountRole` as the store reads it:
the literal of the account id ends at its closing quote, so the keyword
behind it is read as a keyword. -/
theorem readStmt_deleteAccountRole (a r : String) (text : String)
    (ht : (Command.deleteAccountRole a r).fragments.map (render pgQuoter) = some text) :
    readStmt text
      = some (.delete "account_has_roles"
          [.eq "account_id" (.lit a none), .eq "role_id" (.lit r none)]) := by
  rw [readStmt_fragments (.deleteAccountRole a r) text _ _ _ _ ht rfl rfl rfl]
  rfl

set_option maxRecDepth 8000 in
/-- The text of the statement of `insertAccountGrantablePermission` as the
store reads it. -/
theorem readStmt_insertAccountGrantablePermission (p a i : String) (text : String)
    (ht : (Command.insertAccountGrantablePermission p a i).fragments.map (render pgQuoter) = some text) :
    readStmt text
      = some (.insert "account_has_grantable_permissions"
          ["permittee_account_id", "account_id", "permission_id"]
          [[.lit p none, .lit a none, .lit i none]] .fail) := by
  rw [readStmt_fragments (.insertAccountGrantablePermission p a i) text _ _ _ _ ht rfl rfl rfl]
  rfl

set_option maxRecDepth 8000 in
/-- The text of the statement of `deleteAccountGrantablePermission` as the
store reads it. -/
theorem readStmt_deleteAccountGrantablePermission (p a i : String) (text : String)
    (ht : (Command.deleteAccountGrantablePermission p a i).fragments.map (render pgQuoter) = some text) :
    readStmt text
      = some (.delete "account_has_grantable_permissions"
          [.eq "permittee_account_id" (.lit p none), .eq "account_id" (.lit a none),
           .eq "permission_id" (.lit i none)]) := by
  rw [readStmt_fragments (.deleteAccountGrantablePermission p a i) text _ _ _ _ ht rfl rfl rfl]
  rfl

set_option maxRecDepth 8000 in
/-- The text of the statement of `insertAccount` as the store reads it. -/
theorem readStmt_insertAccount (a : Account) (text : String)
    (ht : (Command.insertAccount a).fragments.map (render pgQuoter) = some text) :
    readStmt text
      = some (.insert "account"
          ["account_id", "domain_id", "quorum", "transaction_count", "data"]
          [[.lit a.account_id none, .lit a.domain_id none, .lit (decLit a.quorum) none,
            .lit (decLit 0) none, .lit a.json_data none]] .fail) := by
  rw [readStmt_fragments (.insertAccount a) text _ _ _ _ ht rfl rfl rfl]
  rfl

set_option maxRecDepth 8000 in
/-- The text of the statement of `insertAsset` as the store reads it. -/
theorem readStmt_insertAsset (a : Asset) (text : String)
    (ht : (Command.insertAsset a).fragments.map (render pgQuoter) = some text) :
    readStmt text
      = some (.insert "asset" ["asset_id", "domain_id", "precision", "data"]
          [[.lit a.asset_id none, .lit a.domain_id none, .lit (decLit a.precision) none,
            .null]] .fail) := by
  rw [readStmt_fragments (.insertAsset a) text _ _ _ _ ht rfl rfl rfl]
  rfl

set_option maxRecDepth 8000 in
/-- The text of the statement of `upsertAccountAsset` as the store reads it. -/
theorem readStmt_upsertAccountAsset (a : AccountAsset) (text : String)
    (ht : (Command.upsertAccountAsset a).fragments.map (render pgQuoter) = some text) :
    readStmt text
      = some (.insert "account_has_asset" ["account_id", "asset_id", "amount"]
          [[.lit a.account_id none, .lit a.asset_id none, .lit a.balance none]]
          (.update ["account_id", "asset_id"] "amount")) := by
  rw [readStmt_fragments (.upsertAccountAsset a) text _ _ _ _ ht rfl rfl rfl]
  rfl

set_option maxRecDepth 8000 in
/-- The text of the statement of `insertSignatory` as the store reads it. -/
theorem readStmt_insertSignatory (k : pubkey_t) (text : String)
    (ht : (Command.insertSignatory k).fragments.map (render pgQuoter) = some text) :
    readStmt text
      = some (.insert "signatory" ["public_key"] [[.lit (hexLit k) (some "bytea")]]
          .nothing) := by
  rw [readStmt_fragments (.insertSignatory k) text _ _ _ _ ht rfl rfl rfl]
  rfl

set_option maxRecDepth 8000 in
/-- The text of the statement of `insertAccountSignatory` as the store reads it. -/
theorem readStmt_insertAccountSignatory (a : String) (k : pubkey_t) (text : String)
    (ht : (Command.insertAccountSignatory a k).fragments.map (render pgQuoter) = some text) :
    readStmt text
      = some (.insert "account_has_signatory" ["account_id", "public_key"]
          [[.lit a none, .lit (hexLit k) (some "bytea")]] .fail) := by
  rw [readStmt_fragments (.insertAccountSignatory a k) text _ _ _ _ ht rfl rfl rfl]
  rfl

set_option maxRecDepth 8000 in
/-- The text of the statement of `deleteAccountSignatory` as the store reads it. -/
theorem readStmt_deleteAccountSignatory (a : String) (k : pubkey_t) (text : String)
    (ht : (Command.deleteAccountSignatory a k).fragments.map (render pgQuoter) = some text) :
    readStmt text
      = some (.delete "account_has_signatory"
          [.eq "account_id" (.lit a none),
           .eq "public_key" (.lit (hexLit k) (some "bytea"))]) := by
  rw [readStmt_fragments (.deleteAccountSignatory a k) text _ _ _ _ ht rfl rfl rfl]
  rfl

set_option maxRecDepth 8000 in
/-- The text of the statement of `deleteSignatory` as the store reads it. -/
theorem readStmt_deleteSignatory (k : pubkey_t) (text : String)
    (ht : (Command.deleteSignatory k).fragments.map (render pgQuoter) = some text) :
    readStmt text
      = some (.delete "signatory"
          [.eq "public_key" (.lit (hexLit k) (some "bytea")),
           .notExists "account_has_signatory" "public_key" (.lit (hexLit k) (some "bytea")),
           .notExists "peer" "public_key" (.lit (hexLit k) (some "bytea"))]) := by
  rw [readStmt_fragments (.deleteSignatory k) text _ _ _ _ ht rfl rfl rfl]
  rfl

set_option maxRecDepth 8000 in
/-- The text of the statement of `insertPeer` as the store reads it. -/
theorem readStmt_insertPeer (p : Peer) (text : String)
    (ht : (Command.insertPeer p).fragments.map (render pgQuoter) = some text) :
    readStmt text
      = some (.insert "peer" ["public_key", "address"]
          [[.lit (hexLit p.pubkey) (some "bytea"), .lit p.address none]] .fail) := by
  rw [readStmt_fragments (.insertPeer p) text _ _ _ _ ht rfl rfl rfl]
  rfl

set_option maxRecDepth 8000 in
/-- The text of the statement of `deletePeer` as the store reads it. -/
theorem readStmt_deletePeer (p : Peer) (text : String)
    (ht : (Command.deletePeer p).fragments.map (render pgQuoter) = some text) :
    readStmt text
      = some (.delete "peer"
          [.eq "public_key" (.lit (hexLit p.pubkey) (some "bytea")),
           .eq "address" (.lit p.address none)]) := by
  rw [readStmt_fragments (.deletePeer p) text _ _ _ _ ht rfl rfl rfl]
  rfl

set_option maxRecDepth 8000 in
/-- The text of the statement of `insertDomain` as the store reads it. -/
theorem readStmt_insertDomain (d : Domain) (text : String)
    (ht : (Command.insertDomain d).fragments.map (render pgQuoter) = some text) :
    readStmt text
      = some (.insert "domain" ["domain_id", "default_role"]
          [[.lit d.domain_id none, .lit d.default_role none]] .fail) := by
  rw [readStmt_fragments (.insertDomain d) text _ _ _ _ ht rfl rfl rfl]
  rfl

set_option maxRecDepth 8000 in
/-- The text of the statement of `updateAccount` as the store reads it. -/
theorem readStmt_updateAccount (a : Account) (text : String)
    (ht : (Command.updateAccount a).fragments.map (render pgQuoter) = some text) :
    readStmt text
      = some (.update "account"
          [("quorum", .lit (decLit a.quorum) none), ("transaction_count", .lit (decLit 0) none)]
          [.eq "account_id" (.lit a.account_id none)]) := by
  rw [readStmt_fragments (.updateAccount a) text _ _ _ _ ht rfl rfl rfl]
  rfl

/-- The tokens of one later tuple, in front of the fragments behind it. -/
theorem lexFrags_tuple (r p : String) (fs : List Frag) :
    lexFrags .normal
        (.sql ", " :: .sql "(" :: .str r :: .sql ", " :: .str p :: .sql ")" :: fs)
      = (lexFrags .normal fs).map fun x =>
          ([.sym ',', .sym '(', .lit r, .sym ',', .lit p, .sym ')'] ++ x.1, x.2) := by
  have e1 : lexRun .normal ", ".data = ([.sym ','], .normal) := rfl
  have e2 : lexRun .normal "(".data = ([.sym '('], .normal) := rfl
  have e3 : ∀ x : String, lexRun (.strQ x.data) ", ".data = ([.lit x, .sym ','], .normal) :=
    fun _ => rfl
  have e4 : ∀ x : String, lexRun (.strQ x.data) ")".data = ([.lit x, .sym ')'], .normal) :=
    fun _ => rfl
  cases h : lexFrags .normal fs with
  | none => simp only [lexFrags, openLiteral, e1, e2, e3, e4, h, Option.map_none']
  | some x =>
    simp only [lexFrags, openLiteral, e1, e2, e3, e4, h, Option.map_some']
    rfl

/-- The tokens of the fragments of the later tuples. -/
theorem lexFrags_moreTupleFrags (r : String) (ps : List String) (rest : List Frag) :
    lexFrags .normal (moreTupleFrags r ps ++ rest)
      = (lexFrags .normal rest).map fun x => (moreTupleTokens r ps ++ x.1, x.2) := by
  induction ps with
  | nil =>
    have e : moreTupleFrags r [] ++ rest = rest := rfl
    rw [e]
    cases h : lexFrags .normal rest with
    | none => rfl
    | some x => rfl
  | cons p ps ih =>
    have e : moreTupleFrags r (p :: ps) ++ rest
        = .sql ", " :: .sql "(" :: .str r :: .sql ", " :: .str p :: .sql ")"
            :: (moreTupleFrags r ps ++ rest) := rfl
    rw [e, lexFrags_tuple, ih]
    cases h : lexFrags .normal rest with
    | none => rfl
    | some x =>
      simp only [Option.map_some', moreTupleTokens, List.flatMap_cons, List.append_assoc]

/-- No cast is among the tokens of the later tuples. -/
theorem foldCasts_moreTupleTokens (r : String) (ps : List String) (rest : List Token) :
    foldCasts (moreTupleTokens r ps ++ rest) = moreTupleTokens r ps ++ foldCasts rest := by
  induction ps with
  | nil => rfl
  | cons p ps ih =>
    have e : moreTupleTokens r (p :: ps) ++ rest
        = .sym ',' :: .sym '(' :: .lit r :: .sym ',' :: .lit p :: .sym ')'
            :: (moreTupleTokens r ps ++ rest) := rfl
    have step : ∀ X, foldCasts
        (.sym ',' :: .sym '(' :: .lit r :: .sym ',' :: .lit p :: .sym ')' :: X)
        = .sym ',' :: .sym '(' :: .lit r :: .sym ',' :: .lit p :: .sym ')' :: foldCasts X :=
      fun _ => rfl
    rw [e, step, ih]
    rfl

/-- The tuples of the statement of `insertRolePermissions` as the store reads
them. -/
theorem parseTuples_tuples (r : String) (ps : List String) :
    ∀ p : String,
      parseTuples [] (.lit r :: .sym ',' :: .lit p :: .sym ')'
          :: (moreTupleTokens r ps ++ [.sym ';']))
        = some ((p :: ps).map (fun q => [Expr.lit r none, Expr.lit q none]), [.sym ';']) := by
  induction ps with
  | nil => intro p; rfl
  | cons p' ps ih =>
    intro p
    have e : moreTupleTokens r (p' :: ps) ++ [.sym ';']
        = .sym ',' :: .sym '(' :: .lit r :: .sym ',' :: .lit p' :: .sym ')'
            :: (moreTupleTokens r ps ++ [.sym ';']) := rfl
    have step : ∀ Y, parseTuples []
        (.lit r :: .sym ',' :: .lit p :: .sym ')' :: .sym ',' :: .sym '(' :: Y)
        = (parseTuples [] Y).map fun x => ([Expr.lit r none, Expr.lit p none] :: x.1, x.2) :=
      fun _ => rfl
    rw [e, step, ih p']
    rfl

set_option maxRecDepth 8000 in
/-- The text of the statement of `insertRolePermissions` as the store reads
it: one tuple for each permission, in order. -/
theorem readStmt_insertRolePermissions (r p : String) (ps : List String) (text : String)
    (ht : (Command.insertRolePermissions r (p :: ps)).fragments.map (render pgQuoter)
      = some text) :
    readStmt text
      = some (.insert "role_has_permissions" ["role_id", "permission_id"]
          ((p :: ps).map fun q => [Expr.lit r none, Expr.lit q none]) .fail) := by
  simp only [Command.fragments, Option.map_some', Option.some.injEq] at ht
  subst ht
  have hl : lexFrags .normal
      (.sql "INSERT INTO role_has_permissions(role_id, permission_id) VALUES "
        :: (tupleFrags r p ++ (moreTupleFrags r ps ++ [.sql ";"])))
      = some ([.word "INSERT", .word "INTO", .word "role_has_permissions", .sym '(',
          .word "role_id", .sym ',', .word "permission_id", .sym ')', .word "VALUES",
          .sym '(', .lit r, .sym ',', .lit p, .sym ')']
          ++ (moreTupleTokens r ps ++ [.sym ';']), .normal) := by
    have h1 : ∀ fs, lexFrags .normal
        (.sql "INSERT INTO role_has_permissions(role_id, permission_id) VALUES " :: .sql "("
          :: .str r :: .sql ", " :: .str p :: .sql ")" :: fs)
        = (lexFrags .normal fs).map fun x =>
          ([.word "INSERT", .word "INTO", .word "role_has_permissions", .sym '(',
            .word "role_id", .sym ',', .word "permission_id", .sym ')', .word "VALUES",
            .sym '(', .lit r, .sym ',', .lit p, .sym ')'] ++ x.1, x.2) := by
      intro fs
      have e0 : lexRun .normal
          "INSERT INTO role_has_permissions(role_id, permission_id) VALUES ".data
          = ([.word "INSERT", .word "INTO", .word "role_has_permissions", .sym '(',
            .word "role_id", .sym ',', .word "permission_id", .sym ')', .word "VALUES"],
            .normal) := rfl
      have e2 : lexRun .normal "(".data = ([.sym '('], .normal) := rfl
      have e3 : ∀ x : String, lexRun (.strQ x.data) ", ".data
          = ([.lit x, .sym ','], .normal) := fun _ => rfl
      have e4 : ∀ x : String, lexRun (.strQ x.data) ")".data
          = ([.lit x, .sym ')'], .normal) := fun _ => rfl
      cases h : lexFrags .normal fs with
      | none => simp only [lexFrags, openLiteral, e0, e2, e3, e4, h, Option.map_none']
      | some x =>
        simp only [lexFrags, openLiteral, e0, e2, e3, e4, h, Option.map_some']
        rfl
    have e : (Frag.sql "INSERT INTO role_has_permissions(role_id, permission_id) VALUES "
          :: (tupleFrags r p ++ (moreTupleFrags r ps ++ [.sql ";"])))
        = .sql "INSERT INTO role_has_permissions(role_id, permission_id) VALUES " :: .sql "("
          :: .str r :: .sql ", " :: .str p :: .sql ")" :: (moreTupleFrags r ps ++ [.sql ";"]) :=
      rfl
    rw [e, h1, lexFrags_moreTupleFrags]
    rfl
  simp only [readStmt, lex_render _ _ [] .normal hl rfl, List.append_nil]
  have hf : foldCasts ([.word "INSERT", .word "INTO", .word "role_has_permissions", .sym '(',
          .word "role_id", .sym ',', .word "permission_id", .sym ')', .word "VALUES",
          .sym '(', .lit r, .sym ',', .lit p, .sym ')']
          ++ (moreTupleTokens r ps ++ [.sym ';']))
      = [.word "INSERT", .word "INTO", .word "role_has_permissions", .sym '(',
          .word "role_id", .sym ',', .word "permission_id", .sym ')', .word "VALUES",
          .sym '(', .lit r, .sym ',', .lit p, .sym ')']
          ++ (moreTupleTokens r ps ++ [.sym ';']) := by
    have step : ∀ X, foldCasts ([.word "INSERT", .word "INTO", .word "role_has_permissions",
          .sym '(', .word "role_id", .sym ',', .word "permission_id", .sym ')', .word "VALUES",
          .sym '(', .lit r, .sym ',', .lit p, .sym ')'] ++ X)
        = [.word "INSERT", .word "INTO", .word "role_has_permissions", .sym '(',
          .word "role_id", .sym ',', .word "permission_id", .sym ')', .word "VALUES",
          .sym '(', .lit r, .sym ',', .lit p, .sym ')'] ++ foldCasts X := fun _ => rfl
    rw [step, foldCasts_moreTupleTokens]
    rfl
  have hp : ∀ X, parseStmt ([.word "INSERT", .word "INTO", .word "role_has_permissions",
        .sym '(', .word "role_id", .sym ',', .word "permission_id", .sym ')', .word "VALUES",
        .sym '(', .lit r, .sym ',', .lit p, .sym ')'] ++ X)
      = match parseTuples [] (.lit r :: .sym ',' :: .lit p :: .sym ')' :: X) with
        | some (tuples, r3) =>
            match parseConflict r3 with
            | some conflict =>
                some (.insert "role_has_permissions" ["role_id", "permission_id"] tuples conflict)
            | none => none
        | none => none := fun _ => rfl
  rw [hf, hp, parseTuples_tuples]
  rfl

/-! ### The rows that the statements write -/

/-- The number that the literal of a number denotes. -/
theorem cell_decLit (J : JsonbIn) (n : Nat) :
    Expr.cell J .num (.lit (decLit n) none) = some (.num n) := by
  simp only [Expr.cell, decLit, decimalIn_toDigits, Option.map_some']

/-- The bytes that the literal of a key denotes. -/
theorem cell_hexLit (J : JsonbIn) (k : pubkey_t) :
    Expr.cell J .bytes (.lit (hexLit k) (some "bytea")) = some (.bytes (keyBytes k)) := by
  simp only [Expr.cell, hexLit, byteaIn_hex, Option.map_some', keyBytes]

/-- The bytes of a key of bytes are the key. -/
theorem keyBytes_valid (k : pubkey_t) (h : validKey k) : keyBytes k = k :=
  map_mod_valid k h

/-- The row that the statement of `insertSignatory` writes. -/
theorem mkRow_signatory (J : JsonbIn) (k : pubkey_t) :
    mkRow J "signatory" ["public_key"] [.lit (hexLit k) (some "bytea")]
      = some (.signatory (keyBytes k)) := by
  have c : columnType "signatory" "public_key" = some .bytes := rfl
  simp only [mkRow, List.length_cons, List.length_nil, ne_eq, not_true_eq_false, if_false,
    List.zip_cons_cons, List.zip_nil_right, readCells, c, cell_hexLit]
  rfl

/-- The row that the statement of `insertAccountSignatory` writes. -/
theorem mkRow_accountSignatory (J : JsonbIn) (a : String) (k : pubkey_t) :
    mkRow J "account_has_signatory" ["account_id", "public_key"]
        [.lit a none, .lit (hexLit k) (some "bytea")]
      = some (.accountSignatory a (keyBytes k)) := by
  have c1 : columnType "account_has_signatory" "account_id" = some .text := rfl
  have c2 : columnType "account_has_signatory" "public_key" = some .bytes := rfl
  have t : Expr.cell J .text (.lit a none) = some (.text a) := rfl
  simp only [mkRow, List.length_cons, List.length_nil, ne_eq, not_true_eq_false, if_false,
    List.zip_cons_cons, List.zip_nil_right, readCells, c1, c2, cell_hexLit, t]
  rfl

/-- The row that the statement of `insertPeer` writes. -/
theorem mkRow_peer (J : JsonbIn) (p : Peer) :
    mkRow J "peer" ["public_key", "address"]
        [.lit (hexLit p.pubkey) (some "bytea"), .lit p.address none]
      = some (.peer ⟨keyBytes p.pubkey, p.address⟩) := by
  have c1 : columnType "peer" "public_key" = some .bytes := rfl
  have c2 : columnType "peer" "address" = some .text := rfl
  have t : Expr.cell J .text (.lit p.address none) = some (.text p.address) := rfl
  simp only [mkRow, List.length_cons, List.length_nil, ne_eq, not_true_eq_false, if_false,
    List.zip_cons_cons, List.zip_nil_right, readCells, c1, c2, cell_hexLit, t]
  rfl

/-- The row that the statement of `insertAccount` writes. -/
theorem mkRow_account (J : JsonbIn) (a : Account) :
    mkRow J "account" ["account_id", "domain_id", "quorum", "transaction_count", "data"]
        [.lit a.account_id none, .lit a.domain_id none, .lit (decLit a.quorum) none,
          .lit (decLit 0) none, .lit a.json_data none]
      = (J a.json_data).map fun j => .account ⟨a.account_id, a.domain_id, a.quorum, 0, j⟩ := by
  have c1 : columnType "account" "account_id" = some .text := rfl
  have c2 : columnType "account" "domain_id" = some .text := rfl
  have c3 : columnType "account" "quorum" = some .num := rfl
  have c4 : columnType "account" "transaction_count" = some .num := rfl
  have c5 : columnType "account" "data" = some .json := rfl
  have t : ∀ x : String, Expr.cell J .text (.lit x none) = some (.text x) := fun _ => rfl
  have j : Expr.cell J .json (.lit a.json_data none) = (J a.json_data).map .json := rfl
  cases hJ : J a.json_data with
  | none =>
    rw [hJ] at j
    simp only [mkRow, List.length_cons, List.length_nil, ne_eq, not_true_eq_false, if_false,
      List.zip_cons_cons, List.zip_nil_right, readCells, c1, c2, c3, c4, c5, cell_decLit, t, j,
      Option.map_none']
  | some v =>
    rw [hJ] at j
    simp only [mkRow, List.length_cons, List.length_nil, ne_eq, not_true_eq_false, if_false,
      List.zip_cons_cons, List.zip_nil_right, readCells, c1, c2, c3, c4, c5, cell_decLit, t, j,
      Option.map_some']
    rfl

/-- A strict INSERT of one tuple adds its row unless the store refuses it. -/
theorem perform_insert (D : Dialect) (s : Store) (table : String) (columns : List String)
    (tuple : List Expr) (row : Row) (h : mkRow D.jsonbIn table columns tuple = some row) :
    s.perform D (.insert table columns [tuple] .fail)
      = if D.refuses s [row] then .error "constraint violation" else .ok (s.add row) := by
  simp only [Store.perform, mkRows, h, List.foldl_cons, List.foldl_nil]

/-- The row that the statement of `insertRole` writes. -/
theorem mkRow_role (J : JsonbIn) (r : String) :
    mkRow J "role" ["role_id"] [.lit r none] = some (.role r) := by
  have c : columnType "role" "role_id" = some .text := rfl
  have t : ∀ x : String, Expr.cell J .text (.lit x none) = some (.text x) := fun _ => rfl
  simp only [mkRow, List.length_cons, List.length_nil, ne_eq, not_true_eq_false, if_false,
    List.zip_cons_cons, List.zip_nil_right, readCells, c, t]
  rfl

/-- The row that the statement of `insertAccountRole` writes. -/
theorem mkRow_accountRole (J : JsonbIn) (a r : String) :
    mkRow J "account_has_roles" ["account_id", "role_id"] [.lit a none, .lit r none]
      = some (.accountRole a r) := by
  have c1 : columnType "account_has_roles" "account_id" = some .text := rfl
  have c2 : columnType "account_has_roles" "role_id" = some .text := rfl
  have t : ∀ x : String, Expr.cell J .text (.lit x none) = some (.text x) := fun _ => rfl
  simp only [mkRow, List.length_cons, List.length_nil, ne_eq, not_true_eq_false, if_false,
    List.zip_cons_cons, List.zip_nil_right, readCells, c1, c2, t]
  rfl

/-- The row that a tuple of the statement of `insertRolePermissions`
writes. -/
theorem mkRow_rolePermission (J : JsonbIn) (r p : String) :
    mkRow J "role_has_permissions" ["role_id", "permission_id"] [.lit r none, .lit p none]
      = some (.rolePermission r p) := by
  have c1 : columnType "role_has_permissions" "role_id" = some .text := rfl
  have c2 : columnType "role_has_permissions" "permission_id" = some .text := rfl
  have t : ∀ x : String, Expr.cell J .text (.lit x none) = some (.text x) := fun _ => rfl
  simp only [mkRow, List.length_cons, List.length_nil, ne_eq, not_true_eq_false, if_false,
    List.zip_cons_cons, List.zip_nil_right, readCells, c1, c2, t]
  rfl

/-- The row that the statement of `insertAccountGrantablePermission`
writes. -/
theorem mkRow_grantable (J : JsonbIn) (p a i : String) :
    mkRow J "account_has_grantable_permissions"
        ["permittee_account_id", "account_id", "permission_id"]
        [.lit p none, .lit a none, .lit i none]
      = some (.grantable p a i) := by
  have c1 : columnType "account_has_grantable_permissions" "permittee_account_id"
      = some .text := rfl
  have c2 : columnType "account_has_grantable_permissions" "account_id" = some .text := rfl
  have c3 : columnType "account_has_grantable_permissions" "permission_id" = some .text := rfl
  have t : ∀ x : String, Expr.cell J .text (.lit x none) = some (.text x) := fun _ => rfl
  simp only [mkRow, List.length_cons, List.length_nil, ne_eq, not_true_eq_false, if_false,
    List.zip_cons_cons, List.zip_nil_right, readCells, c1, c2, c3, t]
  rfl

/-- The row that the statement of `insertAsset` writes. -/
theorem mkRow_asset (J : JsonbIn) (a : Asset) :
    mkRow J "asset" ["asset_id", "domain_id", "precision", "data"]
        [.lit a.asset_id none, .lit a.domain_id none, .lit (decLit a.precision) none, .null]
      = some (.asset ⟨a.asset_id, a.domain_id, a.precision, none⟩) := by
  have c1 : columnType "asset" "asset_id" = some .text := rfl
  have c2 : columnType "asset" "domain_id" = some .text := rfl
  have c3 : columnType "asset" "precision" = some .num := rfl
  have c4 : columnType "asset" "data" = some .json := rfl
  have t : ∀ x : String, Expr.cell J .text (.lit x none) = some (.text x) := fun _ => rfl
  have n : Expr.cell J .json .null = some .null := rfl
  simp only [mkRow, List.length_cons, List.length_nil, ne_eq, not_true_eq_false, if_false,
    List.zip_cons_cons, List.zip_nil_right, readCells, c1, c2, c3, c4, cell_decLit, t, n]
  rfl

/-- The row that the statement of `upsertAccountAsset` writes. -/
theorem mkRow_accountAsset (J : JsonbIn) (a : AccountAsset) :
    mkRow J "account_has_asset" ["account_id", "asset_id", "amount"]
        [.lit a.account_id none, .lit a.asset_id none, .lit a.balance none]
      = some (.accountAsset a.account_id a.asset_id a.balance) := by
  have c1 : columnType "account_has_asset" "account_id" = some .text := rfl
  have c2 : columnType "account_has_asset" "asset_id" = some .text := rfl
  have c3 : columnType "account_has_asset" "amount" = some .text := rfl
  have t : ∀ x : String, Expr.cell J .text (.lit x none) = some (.text x) := fun _ => rfl
  simp only [mkRow, List.length_cons, List.length_nil, ne_eq, not_true_eq_false, if_false,
    List.zip_cons_cons, List.zip_nil_right, readCells, c1, c2, c3, t]
  rfl

/-- The row that the statement of `insertDomain` writes. -/
theorem mkRow_domain (J : JsonbIn) (d : Domain) :
    mkRow J "domain" ["domain_id", "default_role"]
        [.lit d.domain_id none, .lit d.default_role none]
      = some (.domain ⟨d.domain_id, d.default_role⟩) := by
  have c1 : columnType "domain" "domain_id" = some .text := rfl
  have c2 : columnType "domain" "default_role" = some .text := rfl
  have t : ∀ x : String, Expr.cell J .text (.lit x none) = some (.text x) := fun _ => rfl
  simp only [mkRow, List.length_cons, List.length_nil, ne_eq, not_true_eq_false, if_false,
    List.zip_cons_cons, List.zip_nil_right, readCells, c1, c2, t]
  rfl

/-! ### The effect of each statement -/

/-- The effect of the statement of `insertRole`. -/
theorem execute_insertRole (D : Dialect) (s : Store) (r : String) (text : String)
    (ht : (Command.insertRole r).fragments.map (render pgQuoter) = some text) :
    s.execute D text
      = if D.refuses s [.role r] then .error "constraint violation"
        else .ok { s with role := s.role ++ [r] } := by
  simp only [Store.execute, readStmt_insertRole r text ht, perform_insert D s _ _ _ _ (mkRow_role _ r)]
  rfl

/-- The effect of the statement of `insertAccountRole`. -/
theorem execute_insertAccountRole (D : Dialect) (s : Store) (a r : String) (text : String)
    (ht : (Command.insertAccountRole a r).fragments.map (render pgQuoter) = some text) :
    s.execute D text
      = if D.refuses s [.accountRole a r] then .error "constraint violation"
        else .ok { s with account_has_roles := s.account_has_roles ++ [(a, r)] } := by
  simp only [Store.execute, readStmt_insertAccountRole a r text ht,
    perform_insert D s _ _ _ _ (mkRow_accountRole _ a r)]
  rfl

/-- The effect of the statement of `insertAccountGrantablePermission`. -/
theorem execute_insertAccountGrantablePermission (D : Dialect) (s : Store) (p a i : String)
    (text : String)
    (ht : (Command.insertAccountGrantablePermission p a i).fragments.map (render pgQuoter) = some text) :
    s.execute D text
      = if D.refuses s [.grantable p a i] then .error "constraint violation"
        else .ok { s with account_has_grantable_permissions :=
          s.account_has_grantable_permissions ++ [(p, a, i)] } := by
  simp only [Store.execute, readStmt_insertAccountGrantablePermission p a i text ht,
    perform_insert D s _ _ _ _ (mkRow_grantable _ p a i)]
  rfl

/-- The effect of the statement of `insertAccount`: the row holds the fixed
transaction count 0 and the JSON value that `json_data` denotes. -/
theorem execute_insertAccount (D : Dialect) (s : Store) (a : Account) (text : String)
    (ht : (Command.insertAccount a).fragments.map (render pgQuoter) = some text) :
    s.execute D text
      = match D.jsonbIn a.json_data with
        | none => .error "invalid input"
        | some j =>
            if D.refuses s [.account ⟨a.account_id, a.domain_id, a.quorum, 0, j⟩]
            then .error "constraint violation"
            else .ok { s with account :=
              s.account ++ [⟨a.account_id, a.domain_id, a.quorum, 0, j⟩] } := by
  cases hJ : D.jsonbIn a.json_data with
  | none =>
    have h := mkRow_account D.jsonbIn a
    rw [hJ, Option.map_none'] at h
    simp only [Store.execute, readStmt_insertAccount a text ht, Store.perform, mkRows, h]
  | some j =>
    have h := mkRow_account D.jsonbIn a
    rw [hJ, Option.map_some'] at h
    simp only [Store.execute, readStmt_insertAccount a text ht, perform_insert D s _ _ _ _ h]
    rfl

/-- The effect of the statement of `insertAsset`. -/
theorem execute_insertAsset (D : Dialect) (s : Store) (a : Asset) (text : String)
    (ht : (Command.insertAsset a).fragments.map (render pgQuoter) = some text) :
    s.execute D text
      = if D.refuses s [.asset ⟨a.asset_id, a.domain_id, a.precision, none⟩]
        then .error "constraint violation"
        else .ok { s with asset := s.asset ++ [⟨a.asset_id, a.domain_id, a.precision, none⟩] } := by
  simp only [Store.execute, readStmt_insertAsset a text ht,
    perform_insert D s _ _ _ _ (mkRow_asset _ a)]
  rfl

/-- The effect of the statement of `insertAccountSignatory`. -/
theorem execute_insertAccountSignatory (D : Dialect) (s : Store) (a : String) (k : pubkey_t)
    (text : String)
    (ht : (Command.insertAccountSignatory a k).fragments.map (render pgQuoter) = some text) :
    s.execute D text
      = if D.refuses s [.accountSignatory a (keyBytes k)] then .error "constraint violation"
        else .ok { s with account_has_signatory :=
          s.account_has_signatory ++ [(a, keyBytes k)] } := by
  simp only [Store.execute, readStmt_insertAccountSignatory a k text ht,
    perform_insert D s _ _ _ _ (mkRow_accountSignatory _ a k)]
  rfl

/-- The effect of the statement of `insertPeer`. -/
theorem execute_insertPeer (D : Dialect) (s : Store) (p : Peer) (text : String)
    (ht : (Command.insertPeer p).fragments.map (render pgQuoter) = some text) :
    s.execute D text
      = if D.refuses s [.peer ⟨keyBytes p.pubkey, p.address⟩] then .error "constraint violation"
        else .ok { s with peer := s.peer ++ [⟨keyBytes p.pubkey, p.address⟩] } := by
  simp only [Store.execute, readStmt_insertPeer p text ht,
    perform_insert D s _ _ _ _ (mkRow_peer _ p)]
  rfl

/-- The effect of the statement of `insertDomain`. -/
theorem execute_insertDomain (D : Dialect) (s : Store) (d : Domain) (text : String)
    (ht : (Command.insertDomain d).fragments.map (render pgQuoter) = some text) :
    s.execute D text
      = if D.refuses s [.domain ⟨d.domain_id, d.default_role⟩] then .error "constraint violation"
        else .ok { s with domain := s.domain ++ [⟨d.domain_id, d.default_role⟩] } := by
  simp only [Store.execute, readStmt_insertDomain d text ht,
    perform_insert D s _ _ _ _ (mkRow_domain _ d)]
  rfl

/-- The effect of the statement of `insertSignatory`: it always succeeds and
adds the row when the key has none. -/
theorem execute_insertSignatory (D : Dialect) (s : Store) (k : pubkey_t) (text : String)
    (ht : (Command.insertSignatory k).fragments.map (render pgQuoter) = some text) :
    s.execute D text
      = .ok (if keyBytes k ∈ s.signatory then s
          else { s with signatory := s.signatory ++ [keyBytes k] }) := by
  simp only [Store.execute, readStmt_insertSignatory k text ht, Store.perform, mkRows, mkRow_signatory]
  by_cases h : keyBytes k ∈ s.signatory
  · have hl : (s.lookup (.signatory (keyBytes k))).isNone = false := by
      simp only [Store.lookup, Option.isNone_map', find_whole_row _ _ h]
      rfl
    simp only [List.filter_cons, hl, Bool.false_eq_true, if_false, List.filter_nil,
      List.foldl_nil, h, if_true]
  · have hl : (s.lookup (.signatory (keyBytes k))).isNone = true := by
      have : s.signatory.find? (fun x => decide (x = keyBytes k)) = none := by
        rw [List.find?_eq_none]
        intro x hx
        simp only [decide_eq_true_eq]
        intro hxk
        exact h (hxk ▸ hx)
      simp only [Store.lookup, this]
      rfl
    simp only [List.filter_cons, hl, if_true, List.filter_nil, List.foldl_cons,
      List.foldl_nil, h, if_false]
    rfl

/-- The effect of the statement of `deleteAccountRole`. -/
theorem execute_deleteAccountRole (D : Dialect) (s : Store) (a r : String) (text : String)
    (ht : (Command.deleteAccountRole a r).fragments.map (render pgQuoter) = some text) :
    s.execute D text
      = .ok { s with account_has_roles :=
          s.account_has_roles.filter fun x => decide (x ≠ (a, r)) } := by
  have c1 : columnType "account_has_roles" "account_id" = some .text := rfl
  have c2 : columnType "account_has_roles" "role_id" = some .text := rfl
  have t : ∀ x : String, Expr.cell D.jsonbIn .text (.lit x none) = some (.text x) := fun _ => rfl
  have f : ∀ keep, s.filterRows keep "account_has_roles"
      = some { s with account_has_roles :=
          s.account_has_roles.filter fun x => keep (.accountRole x.1 x.2) } := fun _ => rfl
  have hc : ∀ (x : String × String) (c : String) (v : String),
      (Row.accountRole x.1 x.2).has "account_id" (.text v) = decide (x.1 = v)
      ∧ (Row.accountRole x.1 x.2).has "role_id" (.text v) = decide (x.2 = v) :=
    fun _ _ _ => ⟨rfl, rfl⟩
  simp only [Store.execute, readStmt_deleteAccountRole a r text ht, Store.perform, testAll, Cond.test,
    c1, c2, t, f]
  congr 2
  apply List.filter_congr
  intro x _
  rw [(hc x "" a).1, (hc x "" r).2]
  rcases x with ⟨x1, x2⟩
  simp only [Bool.and_true, ne_eq, Prod.mk.injEq]
  by_cases h1 : x1 = a <;> by_cases h2 : x2 = r <;> simp [h1, h2]

/-- The effect of the statement of `deleteAccountGrantablePermission`. -/
theorem execute_deleteAccountGrantablePermission (D : Dialect) (s : Store) (p a i : String)
    (text : String)
    (ht : (Command.deleteAccountGrantablePermission p a i).fragments.map (render pgQuoter) = some text) :
    s.execute D text
      = .ok { s with account_has_grantable_permissions :=
          s.account_has_grantable_permissions.filter fun x => decide (x ≠ (p, a, i)) } := by
  have c1 : columnType "account_has_grantable_permissions" "permittee_account_id"
      = some .text := rfl
  have c2 : columnType "account_has_grantable_permissions" "account_id" = some .text := rfl
  have c3 : columnType "account_has_grantable_permissions" "permission_id" = some .text := rfl
  have t : ∀ x : String, Expr.cell D.jsonbIn .text (.lit x none) = some (.text x) := fun _ => rfl
  have f : ∀ keep, s.filterRows keep "account_has_grantable_permissions"
      = some { s with account_has_grantable_permissions :=
          (s.account_has_grantable_permissions.filter
            (fun x => keep (.grantable x.1 x.2.1 x.2.2))) } := fun _ => rfl
  have hc : ∀ (x : String × String × String) (v : String),
      (Row.grantable x.1 x.2.1 x.2.2).has "permittee_account_id" (.text v) = decide (x.1 = v)
      ∧ (Row.grantable x.1 x.2.1 x.2.2).has "account_id" (.text v) = decide (x.2.1 = v)
      ∧ (Row.grantable x.1 x.2.1 x.2.2).has "permission_id" (.text v) = decide (x.2.2 = v) :=
    fun _ _ => ⟨rfl, rfl, rfl⟩
  simp only [Store.execute, readStmt_deleteAccountGrantablePermission p a i text ht, Store.perform, testAll,
    Cond.test, c1, c2, c3, t, f]
  congr 2
  apply List.filter_congr
  intro x _
  rw [(hc x p).1, (hc x a).2.1, (hc x i).2.2]
  rcases x with ⟨x1, x2, x3⟩
  simp only [Bool.and_true, ne_eq, Prod.mk.injEq]
  by_cases h1 : x1 = p <;> by_cases h2 : x2 = a <;> by_cases h3 : x3 = i <;> simp [h1, h2, h3]

/-- The effect of the statement of `deleteAccountSignatory`. -/
theorem execute_deleteAccountSignatory (D : Dialect) (s : Store) (a : String) (k : pubkey_t)
    (text : String)
    (ht : (Command.deleteAccountSignatory a k).fragments.map (render pgQuoter) = some text) :
    s.execute D text
      = .ok { s with account_has_signatory :=
          s.account_has_signatory.filter fun x => decide (x ≠ (a, keyBytes k)) } := by
  have c1 : columnType "account_has_signatory" "account_id" = some .text := rfl
  have c2 : columnType "account_has_signatory" "public_key" = some .bytes := rfl
  have t : ∀ x : String, Expr.cell D.jsonbIn .text (.lit x none) = some (.text x) := fun _ => rfl
  have f : ∀ keep, s.filterRows keep "account_has_signatory"
      = some { s with account_has_signatory :=
          s.account_has_signatory.filter fun x => keep (.accountSignatory x.1 x.2) } :=
    fun _ => rfl
  have hc : ∀ (x : String × pubkey_t) (v : String) (w : pubkey_t),
      (Row.accountSignatory x.1 x.2).has "account_id" (.text v) = decide (x.1 = v)
      ∧ (Row.accountSignatory x.1 x.2).has "public_key" (.bytes w) = decide (x.2 = w) :=
    fun _ _ _ => ⟨rfl, rfl⟩
  simp only [Store.execute, readStmt_deleteAccountSignatory a k text ht, Store.perform, testAll, Cond.test,
    c1, c2, t, cell_hexLit, f]
  congr 2
  apply List.filter_congr
  intro x _
  rw [(hc x a (keyBytes k)).1, (hc x a (keyBytes k)).2]
  rcases x with ⟨x1, x2⟩
  simp only [Bool.and_true, ne_eq, Prod.mk.injEq]
  by_cases h1 : x1 = a <;> by_cases h2 : x2 = keyBytes k <;> simp [h1, h2]

/-- The effect of the statement of `deletePeer`. -/
theorem execute_deletePeer (D : Dialect) (s : Store) (p : Peer) (text : String)
    (ht : (Command.deletePeer p).fragments.map (render pgQuoter) = some text) :
    s.execute D text
      = .ok { s with peer :=
          s.peer.filter fun x => decide (x ≠ ⟨keyBytes p.pubkey, p.address⟩) } := by
  have c1 : columnType "peer" "public_key" = some .bytes := rfl
  have c2 : columnType "peer" "address" = some .text := rfl
  have t : ∀ x : String, Expr.cell D.jsonbIn .text (.lit x none) = some (.text x) := fun _ => rfl
  have f : ∀ keep, s.filterRows keep "peer"
      = some { s with peer := s.peer.filter fun x => keep (.peer x) } := fun _ => rfl
  have hc : ∀ (x : Peer) (v : String) (w : pubkey_t),
      (Row.peer x).has "address" (.text v) = decide (x.address = v)
      ∧ (Row.peer x).has "public_key" (.bytes w) = decide (x.pubkey = w) :=
    fun _ _ _ => ⟨rfl, rfl⟩
  simp only [Store.execute, readStmt_deletePeer p text ht, Store.perform, testAll, Cond.test,
    c1, c2, t, cell_hexLit, f]
  congr 2
  apply List.filter_congr
  intro x _
  rw [(hc x p.address (keyBytes p.pubkey)).1, (hc x p.address (keyBytes p.pubkey)).2]
  rcases x with ⟨x1, x2⟩
  simp only [Bool.and_true, ne_eq, Peer.mk.injEq]
  by_cases h1 : x1 = keyBytes p.pubkey <;> by_cases h2 : x2 = p.address <;> simp [h1, h2]

/-- Some row of `account_has_signatory` has the key, as the store tests it. -/
theorem any_accountSignatory (s : Store) (k : pubkey_t) :
    ((s.account_has_signatory.map fun r => Row.accountSignatory r.1 r.2).any
        fun row => row.has "public_key" (.bytes k)) = s.accountRefers k := by
  rw [Store.accountRefers]
  induction s.account_has_signatory with
  | nil => rfl
  | cons r l ih =>
    rw [List.map_cons, List.any_cons, List.any_cons, ih]
    rfl

/-- Some row of `peer` has the key, as the store tests it. -/
theorem any_peer (s : Store) (k : pubkey_t) :
    ((s.peer.map Row.peer).any fun row => row.has "public_key" (.bytes k)) = s.peerRefers k := by
  rw [Store.peerRefers]
  induction s.peer with
  | nil => rfl
  | cons r l ih =>
    rw [List.map_cons, List.any_cons, List.any_cons, ih]
    rfl

/-- The test of the statement of `deleteSignatory`. -/
theorem testAll_deleteSignatory (J : JsonbIn) (s : Store) (k : pubkey_t) :
    testAll J s "signatory"
        [.eq "public_key" (.lit (hexLit k) (some "bytea")),
         .notExists "account_has_signatory" "public_key" (.lit (hexLit k) (some "bytea")),
         .notExists "peer" "public_key" (.lit (hexLit k) (some "bytea"))]
      = some fun row => row.has "public_key" (.bytes (keyBytes k))
          && (!s.accountRefers (keyBytes k) && (!s.peerRefers (keyBytes k) && true)) := by
  have c1 : columnType "signatory" "public_key" = some .bytes := rfl
  have c2 : columnType "account_has_signatory" "public_key" = some .bytes := rfl
  have c3 : columnType "peer" "public_key" = some .bytes := rfl
  have r2 : s.rows "account_has_signatory"
      = some (s.account_has_signatory.map fun r => .accountSignatory r.1 r.2) := rfl
  have r3 : s.rows "peer" = some (s.peer.map .peer) := rfl
  simp only [testAll, Cond.test, c1, c2, c3, r2, r3, cell_hexLit, any_accountSignatory, any_peer]

/-- The effect of the statement of `deleteSignatory`: it always succeeds; it
keeps the table `signatory` while a row of `account_has_signatory` or of
`peer` has the key, and removes the rows of the key otherwise. -/
theorem execute_deleteSignatory (D : Dialect) (s : Store) (k : pubkey_t) (text : String)
    (ht : (Command.deleteSignatory k).fragments.map (render pgQuoter) = some text) :
    s.execute D text
      = .ok { s with signatory :=
          (if s.accountRefers (keyBytes k) || s.peerRefers (keyBytes k) then s.signatory
            else s.signatory.filter fun x => decide (x ≠ keyBytes k)) } := by
  simp only [Store.execute, readStmt_deleteSignatory k text ht, Store.perform, testAll_deleteSignatory]
  have f : ∀ keep, s.filterRows keep "signatory"
      = some { s with signatory := s.signatory.filter fun r => keep (.signatory r) } :=
    fun _ => rfl
  simp only [f]
  congr 2
  by_cases h : s.accountRefers (keyBytes k) || s.peerRefers (keyBytes k)
  · have hf : ∀ r : pubkey_t, (!((Row.signatory r).has "public_key" (.bytes (keyBytes k))
        && (!s.accountRefers (keyBytes k) && (!s.peerRefers (keyBytes k) && true)))) = true := by
      intro r
      rcases Bool.or_eq_true _ _ |>.mp h with h1 | h1 <;> simp [h1]
    simp only [h, if_true, hf, List.filter_true]
  · have h1 : s.accountRefers (keyBytes k) = false := by
      cases hh : s.accountRefers (keyBytes k) <;> simp_all
    have h2 : s.peerRefers (keyBytes k) = false := by
      cases hh : s.peerRefers (keyBytes k) <;> simp_all
    have hc : ∀ r : pubkey_t, (Row.signatory r).has "public_key" (.bytes (keyBytes k))
        = decide (r = keyBytes k) := fun _ => rfl
    simp [h1, h2, hc]

/-- The effect of the statement of `updateAccount`: it always succeeds; the
rows of the account id get the quorum of the argument and the transaction
count 0, and nothing else changes. -/
theorem execute_updateAccount (D : Dialect) (s : Store) (a : Account) (text : String)
    (ht : (Command.updateAccount a).fragments.map (render pgQuoter) = some text) :
    s.execute D text
      = .ok { s with account := s.account.map fun row =>
          if row.account_id = a.account_id
          then { row with quorum := a.quorum, transaction_count := 0 } else row } := by
  have c1 : columnType "account" "account_id" = some .text := rfl
  have c2 : columnType "account" "quorum" = some .num := rfl
  have c3 : columnType "account" "transaction_count" = some .num := rfl
  have t : ∀ x : String, Expr.cell D.jsonbIn .text (.lit x none) = some (.text x) := fun _ => rfl
  have f : ∀ g, s.mapRows g "account"
      = some { s with account := s.account.map fun r => (g (.account r)).asAccount r } :=
    fun _ => rfl
  simp only [Store.execute, readStmt_updateAccount a text ht, Store.perform, testAll, Cond.test,
    readCells, c1, c2, c3, t, cell_decLit, f]
  congr 2
  apply List.map_congr_left
  intro row _
  have hc : (Row.account row).has "account_id" (.text a.account_id)
      = decide (row.account_id = a.account_id) := rfl
  by_cases h : row.account_id = a.account_id
  · have hp : ((Row.account row).has "account_id" (.text a.account_id) && true) = true := by
      simp [hc, h]
    rw [if_pos h, if_pos hp]
    rfl
  · have hp : ¬ ((Row.account row).has "account_id" (.text a.account_id) && true) = true := by
      simp [hc, h]
    rw [if_neg h, if_neg hp]
    rfl

/-- Two rows of `account_has_asset` are equal on the conflict target when
they are rows of the same pair. -/
theorem sameOn_pair (a i b : String) (x : String × String × String) :
    sameOn ["account_id", "asset_id"] (.accountAsset a i b) (.accountAsset x.1 x.2.1 x.2.2)
      = samePair a i x := by
  have h : sameOn ["account_id", "asset_id"] (.accountAsset a i b)
      (.accountAsset x.1 x.2.1 x.2.2) = (decide (x.1 = a) && (decide (x.2.1 = i) && true)) := rfl
  rw [h, samePair, Bool.and_true]

/-- The effect of the statement of `upsertAccountAsset`: where the pair has
rows, their amount becomes the balance; otherwise the row is added unless the
store refuses it. -/
theorem execute_upsertAccountAsset (D : Dialect) (s : Store) (a : AccountAsset) (text : String)
    (ht : (Command.upsertAccountAsset a).fragments.map (render pgQuoter) = some text) :
    s.execute D text
      = if s.account_has_asset.any (samePair a.account_id a.asset_id) then
          .ok { s with account_has_asset := s.account_has_asset.map fun row =>
            if samePair a.account_id a.asset_id row then (row.1, row.2.1, a.balance) else row }
        else if D.refuses s [.accountAsset a.account_id a.asset_id a.balance]
          then .error "constraint violation"
        else .ok { s with account_has_asset :=
          s.account_has_asset ++ [(a.account_id, a.asset_id, a.balance)] } := by
  have r : s.rows "account_has_asset"
      = some (s.account_has_asset.map fun r => .accountAsset r.1 r.2.1 r.2.2) := rfl
  have tb : (Row.accountAsset a.account_id a.asset_id a.balance).table = "account_has_asset" :=
    rfl
  have cl : (Row.accountAsset a.account_id a.asset_id a.balance).cell "amount"
      = some (.text a.balance) := rfl
  have f : ∀ g, s.mapRows g "account_has_asset"
      = some { s with account_has_asset :=
          s.account_has_asset.map fun r => (g (.accountAsset r.1 r.2.1 r.2.2)).asAccountAsset r } :=
    fun _ => rfl
  have hany : ((s.account_has_asset.map fun r => Row.accountAsset r.1 r.2.1 r.2.2).any
      (sameOn ["account_id", "asset_id"] (.accountAsset a.account_id a.asset_id a.balance)))
      = s.account_has_asset.any (samePair a.account_id a.asset_id) := by
    induction s.account_has_asset with
    | nil => rfl
    | cons x l ih => rw [List.map_cons, List.any_cons, List.any_cons, ih, sameOn_pair]
  simp only [Store.execute, readStmt_upsertAccountAsset a text ht, Store.perform, mkRows,
    mkRow_accountAsset, Store.upsertAll, Store.upsert, tb, cl, r, f, hany]
  by_cases h : s.account_has_asset.any (samePair a.account_id a.asset_id) = true
  · simp only [h, if_true]
    congr 2
    apply List.map_congr_left
    intro x _
    by_cases hx : samePair a.account_id a.asset_id x = true
    · simp only [sameOn_pair, hx, if_true]
      rfl
    · simp only [sameOn_pair, hx, Bool.false_eq_true, if_false]
      rfl
  · simp only [h, Bool.false_eq_true, if_false]
    by_cases hr : D.refuses s [.accountAsset a.account_id a.asset_id a.balance] = true
    · simp only [hr, if_true]
    · simp only [hr, Bool.false_eq_true, if_false]
      rfl

/-- The rows that the tuples of the statement of `insertRolePermissions`
write. -/
theorem mkRows_rolePermissions (J : JsonbIn) (r : String) (qs : List String) :
    mkRows J "role_has_permissions" ["role_id", "permission_id"]
        (qs.map fun q => [Expr.lit r none, Expr.lit q none])
      = some (qs.map fun q => Row.rolePermission r q) := by
  induction qs with
  | nil => rfl
  | cons q qs ih => simp only [List.map_cons, mkRows, mkRow_rolePermission, ih]

/-- The store after the rows of a role were added. -/
theorem foldl_add_rolePermissions (r : String) (qs : List String) :
    ∀ s : Store, (qs.map fun q => Row.rolePermission r q).foldl Store.add s
      = { s with role_has_permissions := s.role_has_permissions ++ qs.map fun q => (r, q) } := by
  induction qs with
  | nil => intro s; simp
  | cons q qs ih =>
    intro s
    rw [List.map_cons, List.foldl_cons, ih]
    simp [Store.add]

/-- The effect of the statement of `insertRolePermissions`: one row for each
permission, in order, unless the store refuses them. -/
theorem execute_insertRolePermissions (D : Dialect) (s : Store) (r p : String)
    (ps : List String) (text : String)
    (ht : (Command.insertRolePermissions r (p :: ps)).fragments.map (render pgQuoter)
      = some text) :
    s.execute D text
      = if D.refuses s ((p :: ps).map fun q => Row.rolePermission r q)
          then .error "constraint violation"
          else .ok { s with role_has_permissions :=
            s.role_has_permissions ++ (p :: ps).map fun q => (r, q) } := by
  simp only [Store.execute, readStmt_insertRolePermissions r p ps text ht, Store.perform,
    mkRows_rolePermissions, foldl_add_rolePermissions]

/-! ### Guard, reachable states, frame, idempotence and round trip -/

/-- Claim C3: in every store state, for every public key `k` of bytes, the
statement that `deleteSignatory(k)` writes succeeds when the store runs it;
the table `signatory` is unchanged when some row of `account_has_signatory`
or some row of `peer` has the public key `k`, it loses its rows for `k` when
there is no such row, and every other table is unchanged in both cases. -/
theorem deleteSignatory_guard (D : Dialect) (s : Store) (k : pubkey_t) (hk : validKey k) :
    s.execute D (deleteSignatory pgQuoter k) = .ok { s with signatory :=
      (if (∃ r ∈ s.account_has_signatory, r.2 = k) ∨ (∃ p ∈ s.peer, p.pubkey = k)
        then s.signatory
        else s.signatory.filter fun row => decide (row ≠ k)) } := by
  rw [execute_deleteSignatory D s k (deleteSignatory pgQuoter k) rfl, keyBytes_valid k hk]
  congr 2
  by_cases h : (∃ r ∈ s.account_has_signatory, r.2 = k) ∨ (∃ p ∈ s.peer, p.pubkey = k)
  · rw [if_pos h]
    rw [← accountRefers_iff, ← peerRefers_iff] at h
    have h' : (s.accountRefers k || s.peerRefers k) = true := by
      rcases h with h | h <;> simp [h]
    rw [if_pos h']
  · rw [if_neg h]
    rw [← accountRefers_iff, ← peerRefers_iff] at h
    have h' : ¬ (s.accountRefers k || s.peerRefers k) = true := by
      simpa [Bool.or_eq_true] using h
    rw [if_neg h']

/-- The statement of `deleteSignatory` run on a store in which a peer refers
to the key. -/
theorem deleteSignatory_guard_witness :
    validKey [75]
    ∧ peerWithKey.execute sampleDialect (deleteSignatory pgQuoter [75])
      = .ok { peerWithKey with signatory :=
        (if (∃ r ∈ peerWithKey.account_has_signatory, r.2 = [75])
            ∨ (∃ p ∈ peerWithKey.peer, p.pubkey = [75])
          then peerWithKey.signatory
          else peerWithKey.signatory.filter fun row => decide (row ≠ [75])) } :=
  ⟨by decide, deleteSignatory_guard sampleDialect peerWithKey [75] (by decide)⟩

set_option maxRecDepth 100000 in
/-- The scenario of signatory collection: while an account and a peer
refer to the key, `deleteSignatory` keeps its row; once the peer is deleted
and the account signatory is deleted, `deleteSignatory` removes it. -/
theorem signatory_gc_scenario :
    [75] ∈ (Store.empty.runAll sampleDialect [.insertSignatory [75],
        .insertAccountSignatory "a@d" [75], .insertPeer ⟨[75], "10.0.0.1"⟩,
        .deleteSignatory [75]]).signatory
    ∧ [75] ∉ (Store.empty.runAll sampleDialect [.insertSignatory [75],
        .insertAccountSignatory "a@d" [75], .insertPeer ⟨[75], "10.0.0.1"⟩,
        .deleteSignatory [75], .deletePeer ⟨[75], "10.0.0.1"⟩,
        .deleteAccountSignatory "a@d" [75], .deleteSignatory [75]]).signatory := by
  constructor <;> decide

set_option maxRecDepth 100000 in
/-- Claim C4 fails as stated: the state after the statement of
`insertSignatory` for the key `[1]` was run on the empty store is reachable,
and in it the equivalence fails: the signatory row for `[1]` exists while no
row of `account_has_signatory` or `peer` refers to it. -/
theorem unreferenced_signatory_reachable :
    Reachable sampleDialect (Store.empty.runAll sampleDialect [.insertSignatory [1]])
    ∧ ¬ ([1] ∈ (Store.empty.runAll sampleDialect [.insertSignatory [1]]).signatory
        ↔ ((∃ r ∈ (Store.empty.runAll sampleDialect
              [.insertSignatory [1]]).account_has_signatory, r.2 = [1])
          ∨ (∃ p ∈ (Store.empty.runAll sampleDialect [.insertSignatory [1]]).peer,
              p.pubkey = [1]))) := by
  refine ⟨⟨_, rfl⟩, ?_⟩
  decide

/-- Claim C4, amended: in every store state and whatever the checks of the
tables are, none of the statements that the six operations write removes,
when the store runs it, a signatory row whose key some row of
`account_has_signatory` or of `peer` refers to. -/
theorem referenced_signatory_kept (D : Dialect) (s : Store) (op : SigOp) (k : pubkey_t)
    (hk : k ∈ s.signatory)
    (href : (∃ r ∈ s.account_has_signatory, r.2 = k) ∨ (∃ p ∈ s.peer, p.pubkey = k)) :
    k ∈ (s.after (s.run D op)).signatory := by
  cases op with
  | insertSignatory k' =>
    simp only [Store.run, SigOp.statement,
      execute_insertSignatory D s k' (insertSignatory pgQuoter k') rfl, Store.after]
    split <;> simp [hk]
  | insertAccountSignatory a k' =>
    simp only [Store.run, SigOp.statement,
      execute_insertAccountSignatory D s a k' (insertAccountSignatory pgQuoter a k') rfl]
    split <;> simp [Store.after, hk]
  | deleteAccountSignatory a k' =>
    simpa [Store.run, SigOp.statement,
      execute_deleteAccountSignatory D s a k' (deleteAccountSignatory pgQuoter a k') rfl,
      Store.after] using hk
  | insertPeer p =>
    simp only [Store.run, SigOp.statement, execute_insertPeer D s p (insertPeer pgQuoter p) rfl]
    split <;> simp [Store.after, hk]
  | deletePeer p =>
    simpa [Store.run, SigOp.statement, execute_deletePeer D s p (deletePeer pgQuoter p) rfl,
      Store.after] using hk
  | deleteSignatory k' =>
    rw [← accountRefers_iff, ← peerRefers_iff] at href
    simp only [Store.run, SigOp.statement,
      execute_deleteSignatory D s k' (deleteSignatory pgQuoter k') rfl, Store.after]
    by_cases hkk : k = keyBytes k'
    · subst hkk
      have h' : (s.accountRefers (keyBytes k') || s.peerRefers (keyBytes k')) = true := by
        rcases href with h | h <;> simp [h]
      simp only [h', if_true]
      exact hk
    · split
      · exact hk
      · simp only [List.mem_filter, decide_eq_true_eq]
        exact ⟨hk, hkk⟩

set_option maxRecDepth 100000 in
/-- A signatory that a peer refers to survives the statement of
`deleteSignatory`. -/
theorem referenced_signatory_kept_witness :
    [7] ∈ (Store.empty.runAll sampleDialect [.insertSignatory [7],
      .insertPeer ⟨[7], "10.0.0.1"⟩, .deleteSignatory [7]]).signatory :=
  referenced_signatory_kept sampleDialect
    (Store.empty.runAll sampleDialect [.insertSignatory [7], .insertPeer ⟨[7], "10.0.0.1"⟩])
    (.deleteSignatory [7]) [7] (by decide) (by decide)

/-- Claim C12: in every store state the statement that `updateAccount`
writes succeeds when the store runs it and changes the table `account` row
by row: every row keeps its account id, its domain id and its data, a row
with another account id is unchanged, and the row with the account id of the
argument gets the quorum of the argument and the fixed transaction count 0;
no other table changes; and the statement does not depend on `json_data` or
`domain_id` of the argument. -/
theorem updateAccount_frame (D : Dialect) (s : Store) (account : Account) :
    ∃ rows, s.execute D (updateAccount pgQuoter account) = .ok { s with account := rows }
      ∧ List.Forall₂ (fun old new =>
          new.account_id = old.account_id ∧ new.domain_id = old.domain_id
          ∧ new.data = old.data
          ∧ (old.account_id ≠ account.account_id → new = old)
          ∧ (old.account_id = account.account_id →
              new.quorum = account.quorum ∧ new.transaction_count = 0))
          s.account rows
      ∧ ∀ (Q : Quoter) (json_data domain_id : String),
          updateAccount Q { account with json_data := json_data, domain_id := domain_id }
            = updateAccount Q account := by
  refine ⟨_, execute_updateAccount D s account (updateAccount pgQuoter account) rfl, ?_,
    fun _ _ _ => rfl⟩
  rw [List.forall₂_map_right_iff, List.forall₂_same]
  intro row _
  by_cases h : row.account_id = account.account_id
  · simp [h]
  · simp [h]

/-- Claim C13: in every store state, the public keys of `signatory` being
unique, for every public key `k` of bytes the statement that
`insertSignatory(k)` writes succeeds when the store runs it, whether or not
a row for `k` exists; run a second time it succeeds and changes nothing; the
table then holds exactly one row for `k`, its keys still unique, and no
other table has changed. -/
theorem insertSignatory_idempotent (D : Dialect) (s : Store) (k : pubkey_t)
    (hk : validKey k) (h : s.signatory.Nodup) :
    ∃ s1, s.execute D (insertSignatory pgQuoter k) = .ok s1
      ∧ s1.execute D (insertSignatory pgQuoter k) = .ok s1
      ∧ s1.signatory.filter (fun row => decide (row = k)) = [k] ∧ s1.signatory.Nodup
      ∧ s1 = { s with signatory := s1.signatory } := by
  have e := fun t : Store => execute_insertSignatory D t k (insertSignatory pgQuoter k) rfl
  simp only [e, keyBytes_valid k hk]
  by_cases hm : k ∈ s.signatory
  · exact ⟨s, by simp [hm], by simp [hm], filter_eq_singleton _ _ h hm, h, rfl⟩
  · have hnd : (s.signatory ++ [k]).Nodup := by
      simpa [List.nodup_append, h] using hm
    exact ⟨{ s with signatory := s.signatory ++ [k] }, by simp [hm], by simp,
      filter_eq_singleton _ _ hnd (by simp), hnd, rfl⟩

set_option maxRecDepth 100000 in
/-- A second insert of a key that the store holds leaves its one row. -/
theorem insertSignatory_idempotent_witness :
    ∃ s1, (Store.empty.runAll sampleDialect [.insertSignatory [7]]).execute sampleDialect
          (insertSignatory pgQuoter [7]) = .ok s1
      ∧ s1.execute sampleDialect (insertSignatory pgQuoter [7]) = .ok s1
      ∧ s1.signatory.filter (fun row => decide (row = [7])) = [[7]] ∧ s1.signatory.Nodup
      ∧ s1 = { Store.empty.runAll sampleDialect [.insertSignatory [7]] with
          signatory := s1.signatory } :=
  insertSignatory_idempotent sampleDialect (Store.empty.runAll sampleDialect [.insertSignatory [7]])
    [7] (by decide) (by decide)

/-- Claim C14: in every store state with at most one row for the pair
(account_id, asset_id), after the store has run with success the statement
that `upsertAccountAsset` writes, the table `account_has_asset` holds exactly
one row for the pair, with the supplied balance as amount whatever was stored
before; the rows of every other pair are unchanged, and so are the other
tables. -/
theorem upsertAccountAsset_last_write_wins (D : Dialect) (s s' : Store)
    (asset : AccountAsset)
    (hwf : (s.account_has_asset.filter
      (samePair asset.account_id asset.asset_id)).length ≤ 1)
    (hok : s.execute D (upsertAccountAsset pgQuoter asset) = .ok s') :
    s'.account_has_asset.filter (samePair asset.account_id asset.asset_id)
      = [(asset.account_id, asset.asset_id, asset.balance)]
    ∧ (s'.account_has_asset.filter fun row => !samePair asset.account_id asset.asset_id row)
      = (s.account_has_asset.filter fun row => !samePair asset.account_id asset.asset_id row)
    ∧ s' = { s with account_has_asset := s'.account_has_asset } := by
  rw [execute_upsertAccountAsset D s asset (upsertAccountAsset pgQuoter asset) rfl] at hok
  by_cases hany : s.account_has_asset.any (samePair asset.account_id asset.asset_id) = true
  · simp only [hany, if_true, Except.ok.injEq] at hok
    subst hok
    refine ⟨?_, filter_others_overwritten _ _ _ _, rfl⟩
    simp only
    rw [filter_pair_overwritten]
    obtain ⟨x, hx, hpx⟩ := List.any_eq_true.mp hany
    have hmem : x ∈ s.account_has_asset.filter (samePair asset.account_id asset.asset_id) :=
      List.mem_filter.mpr ⟨hx, hpx⟩
    cases hf : s.account_has_asset.filter (samePair asset.account_id asset.asset_id) with
    | nil => simp [hf] at hmem
    | cons y ys =>
      cases ys with
      | nil => rfl
      | cons z zs => simp [hf] at hwf
  · simp only [hany, Bool.false_eq_true, if_false] at hok
    by_cases hR : D.refuses s [.accountAsset asset.account_id asset.asset_id asset.balance]
        = true
    · simp [hR] at hok
    · simp only [hR, Bool.false_eq_true, if_false, Except.ok.injEq] at hok
      subst hok
      have hnone : s.account_has_asset.filter (samePair asset.account_id asset.asset_id)
          = [] := by
        rw [List.filter_eq_nil_iff]
        intro x hx hpx
        exact hany (List.any_eq_true.mpr ⟨x, hx, hpx⟩)
      refine ⟨?_, ?_, rfl⟩
      · simp [List.filter_append, hnone, samePair]
      · simp [List.filter_append, samePair]

set_option maxRecDepth 100000 in
/-- The balance 7.50 written over the balance 1.00. -/
theorem upsertAccountAsset_last_write_wins_witness :
    oneBalance.execute sampleDialect (upsertAccountAsset pgQuoter ⟨"a@d", "coin#d", "7.50"⟩)
      = .ok { oneBalance with account_has_asset := [("a@d", "coin#d", "7.50")] }
    ∧ ({ oneBalance with account_has_asset := [("a@d", "coin#d", "7.50")] } :
        Store).account_has_asset.filter (samePair "a@d" "coin#d")
      = [("a@d", "coin#d", "7.50")] :=
  ⟨rfl, (upsertAccountAsset_last_write_wins sampleDialect oneBalance
    { oneBalance with account_has_asset := [("a@d", "coin#d", "7.50")] }
    ⟨"a@d", "coin#d", "7.50"⟩ (by decide) rfl).1⟩

/-- The dialect of the examples keeps primary keys unique. -/
theorem sampleDialect_keepsKeysUnique : keepsKeysUnique sampleDialect := by
  intro s rows row hrow hfound
  simp only [sampleDialect, List.any_eq_true]
  exact ⟨row, hrow, hfound⟩

/-- A strict insert of one row that the store accepted: the row was not
refused, and the new store is the old one with the row. -/
theorem accepted_insert {D : Dialect} {s s' t : Store} {row : Row} {e : String}
    (h : (if D.refuses s [row] = true then Except.error e else Except.ok t) = .ok s') :
    D.refuses s [row] = false ∧ t = s' := by
  by_cases hr : D.refuses s [row] = true
  · simp [hr] at h
  · simp only [hr, Bool.false_eq_true, if_false, Except.ok.injEq] at h
    exact ⟨by simpa using hr, h⟩

/-- A row that a store which keeps primary keys unique did not refuse has a
primary key that was absent. -/
theorem absent_of_accepted {D : Dialect} (hR : keepsKeysUnique D) {s : Store} {row : Row}
    (h : D.refuses s [row] = false) : s.lookup row = none := by
  cases hl : s.lookup row with
  | none => rfl
  | some found =>
    have := hR s [row] row (by simp) (by simp [hl])
    simp [h] at this

/-- After an accepted `insertRole` the lookup returns the role. -/
theorem lookup_insertRole (D : Dialect) (s s' : Store) (r : String)
    (text : String)
    (ht : (Command.insertRole r).fragments.map (render pgQuoter) = some text)
    (h : s.execute D text = .ok s') :
    s'.lookup (.role r) = some (.role r) := by
  rw [execute_insertRole D s r text ht] at h
  obtain ⟨_, rfl⟩ := accepted_insert h
  simp only [Store.lookup]
  rw [find_whole_row _ _ (by simp)]
  rfl

/-- After an accepted `insertAccountRole` the lookup returns the row, and
after `deleteAccountRole` it returns none. -/
theorem lookup_insertAccountRole (D : Dialect) (s s' : Store) (a r : String)
    (text : String)
    (ht : (Command.insertAccountRole a r).fragments.map (render pgQuoter) = some text)
    (text' : String)
    (ht' : (Command.deleteAccountRole a r).fragments.map (render pgQuoter) = some text')
    (h : s.execute D text = .ok s') :
    s'.lookup (.accountRole a r) = some (.accountRole a r)
    ∧ ∃ s'', s'.execute D text' = .ok s''
        ∧ s''.lookup (.accountRole a r) = none := by
  rw [execute_insertAccountRole D s a r text ht] at h
  obtain ⟨_, rfl⟩ := accepted_insert h
  refine ⟨?_, _, execute_deleteAccountRole D _ a r text' ht', ?_⟩
  · simp only [Store.lookup]
    rw [find_whole_row _ _ (by simp)]
    rfl
  · simp only [Store.lookup]
    rw [find_whole_row_removed _ _ _ (by simp)]
    rfl

/-- After an accepted `insertRolePermissions` the lookup returns the row of
each permission. -/
theorem lookup_insertRolePermissions (D : Dialect) (s s' : Store) (r p : String)
    (ps : List String) (text : String)
    (ht : (Command.insertRolePermissions r (p :: ps)).fragments.map (render pgQuoter)
      = some text)
    (h : s.execute D text = .ok s') :
    ∀ q ∈ p :: ps, s'.lookup (.rolePermission r q) = some (.rolePermission r q) := by
  rw [execute_insertRolePermissions D s r p ps text ht] at h
  split at h
  · simp at h
  · simp only [Except.ok.injEq] at h
    subst h
    intro q hq
    simp only [Store.lookup]
    rw [find_whole_row _ _ (List.mem_append_right _ (List.mem_map.mpr ⟨q, hq, rfl⟩))]
    rfl

/-- After an accepted `insertAccountGrantablePermission` the lookup returns
the row, and after `deleteAccountGrantablePermission` it returns none. -/
theorem lookup_insertAccountGrantablePermission (D : Dialect) (s s' : Store) (p a i : String)
    (text : String)
    (ht : (Command.insertAccountGrantablePermission p a i).fragments.map (render pgQuoter)
      = some text)
    (text' : String)
    (ht' : (Command.deleteAccountGrantablePermission p a i).fragments.map (render pgQuoter)
      = some text')
    (h : s.execute D text = .ok s') :
    s'.lookup (.grantable p a i) = some (.grantable p a i)
    ∧ ∃ s'', s'.execute D text' = .ok s''
        ∧ s''.lookup (.grantable p a i) = none := by
  rw [execute_insertAccountGrantablePermission D s p a i text ht] at h
  obtain ⟨_, rfl⟩ := accepted_insert h
  refine ⟨?_, _, execute_deleteAccountGrantablePermission D _ p a i text' ht', ?_⟩
  · simp only [Store.lookup]
    rw [find_whole_row _ _ (by simp)]
    rfl
  · simp only [Store.lookup]
    rw [find_whole_row_removed _ _ _ (by simp)]
    rfl

/-- After an accepted `insertAccount` the lookup returns the row with the
caller's ids and quorum, the transaction count 0 and the data that the store
read from `json_data`. -/
theorem lookup_insertAccount (D : Dialect) (hR : keepsKeysUnique D) (s s' : Store)
    (a : Account) (text : String)
    (ht : (Command.insertAccount a).fragments.map (render pgQuoter) = some text)
    (h : s.execute D text = .ok s') :
    ∃ data, D.jsonbIn a.json_data = some data
      ∧ s'.lookup (.account ⟨a.account_id, a.domain_id, a.quorum, 0, data⟩)
        = some (.account ⟨a.account_id, a.domain_id, a.quorum, 0, data⟩) := by
  rw [execute_insertAccount D s a text ht] at h
  cases hJ : D.jsonbIn a.json_data with
  | none => simp [hJ] at h
  | some data =>
    simp only [hJ] at h
    obtain ⟨hr, rfl⟩ := accepted_insert h
    have habs := absent_of_accepted hR hr
    simp only [Store.lookup, Option.map_eq_none'] at habs
    refine ⟨data, rfl, ?_⟩
    simp only [Store.lookup]
    rw [find_append_new _ _ _ habs (by simp)]
    rfl

/-- After an accepted `insertAsset` the lookup returns the row with the
caller's values and no data. -/
theorem lookup_insertAsset (D : Dialect) (hR : keepsKeysUnique D) (s s' : Store)
    (a : Asset) (text : String)
    (ht : (Command.insertAsset a).fragments.map (render pgQuoter) = some text)
    (h : s.execute D text = .ok s') :
    s'.lookup (.asset ⟨a.asset_id, a.domain_id, a.precision, none⟩)
      = some (.asset ⟨a.asset_id, a.domain_id, a.precision, none⟩) := by
  rw [execute_insertAsset D s a text ht] at h
  obtain ⟨hr, rfl⟩ := accepted_insert h
  have habs := absent_of_accepted hR hr
  simp only [Store.lookup, Option.map_eq_none'] at habs
  simp only [Store.lookup]
  rw [find_append_new _ _ _ habs (by simp)]
  rfl

/-- After an accepted `upsertAccountAsset` the lookup returns the row of the
pair with the balance. -/
theorem lookup_upsertAccountAsset (D : Dialect) (s s' : Store) (a : AccountAsset)
    (text : String)
    (ht : (Command.upsertAccountAsset a).fragments.map (render pgQuoter) = some text)
    (h : s.execute D text = .ok s') :
    s'.lookup (.accountAsset a.account_id a.asset_id a.balance)
      = some (.accountAsset a.account_id a.asset_id a.balance) := by
  rw [execute_upsertAccountAsset D s a text ht] at h
  by_cases hany : s.account_has_asset.any (samePair a.account_id a.asset_id) = true
  · simp only [hany, if_true, Except.ok.injEq] at h
    subst h
    simp only [Store.lookup]
    rw [find_pair_overwritten _ _ _ _ hany]
    rfl
  · simp only [hany, Bool.false_eq_true, if_false] at h
    obtain ⟨_, rfl⟩ := accepted_insert h
    have hnone : s.account_has_asset.find? (samePair a.account_id a.asset_id) = none := by
      rw [List.find?_eq_none]
      intro x hx hpx
      exact hany (List.any_eq_true.mpr ⟨x, hx, hpx⟩)
    simp only [Store.lookup]
    rw [find_append_new _ _ _ hnone (by simp [samePair])]
    rfl

/-- The statement of `insertSignatory` succeeds, and the lookup then returns
the key. -/
theorem lookup_insertSignatory (D : Dialect) (s : Store) (k : pubkey_t) (hk : validKey k)
    (text : String)
    (ht : (Command.insertSignatory k).fragments.map (render pgQuoter) = some text) :
    ∃ s', s.execute D text = .ok s'
      ∧ s'.lookup (.signatory k) = some (.signatory k) := by
  refine ⟨_, execute_insertSignatory D s k text ht, ?_⟩
  rw [keyBytes_valid k hk]
  by_cases hm : k ∈ s.signatory
  · simp only [hm, if_true, Store.lookup]
    rw [find_whole_row _ _ hm]
    rfl
  · simp only [hm, if_false, Store.lookup]
    rw [find_whole_row _ _ (by simp)]
    rfl

/-- After an accepted `insertAccountSignatory` the lookup returns the row,
and after `deleteAccountSignatory` it returns none. -/
theorem lookup_insertAccountSignatory (D : Dialect) (s s' : Store) (a : String)
    (k : pubkey_t) (hk : validKey k)
    (text : String)
    (ht : (Command.insertAccountSignatory a k).fragments.map (render pgQuoter) = some text)
    (text' : String)
    (ht' : (Command.deleteAccountSignatory a k).fragments.map (render pgQuoter) = some text')
    (h : s.execute D text = .ok s') :
    s'.lookup (.accountSignatory a k) = some (.accountSignatory a k)
    ∧ ∃ s'', s'.execute D text' = .ok s''
        ∧ s''.lookup (.accountSignatory a k) = none := by
  rw [execute_insertAccountSignatory D s a k text ht, keyBytes_valid k hk] at h
  obtain ⟨_, rfl⟩ := accepted_insert h
  refine ⟨?_, _, execute_deleteAccountSignatory D _ a k text' ht', ?_⟩
  · simp only [Store.lookup]
    rw [find_whole_row _ _ (by simp)]
    rfl
  · rw [keyBytes_valid k hk]
    simp only [Store.lookup]
    rw [find_whole_row_removed _ _ _ (by simp)]
    rfl

/-- After an accepted `insertPeer` the lookup returns the peer, and after
`deletePeer` it returns none. -/
theorem lookup_insertPeer (D : Dialect) (hR : keepsKeysUnique D) (s s' : Store) (p : Peer)
    (hk : validKey p.pubkey) (text : String)
    (ht : (Command.insertPeer p).fragments.map (render pgQuoter) = some text)
    (text' : String)
    (ht' : (Command.deletePeer p).fragments.map (render pgQuoter) = some text')
    (h : s.execute D text = .ok s') :
    s'.lookup (.peer p) = some (.peer p)
    ∧ ∃ s'', s'.execute D text' = .ok s''
        ∧ s''.lookup (.peer p) = none := by
  rw [execute_insertPeer D s p text ht, keyBytes_valid _ hk] at h
  obtain ⟨hr, rfl⟩ := accepted_insert h
  have habs := absent_of_accepted hR hr
  simp only [Store.lookup, Option.map_eq_none'] at habs
  refine ⟨?_, _, execute_deletePeer D _ p text' ht', ?_⟩
  · simp only [Store.lookup]
    rw [find_append_new _ _ _ habs (by simp)]
    rfl
  · rw [keyBytes_valid _ hk]
    simp only [Store.lookup, Option.map_eq_none', List.find?_eq_none]
    intro x hx
    obtain ⟨hmem, hne⟩ := List.mem_filter.mp hx
    simp only [decide_eq_true_eq] at hne ⊢
    rcases List.mem_append.mp hmem with hin | hin
    · have := List.find?_eq_none.mp habs x hin
      simpa using this
    · simp only [List.mem_singleton] at hin
      exact absurd hin hne

/-- After an accepted `insertDomain` the lookup returns the domain. -/
theorem lookup_insertDomain (D : Dialect) (hR : keepsKeysUnique D) (s s' : Store)
    (d : Domain) (text : String)
    (ht : (Command.insertDomain d).fragments.map (render pgQuoter) = some text)
    (h : s.execute D text = .ok s') :
    s'.lookup (.domain d) = some (.domain d) := by
  rw [execute_insertDomain D s d text ht] at h
  obtain ⟨hr, rfl⟩ := accepted_insert h
  have habs := absent_of_accepted hR hr
  simp only [Store.lookup, Option.map_eq_none'] at habs
  simp only [Store.lookup]
  rw [find_append_new _ _ _ habs (by simp)]
  rfl

/-- The statement of `deleteSignatory` succeeds; it keeps the table
`signatory` while a row refers to the key, and otherwise the lookup of the
key then returns none. -/
theorem lookup_deleteSignatory (D : Dialect) (s : Store) (k : pubkey_t) (hk : validKey k)
    (text : String)
    (ht : (Command.deleteSignatory k).fragments.map (render pgQuoter) = some text) :
    ∃ s', s.execute D text = .ok s'
      ∧ (((∃ r ∈ s.account_has_signatory, r.2 = k) ∨ (∃ p ∈ s.peer, p.pubkey = k)) →
          s'.signatory = s.signatory)
      ∧ (¬ ((∃ r ∈ s.account_has_signatory, r.2 = k) ∨ (∃ p ∈ s.peer, p.pubkey = k)) →
          s'.lookup (.signatory k) = none) := by
  have e := execute_deleteSignatory D s k text ht
  rw [keyBytes_valid k hk] at e
  refine ⟨_, e, ?_, ?_⟩
  · intro href
    rw [← accountRefers_iff, ← peerRefers_iff] at href
    have h' : (s.accountRefers k || s.peerRefers k) = true := by
      rcases href with h | h <;> simp [h]
    simp only [h', if_true]
  · intro href
    rw [← accountRefers_iff, ← peerRefers_iff] at href
    have h' : ¬ (s.accountRefers k || s.peerRefers k) = true := by
      simpa [Bool.or_eq_true] using href
    simp only [h', if_false, Store.lookup, Bool.false_eq_true]
    rw [find_whole_row_removed _ _ _ (by simp)]
    rfl

set_option maxRecDepth 100000 in
/-- The statements of some operations run on small stores: a peer is
inserted and deleted again; a role whose name holds a single quote is stored
with its name as it is; a second insert of a role is refused; the permissions
of a role are inserted in order. -/
theorem roundtrip_scenario :
    Store.empty.execute sampleDialect (insertPeer pgQuoter ⟨[7, 255], "10.0.0.1"⟩)
      = .ok { Store.empty with peer := [⟨[7, 255], "10.0.0.1"⟩] }
    ∧ ({ Store.empty with peer := [⟨[7, 255], "10.0.0.1"⟩] } : Store).execute sampleDialect
        (deletePeer pgQuoter ⟨[7, 255], "10.0.0.1"⟩)
      = .ok Store.empty
    ∧ Store.empty.execute sampleDialect (insertRole pgQuoter "o'neil")
      = .ok { Store.empty with role := ["o'neil"] }
    ∧ ({ Store.empty with role := ["user"] } : Store).execute sampleDialect
        (insertRole pgQuoter "user")
      = .error "constraint violation"
    ∧ (insertRolePermissions pgQuoter "user" ["can_read", "can_write"]).map
        (Store.empty.execute sampleDialect)
      = some (.ok { Store.empty with
          role_has_permissions := [("user", "can_read"), ("user", "can_write")] })
    ∧ ({ Store.empty with account := [⟨"a@d", "d", 1, 0, .obj []⟩, ⟨"b@d", "d", 1, 0, .obj []⟩] } :
        Store).execute sampleDialect (updateAccount pgQuoter ⟨"a@d", "x", 3, 9, "zz"⟩)
      = .ok { Store.empty with
          account := [⟨"a@d", "d", 3, 0, .obj []⟩, ⟨"b@d", "d", 1, 0, .obj []⟩] } :=
  ⟨rfl, rfl, rfl, rfl, rfl, rfl⟩

set_option maxRecDepth 100000 in
/-- Claim C11 fails as stated: the statement that `insertAccount` writes for
an account value with the transaction count 5 succeeds on the empty store,
and the lookup by its account id returns a row whose transaction count is 0,
not the value of the caller. -/
theorem insertAccount_lookup_differs :
    Store.empty.execute sampleDialect (insertAccount pgQuoter countedAccount)
      = .ok { Store.empty with account := [⟨"a@d", "d", 1, 0, .obj []⟩] }
    ∧ ({ Store.empty with account := [⟨"a@d", "d", 1, 0, .obj []⟩] } : Store).lookup
        (.account ⟨"a@d", "d", 1, countedAccount.transaction_count, .obj []⟩)
      = some (.account ⟨"a@d", "d", 1, 0, .obj []⟩)
    ∧ countedAccount.transaction_count ≠ 0 :=
  ⟨rfl, rfl, by decide⟩

/-- Claim C11, amended: when the store keeps primary keys unique, after the
store has run with success the statement that an insert operation writes,
the lookup by primary key returns the row with the values of the caller:
for a role, an account role, each permission of a role, a grantable
permission, an asset (with no data), the balance of an account asset, a
signatory, an account signatory, a peer and a domain; for an account the row
has the caller's ids and quorum, the fixed transaction count 0 whatever the
caller supplied, and as data the value that the store reads from `json_data`.
After the statement of the delete that takes back an insert of an account
role, a grantable permission, an account signatory or a peer, which
succeeds, the lookup returns no row.  The statement of `deleteSignatory`
succeeds; it leaves the table `signatory` as it is while a row of
`account_has_signatory` or of `peer` refers to the key, and otherwise the
lookup of the key then returns no row.  Public keys are strings of bytes. -/
theorem insert_lookup_roundtrip (D : Dialect) (hR : keepsKeysUnique D) (s : Store) :
    (∀ (r : String) (s' : Store), s.execute D (insertRole pgQuoter r) = .ok s' →
      s'.lookup (.role r) = some (.role r))
    ∧ (∀ (a r : String) (s' : Store),
        s.execute D (insertAccountRole pgQuoter a r) = .ok s' →
        s'.lookup (.accountRole a r) = some (.accountRole a r)
        ∧ ∃ s'', s'.execute D (deleteAccountRole pgQuoter a r) = .ok s''
            ∧ s''.lookup (.accountRole a r) = none)
    ∧ (∀ (r p : String) (ps : List String) (s' : Store),
        (insertRolePermissions pgQuoter r (p :: ps)).map (s.execute D) = some (.ok s') →
        ∀ q ∈ p :: ps, s'.lookup (.rolePermission r q) = some (.rolePermission r q))
    ∧ (∀ (p a i : String) (s' : Store),
        s.execute D (insertAccountGrantablePermission pgQuoter p a i) = .ok s' →
        s'.lookup (.grantable p a i) = some (.grantable p a i)
        ∧ ∃ s'', s'.execute D (deleteAccountGrantablePermission pgQuoter p a i) = .ok s''
            ∧ s''.lookup (.grantable p a i) = none)
    ∧ (∀ (a : Account) (s' : Store), s.execute D (insertAccount pgQuoter a) = .ok s' →
        ∃ data, D.jsonbIn a.json_data = some data
          ∧ s'.lookup (.account ⟨a.account_id, a.domain_id, a.quorum, 0, data⟩)
            = some (.account ⟨a.account_id, a.domain_id, a.quorum, 0, data⟩))
    ∧ (∀ (a : Asset) (s' : Store), s.execute D (insertAsset pgQuoter a) = .ok s' →
        s'.lookup (.asset ⟨a.asset_id, a.domain_id, a.precision, none⟩)
          = some (.asset ⟨a.asset_id, a.domain_id, a.precision, none⟩))
    ∧ (∀ (a : AccountAsset) (s' : Store),
        s.execute D (upsertAccountAsset pgQuoter a) = .ok s' →
        s'.lookup (.accountAsset a.account_id a.asset_id a.balance)
          = some (.accountAsset a.account_id a.asset_id a.balance))
    ∧ (∀ k : pubkey_t, validKey k →
        ∃ s', s.execute D (insertSignatory pgQuoter k) = .ok s'
          ∧ s'.lookup (.signatory k) = some (.signatory k))
    ∧ (∀ (a : String) (k : pubkey_t) (s' : Store), validKey k →
        s.execute D (insertAccountSignatory pgQuoter a k) = .ok s' →
        s'.lookup (.accountSignatory a k) = some (.accountSignatory a k)
        ∧ ∃ s'', s'.execute D (deleteAccountSignatory pgQuoter a k) = .ok s''
            ∧ s''.lookup (.accountSignatory a k) = none)
    ∧ (∀ (p : Peer) (s' : Store), validKey p.pubkey →
        s.execute D (insertPeer pgQuoter p) = .ok s' →
        s'.lookup (.peer p) = some (.peer p)
        ∧ ∃ s'', s'.execute D (deletePeer pgQuoter p) = .ok s''
            ∧ s''.lookup (.peer p) = none)
    ∧ (∀ (d : Domain) (s' : Store), s.execute D (insertDomain pgQuoter d) = .ok s' →
        s'.lookup (.domain d) = some (.domain d))
    ∧ (∀ k : pubkey_t, validKey k →
        ∃ s', s.execute D (deleteSignatory pgQuoter k) = .ok s'
          ∧ (((∃ r ∈ s.account_has_signatory, r.2 = k) ∨ (∃ p ∈ s.peer, p.pubkey = k)) →
              s'.signatory = s.signatory)
          ∧ (¬ ((∃ r ∈ s.account_has_signatory, r.2 = k) ∨ (∃ p ∈ s.peer, p.pubkey = k)) →
              s'.lookup (.signatory k) = none)) :=
  ⟨fun r s' h => lookup_insertRole D s s' r (insertRole pgQuoter r) rfl h,
    fun a r s' h => lookup_insertAccountRole D s s' a r (insertAccountRole pgQuoter a r) rfl
      (deleteAccountRole pgQuoter a r) rfl h,
    fun r p ps s' h => by
      have hs : (Command.insertRolePermissions r (p :: ps)).fragments.map (render pgQuoter)
          = insertRolePermissions pgQuoter r (p :: ps) := by
        simp only [Command.fragments, insertRolePermissions, generate_perm_string,
          Option.map_some']
        rw [render_cons, render_append, render_append, render_tupleFrags,
          ← String.append_assoc, ← String.append_assoc, ← render_moreTupleFrags]
        simp [Frag.render, render, String.append_assoc]
      cases ht : insertRolePermissions pgQuoter r (p :: ps) with
      | none => simp [ht] at h
      | some text =>
        rw [ht] at hs
        rw [ht, Option.map_some', Option.some.injEq] at h
        exact lookup_insertRolePermissions D s s' r p ps text hs h,
    fun p a i s' h => lookup_insertAccountGrantablePermission D s s' p a i
      (insertAccountGrantablePermission pgQuoter p a i) rfl
      (deleteAccountGrantablePermission pgQuoter p a i) rfl h,
    fun a s' h => lookup_insertAccount D hR s s' a (insertAccount pgQuoter a) rfl h,
    fun a s' h => lookup_insertAsset D hR s s' a (insertAsset pgQuoter a) rfl h,
    fun a s' h => lookup_upsertAccountAsset D s s' a (upsertAccountAsset pgQuoter a) rfl h,
    fun k hk => lookup_insertSignatory D s k hk (insertSignatory pgQuoter k) rfl,
    fun a k s' hk h => lookup_insertAccountSignatory D s s' a k hk
      (insertAccountSignatory pgQuoter a k) rfl (deleteAccountSignatory pgQuoter a k) rfl h,
    fun p s' hk h => lookup_insertPeer D hR s s' p hk (insertPeer pgQuoter p) rfl
      (deletePeer pgQuoter p) rfl h,
    fun d s' h => lookup_insertDomain D hR s s' d (insertDomain pgQuoter d) rfl h,
    fun k hk => lookup_deleteSignatory D s k hk (deleteSignatory pgQuoter k) rfl⟩

set_option maxRecDepth 100000 in
/-- The row found after the statement of `insertAccount` for the account
value with the transaction count 5 was run on the empty store. -/
theorem insert_lookup_roundtrip_witness :
    ∃ data, sampleDialect.jsonbIn countedAccount.json_data = some data
      ∧ ({ Store.empty with account := [⟨"a@d", "d", 1, 0, .obj []⟩] } : Store).lookup
          (.account ⟨"a@d", "d", 1, 0, data⟩)
        = some (.account ⟨"a@d", "d", 1, 0, data⟩) :=
  (insert_lookup_roundtrip sampleDialect sampleDialect_keepsKeysUnique Store.empty).2.2.2.2.1
    countedAccount _ rfl

end Iroha
